import Mathlib

/-!
# Sunrise / sunset model of `danward79/sunrise`

A shallow embedding of `sunrise.go` and of the scheduler of `cron.go`.

Modelling conventions.

* Go's `float64` is idealised as an ordered field `F` with a floor function
  (`LinearOrderedField F`, `FloorRing F`): arithmetic is exact, decimal
  literals of the source denote the corresponding rationals, and there is
  no NaN or infinity.  Statements about the true trigonometric functions
  are made at `F = ℝ`.
* Two places where the idealisation decides a property are modelled
  explicitly.  The rounding of float64 is `toFloat64` (round to nearest,
  ties to even, 53 bits), and `AddDays64` is `AddDays` with its cursor
  addition rounded; between 2^21 and 2^22, the Julian days of the years
  1030 to 6771, float64 values are the multiples of 2^-31 (`IsCursor64`)
  and whole-day steps are exact.  The conversion `int64(x)` is `toInt64`,
  an unbounded integer; `GoTimeInRange` says that `goTime` stays inside
  `int64`, which holds for Julian days between 2^21 and 2^22.
* The functions of Go's `math` package that the source calls (`math.Pi`,
  `math.Sin`, `math.Cos`, `math.Asin`, `math.Acos`) are a parameter
  `M : GoMath F`; `realMath` is their intended meaning on `ℝ`.
  `math.Floor` is `Int.floor`.
* `time.Now()` is an explicit input: `now` is `time.Now().Unix()` and
  `zone` is `time.Now().Location()`.
* A `time.Time` built by `time.Unix(unix, 0).In(loc)` is the pair of its
  Unix second and its zone.
* Methods with a pointer receiver that assign fields are functions
  `Location F → Location F`; a method of `LocTask` that also returns a
  value returns the value paired with the receiver after the call.
* The timer engine `github.com/danward79/cron` is outside the source tree:
  its state is the list of registered entries, and which specs `AddFunc`
  accepts is a parameter `E : TimerEngine`.  The job of an entry is the
  function literal of `LocTask.schedule`, represented by the variables it
  captures and run by `fire`.
* The output channel is the list of the records sent on it, oldest first;
  a record of type `map[string]string` is the list of its keys and values.
* All calls of `time.Now()` made during one call of `Start`, or during one
  run of a handler, read the same `now : Moment`.
-/

namespace SunriseGo

/-- The functions and the constant of Go's `math` package used by
`sin`, `cos`, `asin` and `acos` of `sunrise.go`. -/
structure GoMath (F : Type) where
  /-- Go: `math.Pi` -/
  Pi : F
  /-- Go: `math.Sin`, radians -/
  Sin : F → F
  /-- Go: `math.Cos`, radians -/
  Cos : F → F
  /-- Go: `math.Asin`, radians -/
  Asin : F → F
  /-- Go: `math.Acos`, radians -/
  Acos : F → F

/-- The `math` package interpreted by the real functions. -/
noncomputable def realMath : GoMath ℝ where
  Pi := Real.pi
  Sin := Real.sin
  Cos := Real.cos
  Asin := Real.arcsin
  Acos := Real.arccos

/-- Go: `*time.Location`, identified by its name. -/
structure TimeLocation where
  name : String
  deriving DecidableEq, Repr

/-- Go: `time.Time` as produced by `time.Unix(unix, 0).In(loc)`. -/
structure Time where
  unix : Int
  loc : TimeLocation
  deriving DecidableEq, Repr

section Model

variable {F : Type} [LinearOrderedField F]

/-- Go: `jepoch = float64(2451545.0)` -/
def jepoch : F := 2451545

/-- Go: `uepoch = int64(946728000.0)` -/
def uepoch : Int := 946728000

/-- Go: `type Location struct` -/
structure Location (F : Type) where
  location : TimeLocation
  latitude : F
  longitude : F
  jstar : F
  solarNoon : F
  hourAngleInDays : F

/-- Go: `func sin(degrees float64) float64` -/
def sin (M : GoMath F) (degrees : F) : F := M.Sin (degrees * M.Pi / 180)

/-- Go: `func cos(degrees float64) float64` -/
def cos (M : GoMath F) (degrees : F) : F := M.Cos (degrees * M.Pi / 180)

/-- Go: `func asin(x float64) float64` -/
def asin (M : GoMath F) (x : F) : F := M.Asin x * 180 / M.Pi

/-- Go: `func acos(x float64) float64` -/
def acos (M : GoMath F) (x : F) : F :=
  if x ≥ 1 then 0
  else if x ≤ -1 then 180
  else M.Acos x * 180 / M.Pi

variable [FloorRing F]

/-- Go: `math.Floor`, the result read back as a float. -/
def floorF (x : F) : F := ((⌊x⌋ : Int) : F)

/-- Go: the conversion `int64(x)` of a float, which drops the fraction
(rounds toward zero). -/
def toInt64 (x : F) : Int := if 0 ≤ x then ⌊x⌋ else ⌈x⌉

/-- Go: the range of `int64`.  Inside it the conversion `int64(x)` gives
the truncated value and integer addition does not wrap around. -/
def InInt64 (n : Int) : Prop := -9223372036854775808 ≤ n ∧ n ≤ 9223372036854775807

/-- Rounding to the nearest integer, a tie going to the even one. -/
def roundHalfEven (q : F) : Int :=
  if q - (⌊q⌋ : Int) < 1 / 2 then ⌊q⌋
  else if 1 / 2 < q - (⌊q⌋ : Int) then ⌊q⌋ + 1
  else if ⌊q⌋ % 2 = 0 then ⌊q⌋ else ⌊q⌋ + 1

/-- Go: the float64 nearest to the exact value `x`, as IEEE 754 arithmetic
rounds the result of an operation and of the conversion `float64(n)`: to
nearest, a tie to the even significand, 53 significant bits.
`Int.log 2 |x|` is the binary exponent of `x`, so the float64 values next to
`x` are the multiples of `2 ^ (Int.log 2 |x| - 52)`.  Overflow and
subnormal numbers are not modelled. -/
def toFloat64 (x : F) : F :=
  if x = 0 then 0
  else (roundHalfEven (x / 2 ^ (Int.log 2 |x| - 52)) : F) * 2 ^ (Int.log 2 |x| - 52)

/-- The float64 values from 2^21 up to 2^22, which hold the Julian days of
the years 1030 to 6771: the multiples of 2^-31 in that range. -/
def IsCursor64 (x : F) : Prop :=
  x * 2147483648 = ((⌊x * 2147483648⌋ : Int) : F) ∧ 2097152 ≤ x ∧ x < 4194304

/-- Go: `func mod360(x float64) float64` -/
def mod360 (x : F) : F := x - 360 * floorF (x / 360)

/-- Go: `func julianDay(unix int64) float64` -/
def julianDay (unix : Int) : F := ((unix - uepoch : Int) : F) / 86400 + jepoch

/-- Go: `func jStar(longitude float64) float64`; `now` is
`time.Now().Unix()`. -/
def jStar (now : Int) (longitude : F) : F :=
  floorF (julianDay now - 0.0009 + longitude / 360 + 0.5) + 0.0009 - longitude / 360

/-- Go: `func goTime(julianDay float64, loc *time.Location) time.Time` -/
def goTime (julianDay : F) (loc : TimeLocation) : Time :=
  let unix := uepoch + toInt64 ((julianDay - jepoch) * 86400)
  { unix := unix, loc := loc }

/-- The Julian days for which `goTime` stays inside `int64`: the seconds
that `int64(...)` converts and their sum with `uepoch`.  For these the
unbounded `toInt64` and `+` of `goTime` are the operations of the
source. -/
def GoTimeInRange (julianDay : F) : Prop :=
  InInt64 (toInt64 ((julianDay - jepoch) * 86400)) ∧
    InInt64 (uepoch + toInt64 ((julianDay - jepoch) * 86400))

/-- Go: `func (l *Location) computeSolarNoonHourAngle()` -/
def computeSolarNoonHourAngle (M : GoMath F) (l : Location F) : Location F :=
  let ma := mod360 (357.5291 + 0.98560028 * (l.jstar - jepoch))
  let center := 1.9148 * sin M ma + 0.02 * sin M (2 * ma) + 0.0003 * sin M (3 * ma)
  let el := mod360 (ma + 102.9372 + center + 180)
  let solarNoon := l.jstar + 0.0053 * sin M ma - 0.0069 * sin M (2 * el)
  let declination := asin M (sin M el * sin M 23.45)
  { l with
    solarNoon := solarNoon
    hourAngleInDays :=
      acos M ((sin M (-0.83) - sin M l.latitude * sin M declination)
        / (cos M l.latitude * cos M declination)) / 360 }

/-- Go: `func NewLocation(latitude float64, longitude float64) *Location` -/
def NewLocation (M : GoMath F) (zone : TimeLocation) (now : Int)
    (latitude longitude : F) : Location F :=
  let l : Location F :=
    { location := zone
      latitude := latitude
      longitude := longitude
      jstar := jStar now longitude
      solarNoon := 0
      hourAngleInDays := 0 }
  computeSolarNoonHourAngle M l

/-- Go: `func (l *Location) Today()` -/
def Today (M : GoMath F) (now : Int) (l : Location F) : Location F :=
  computeSolarNoonHourAngle M { l with jstar := jStar now l.longitude }

/-- Go: `func (l *Location) AddDays(numDays int)` -/
def AddDays (M : GoMath F) (numDays : Int) (l : Location F) : Location F :=
  computeSolarNoonHourAngle M { l with jstar := l.jstar + (numDays : F) }

/-- Go: `func (l *Location) AddDays(numDays int)` with the statement
`l.jstar += float64(numDays)` executed in float64: the conversion of
`numDays` and the sum are each rounded by `toFloat64`.  `AddDays` above is
the same function with the sum taken exactly. -/
def AddDays64 (M : GoMath F) (numDays : Int) (l : Location F) : Location F :=
  computeSolarNoonHourAngle M { l with jstar := toFloat64 (l.jstar + toFloat64 (numDays : F)) }

/-- Go: `func (l *Location) Sunrise() time.Time` -/
def Sunrise (l : Location F) : Time :=
  goTime (l.solarNoon - l.hourAngleInDays) l.location

/-- Go: `func (l *Location) Sunset() time.Time` -/
def Sunset (l : Location F) : Time :=
  goTime (l.solarNoon + l.hourAngleInDays) l.location

/-- The instant that `Sunrise` (for `rise`) or `Sunset` returns when the
day cursor of `l` is `jstar`: the sunrise or sunset of that day anchor. -/
def instantOfDay (M : GoMath F) (rise : Bool) (l : Location F) (jstar : F) : Time :=
  if rise then Sunrise (computeSolarNoonHourAngle M { l with jstar := jstar })
  else Sunset (computeSolarNoonHourAngle M { l with jstar := jstar })

/-- Modelled from the spec: the timer engine `github.com/danward79/cron`
is not part of the source tree; an entry is a registered trigger, named
by its schedule string.  Its job is the function literal of
`LocTask.schedule`, represented by the variables it captures: `rise` and
`i`. -/
structure Entry where
  spec : String
  rise : Bool
  i : Int
  deriving DecidableEq, Repr

/-- Modelled from the spec: the timer engine's state, the registered
triggers and whether it was started. -/
structure Cron where
  entries : List Entry
  running : Bool
  deriving DecidableEq, Repr

/-- Modelled from the spec: `cron.New()`, a fresh engine with nothing
registered. -/
def Cron.New : Cron := { entries := [], running := false }

/-- Go: `type LocTask struct` -/
structure LocTask (F : Type) where
  location : Location F
  cronSch : Cron

/-- Go: `func New(latitude float64, longitude float64) *LocTask` -/
def New (M : GoMath F) (zone : TimeLocation) (now : Int)
    (latitude longitude : F) : LocTask F :=
  { location := NewLocation M zone now latitude longitude, cronSch := Cron.New }

/-- The mean anomaly `ma` of `computeSolarNoonHourAngle` for day anchor
`jstar`. -/
def meanAnomaly (jstar : F) : F :=
  mod360 (357.5291 + 0.98560028 * (jstar - jepoch))

/-- The ecliptic longitude `el` of `computeSolarNoonHourAngle`. -/
def eclipticLongitude (M : GoMath F) (jstar : F) : F :=
  let ma := meanAnomaly jstar
  let center := 1.9148 * sin M ma + 0.02 * sin M (2 * ma) + 0.0003 * sin M (3 * ma)
  mod360 (ma + 102.9372 + center + 180)

/-- The value `computeSolarNoonHourAngle` stores in `solarNoon`. -/
def solarNoonOf (M : GoMath F) (jstar : F) : F :=
  jstar + 0.0053 * sin M (meanAnomaly jstar)
    - 0.0069 * sin M (2 * eclipticLongitude M jstar)

/-- The local `declination` of `computeSolarNoonHourAngle`. -/
def declinationOf (M : GoMath F) (jstar : F) : F :=
  asin M (sin M (eclipticLongitude M jstar) * sin M 23.45)

/-- The argument `computeSolarNoonHourAngle` passes to `acos`. -/
def hourAngleArg (M : GoMath F) (latitude jstar : F) : F :=
  (sin M (-0.83) - sin M latitude * sin M (declinationOf M jstar))
    / (cos M latitude * cos M (declinationOf M jstar))

/-- The value `computeSolarNoonHourAngle` stores in `hourAngleInDays`. -/
def hourAngleOf (M : GoMath F) (latitude jstar : F) : F :=
  acos M (hourAngleArg M latitude jstar) / 360

/-- The derived fields hold the values of the solar equation for the
location's own `jstar` and `latitude`. -/
def Fresh (M : GoMath F) (l : Location F) : Prop :=
  l.solarNoon = solarNoonOf M l.jstar ∧
    l.hourAngleInDays = hourAngleOf M l.latitude l.jstar

/-- The states of a `Location` reachable through the public API:
`NewLocation`, then any sequence of `Today` and `AddDays`. -/
inductive Reachable (M : GoMath F) : Location F → Prop
  | newLocation (zone : TimeLocation) (now : Int) (latitude longitude : F) :
      Reachable M (NewLocation M zone now latitude longitude)
  | today (now : Int) {l : Location F} :
      Reachable M l → Reachable M (Today M now l)
  | addDays (numDays : Int) {l : Location F} :
      Reachable M l → Reachable M (AddDays M numDays l)

/-- Go: the value of `time.Now()`, its Unix second and the nanoseconds
into that second. -/
structure Moment where
  unix : Int
  nsec : Nat
  deriving DecidableEq, Repr

/-- Go: `time.Now().After(t)` for a `t` of whole seconds. -/
def Moment.After (now : Moment) (t : Time) : Bool :=
  decide (t.unix < now.unix ∨ (t.unix = now.unix ∧ 0 < now.nsec))

/-- Go: `time.Hour`, counted in seconds. -/
def Hour : Int := 3600

/-- Go: `t.Add(d)`, the duration `d` counted in seconds. -/
def Time.Add (t : Time) (d : Int) : Time := { t with unix := t.unix + d }

/-- The calendar accessors of Go's `time` package used by `cronFormat`:
`t.Second()`, `t.Minute()`, `t.Hour()`, `t.Day()` and `int(t.Month())`.
They depend on the zone database and are a parameter. -/
structure GoCalendar where
  Second : Time → Int
  Minute : Time → Int
  Hour : Time → Int
  Day : Time → Int
  Month : Time → Int

/-- Day of the month and month of the day `z` days after 1970-01-01 in the
proleptic Gregorian calendar. -/
def civilFromDays (z : Int) : Int × Int :=
  let z := z + 719468
  let era := z / 146097
  let doe := z - era * 146097
  let yoe := (doe - doe / 1460 + doe / 36524 - doe / 146096) / 365
  let doy := doe - (365 * yoe + yoe / 4 - yoe / 100)
  let mp := (5 * doy + 2) / 153
  let d := doy - (153 * mp + 2) / 5 + 1
  let m := if mp < 10 then mp + 3 else mp - 9
  (d, m)

/-- The calendar accessors of a `time.Time` read in UTC. -/
def utcCalendar : GoCalendar where
  Second := fun t => t.unix % 60
  Minute := fun t => t.unix / 60 % 60
  Hour := fun t => t.unix / 3600 % 24
  Day := fun t => (civilFromDays (t.unix / 86400)).1
  Month := fun t => (civilFromDays (t.unix / 86400)).2

/-- Go: `func cronFormat(t time.Time) string`, the format
`"%d %d %d %d %d *"`. -/
def cronFormat (C : GoCalendar) (t : Time) : String :=
  toString (C.Second t) ++ " " ++ toString (C.Minute t) ++ " " ++ toString (C.Hour t)
    ++ " " ++ toString (C.Day t) ++ " " ++ toString (C.Month t) ++ " *"

/-- Modelled from the spec: the timer engine may reject a registration
(a malformed trigger spec); `accepts` says which specs it takes. -/
structure TimerEngine where
  accepts : String → Bool

/-- An engine that takes every spec. -/
def acceptAll : TimerEngine := { accepts := fun _ => true }

/-- An engine that rejects every spec. -/
def rejectAll : TimerEngine := { accepts := fun _ => false }

/-- Modelled from the spec: `cron.AddFunc(spec, job)` returns the new entry
and no error, or no entry and an error (`none`); only an accepted
registration changes the engine. -/
def Cron.AddFunc (E : TimerEngine) (c : Cron) (spec : String) (rise : Bool) (i : Int) :
    Cron × Option Entry :=
  if E.accepts spec then
    ({ c with entries := c.entries ++ [{ spec := spec, rise := rise, i := i }] },
      some { spec := spec, rise := rise, i := i })
  else (c, none)

/-- Modelled from the spec: `cron.Remove(e)` cancels a registration. -/
def Cron.Remove (c : Cron) (e : Entry) : Cron := { c with entries := c.entries.erase e }

/-- Modelled from the spec: `cron.Start()`. -/
def Cron.Start (c : Cron) : Cron := { c with running := true }

/-- Go: a value of `map[string]string`, as the list of its keys with their
values. -/
abbrev Record := List (String × String)

/-- Go: the contents sent so far on a `chan map[string]string`. -/
abbrev Chan := List Record

/-- Go: `func send(s string, t string, ch chan map[string]string)` -/
def send (s t : String) (ch : Chan) : Chan :=
  let m : Record := [("location", s), ("state", t)]
  ch ++ [m]

/-- Go: `func (l *LocTask) nextSunset() time.Time`; the receiver after the
call is the second component. -/
def nextSunset (M : GoMath F) (now : Moment) (l : LocTask F) : Time × LocTask F :=
  let loc := AddDays M 1 (Today M now.unix l.location)
  (Sunset loc, { l with location := loc })

/-- Go: `func (l *LocTask) nextSunrise() time.Time`; the receiver after the
call is the second component. -/
def nextSunrise (M : GoMath F) (now : Moment) (l : LocTask F) : Time × LocTask F :=
  let loc := AddDays M 1 (Today M now.unix l.location)
  (Sunrise loc, { l with location := loc })

/-- Go: `func (l *LocTask) schedule(t time.Time, i int, rise bool, ch ...)`:
the registration; the error `AddFunc` returns is assigned to `_`. -/
def schedule (E : TimerEngine) (C : GoCalendar) (l : LocTask F) (t : Time) (i : Int)
    (rise : Bool) : LocTask F :=
  { l with cronSch := (l.cronSch.AddFunc E (cronFormat C (t.Add (i * Hour))) rise i).1 }

/-- Go: `func (l *LocTask) scheduleNext(t time.Time, rise bool, ch ...)`,
the loop `for i := -2; i <= 1; i++`. -/
def scheduleNext (E : TimerEngine) (C : GoCalendar) (l : LocTask F) (t : Time)
    (rise : Bool) : LocTask F :=
  ([-2, -1, 0, 1] : List Int).foldl (fun l i => schedule E C l t i rise) l

/-- Go: the function literal that `schedule` registers, run by the engine
when the entry `e` fires at the moment `now`: it removes `e`, sends one
record and registers the next occurrence with the same `i`. -/
def fire (E : TimerEngine) (C : GoCalendar) (M : GoMath F) (now : Moment) (e : Entry)
    (s : Chan × LocTask F) : Chan × LocTask F :=
  let l : LocTask F := { s.2 with cronSch := s.2.cronSch.Remove e }
  if e.rise then
    let ch := send "sunrise" (toString e.i) s.1
    let n := nextSunrise M now l
    (ch, schedule E C n.2 n.1 e.i true)
  else
    let ch := send "sunset" (toString e.i) s.1
    let n := nextSunset M now l
    (ch, schedule E C n.2 n.1 e.i false)

/-- The base instant that the function literal of `schedule` passes to the
next registration: `l.nextSunrise()` for a sunrise entry, `l.nextSunset()`
for a sunset entry. -/
def nextInstant (M : GoMath F) (now : Moment) (rise : Bool) (l : Location F) : Time :=
  if rise then Sunrise (AddDays M 1 (Today M now.unix l))
  else Sunset (AddDays M 1 (Today M now.unix l))

/-- Go: `LocTask.Start` up to the comment `//Schedule cron`: the engine is
started, the location is set to today and a base instant that `now` is
after is replaced by the next one.  Returns `tSunrise`, `tSunset` and the
receiver. -/
def startInstants (M : GoMath F) (now : Moment) (l : LocTask F) :
    Time × Time × LocTask F :=
  let l₁ : LocTask F :=
    { location := Today M now.unix l.location, cronSch := l.cronSch.Start }
  let tSunrise := Sunrise l₁.location
  let tSunset := Sunset l₁.location
  let r := if now.After tSunrise then nextSunrise M now l₁ else (tSunrise, l₁)
  let s := if now.After tSunset then nextSunset M now r.2 else (tSunset, r.2)
  (r.1, s.1, s.2)

/-- Go: `func (l *LocTask) Start() chan map[string]string`; the receiver
after the call is the second component.  `fmt.Println(l)` is left out. -/
def Start (E : TimerEngine) (C : GoCalendar) (M : GoMath F) (now : Moment)
    (l : LocTask F) : Chan × LocTask F :=
  let chOut : Chan := []
  let b := startInstants M now l
  let l₂ := scheduleNext E C b.2.2 b.1 true
  let l₃ := scheduleNext E C l₂ b.2.1 false
  (chOut, l₃)

end Model

/-! ## Unfolding lemmas -/

section Basic

variable {F : Type} [LinearOrderedField F] [FloorRing F]

theorem compute_solarNoon (M : GoMath F) (l : Location F) :
    (computeSolarNoonHourAngle M l).solarNoon = solarNoonOf M l.jstar := rfl

theorem compute_hourAngle (M : GoMath F) (l : Location F) :
    (computeSolarNoonHourAngle M l).hourAngleInDays
      = hourAngleOf M l.latitude l.jstar := rfl

theorem compute_jstar (M : GoMath F) (l : Location F) :
    (computeSolarNoonHourAngle M l).jstar = l.jstar := rfl

theorem compute_latitude (M : GoMath F) (l : Location F) :
    (computeSolarNoonHourAngle M l).latitude = l.latitude := rfl

theorem compute_longitude (M : GoMath F) (l : Location F) :
    (computeSolarNoonHourAngle M l).longitude = l.longitude := rfl

theorem compute_location (M : GoMath F) (l : Location F) :
    (computeSolarNoonHourAngle M l).location = l.location := rfl

theorem fresh_compute (M : GoMath F) (l : Location F) :
    Fresh M (computeSolarNoonHourAngle M l) := ⟨rfl, rfl⟩

theorem fresh_of_reachable (M : GoMath F) {l : Location F}
    (h : Reachable M l) : Fresh M l := by
  cases h with
  | newLocation zone now latitude longitude => exact fresh_compute M _
  | today now h => exact fresh_compute M _
  | addDays numDays h => exact fresh_compute M _

/-- A fresh location is a fixed point of the recomputation. -/
theorem compute_eq_self_of_fresh (M : GoMath F) {l : Location F}
    (h : Fresh M l) : computeSolarNoonHourAngle M l = l := by
  obtain ⟨h1, h2⟩ := h
  cases l with
  | mk location latitude longitude jstar solarNoon hourAngleInDays =>
    simp only at h1 h2
    subst h1 h2
    rfl

/-- Two locations with the same stored inputs recompute to the same
state. -/
theorem compute_congr (M : GoMath F) (l₁ l₂ : Location F)
    (hz : l₁.location = l₂.location) (hlat : l₁.latitude = l₂.latitude)
    (hlon : l₁.longitude = l₂.longitude) (hj : l₁.jstar = l₂.jstar) :
    computeSolarNoonHourAngle M l₁ = computeSolarNoonHourAngle M l₂ := by
  cases l₁; cases l₂
  simp only at hz hlat hlon hj
  subst hz hlat hlon hj
  rfl

end Basic

/-! ## Truncation to whole seconds -/

section Trunc

variable {F : Type} [LinearOrderedField F] [FloorRing F]

theorem toInt64_of_nonneg {x : F} (h : 0 ≤ x) : toInt64 x = ⌊x⌋ := by
  simp [toInt64, h]

theorem toInt64_of_nonpos {x : F} (h : x ≤ 0) : toInt64 x = ⌈x⌉ := by
  rcases h.lt_or_eq with h | h
  · simp [toInt64, not_le.mpr h]
  · simp [toInt64, h]

/-- Dropping the fraction moves a value by less than one. -/
theorem toInt64_sub_lt (x : F) : x - 1 < (toInt64 x : F) ∧ (toInt64 x : F) < x + 1 := by
  rcases le_or_lt 0 x with h | h
  · rw [toInt64_of_nonneg h]
    exact ⟨Int.sub_one_lt_floor x, lt_of_le_of_lt (Int.floor_le x) (lt_add_one x)⟩
  · rw [toInt64_of_nonpos h.le]
    exact ⟨lt_of_lt_of_le (sub_one_lt x) (Int.le_ceil x), Int.ceil_lt_add_one x⟩

/-- Two values a whole number `n ≥ 0` apart are truncated to integers `n`
or `n - 1` apart. -/
theorem toInt64_add_int (u : F) (n : Int) (hn : 0 ≤ n) :
    (toInt64 (u + n) - toInt64 u = n ∨ toInt64 (u + n) - toInt64 u = n - 1) ∧
      ((0 ≤ u ∨ u + n ≤ 0) → toInt64 (u + n) - toInt64 u = n) := by
  have hn' : (0 : F) ≤ (n : F) := by exact_mod_cast hn
  rcases le_or_lt 0 u with h | h
  · have hv : 0 ≤ u + n := add_nonneg h hn'
    have e : toInt64 (u + n) - toInt64 u = n := by
      rw [toInt64_of_nonneg h, toInt64_of_nonneg hv, Int.floor_add_int]; ring
    exact ⟨Or.inl e, fun _ => e⟩
  · rcases le_or_lt (u + n) 0 with hv | hv
    · have e : toInt64 (u + n) - toInt64 u = n := by
        rw [toInt64_of_nonpos h.le, toInt64_of_nonpos hv, Int.ceil_add_int]; ring
      exact ⟨Or.inl e, fun _ => e⟩
    · refine ⟨?_, fun h' => ?_⟩
      · rw [toInt64_of_nonpos h.le, toInt64_of_nonneg hv.le, Int.floor_add_int]
        have h1 := Int.floor_le_ceil u
        have h2 := Int.ceil_le_floor_add_one u
        omega
      · rcases h' with h' | h'
        · exact absurd h' (not_le.mpr h)
        · exact absurd h' (not_le.mpr hv)

end Trunc

/-! ## Rounding to float64 -/

section Rounding

variable {F : Type} [LinearOrderedField F] [FloorRing F]

theorem roundHalfEven_of_lt {q : F} {n : Int} (h1 : (n : F) - 1 / 2 < q)
    (h2 : q < (n : F) + 1 / 2) : roundHalfEven q = n := by
  unfold roundHalfEven
  rcases le_or_lt (n : F) q with h | h
  · have hf : ⌊q⌋ = n := by
      rw [Int.floor_eq_iff]; constructor <;> linarith
    rw [hf, if_pos (by linarith)]
  · have hf : ⌊q⌋ = n - 1 := by
      rw [Int.floor_eq_iff]; push_cast; constructor <;> linarith
    rw [hf]
    push_cast
    rw [if_neg (by linarith), if_pos (by linarith)]
    ring

theorem roundHalfEven_intCast (n : Int) : roundHalfEven (n : F) = n :=
  roundHalfEven_of_lt (by linarith) (by linarith)

/-- A tie goes to the even neighbour. -/
theorem roundHalfEven_half (f : Int) :
    roundHalfEven ((f : F) + 1 / 2) = if f % 2 = 0 then f else f + 1 := by
  unfold roundHalfEven
  have hf : ⌊(f : F) + 1 / 2⌋ = f := by
    rw [Int.floor_eq_iff]; constructor <;> linarith
  rw [hf, if_neg (by linarith), if_neg (by linarith)]

/-- The binary exponent of a value between two consecutive powers of 2. -/
theorem log_two_abs_eq {x : F} {e : Int} (h1 : (2 : F) ^ e ≤ |x|)
    (h2 : |x| < (2 : F) ^ (e + 1)) : Int.log 2 |x| = e := by
  have hpos : 0 < |x| := lt_of_lt_of_le (zpow_pos (by norm_num) e) h1
  have a : Int.log 2 |x| < e + 1 := by
    rw [← Int.lt_zpow_iff_log_lt (by norm_num) hpos]
    simpa using h2
  have b : e ≤ Int.log 2 |x| := by
    rw [← Int.zpow_le_iff_le_log (by norm_num) hpos]
    simpa using h1
  omega

/-- The value of `toFloat64` from the binade of `x`. -/
theorem toFloat64_of_binade {x : F} (e : Int) (h1 : (2 : F) ^ e ≤ |x|)
    (h2 : |x| < (2 : F) ^ (e + 1)) :
    toFloat64 x = (roundHalfEven (x / 2 ^ (e - 52)) : F) * 2 ^ (e - 52) := by
  have hpos : 0 < |x| := lt_of_lt_of_le (zpow_pos (by norm_num) e) h1
  have hx : x ≠ 0 := abs_pos.mp hpos
  unfold toFloat64
  rw [if_neg hx, log_two_abs_eq h1 h2]

/-- A multiple of the spacing of its own binade is a float64. -/
theorem toFloat64_of_grid {x : F} (k : Int)
    (hk : x = (k : F) * 2 ^ (Int.log 2 |x| - 52)) : toFloat64 x = x := by
  unfold toFloat64
  split_ifs with h0
  · exact h0.symm
  · have hp : (2 : F) ^ (Int.log 2 |x| - 52) ≠ 0 := (zpow_pos (by norm_num) _).ne'
    have hq : x / 2 ^ (Int.log 2 |x| - 52) = (k : F) := by
      rw [eq_comm, eq_div_iff hp]; exact hk.symm
    rw [hq, roundHalfEven_intCast, ← hk]

/-- A multiple of 2^-31 from 2^21 up to 2^22 is a cursor value. -/
theorem isCursor64_of_int {x : F} (k : Int) (hk : x = (k : F) / 2147483648)
    (h1 : 2097152 ≤ x) (h2 : x < 4194304) : IsCursor64 x := by
  have e : x * 2147483648 = (k : F) := by rw [hk]; field_simp
  refine ⟨?_, h1, h2⟩
  rw [e, Int.floor_intCast]

/-- The float64 values from 2^21 up to 2^22 are the multiples of 2^-31:
rounding leaves them as they are. -/
theorem toFloat64_of_cursor {x : F} (h : IsCursor64 x) : toFloat64 x = x := by
  obtain ⟨hk, h1, h2⟩ := h
  have hx : |x| = x := abs_of_nonneg (by linarith)
  have e1 : (2 : F) ^ (21 : Int) = 2097152 := by norm_num
  have e2 : (2 : F) ^ ((21 : Int) + 1) = 4194304 := by norm_num
  have hl : Int.log 2 |x| = 21 := by
    apply log_two_abs_eq
    · rw [hx, e1]; exact h1
    · rw [hx, e2]; exact h2
  apply toFloat64_of_grid ⌊x * 2147483648⌋
  rw [hl, ← hk]
  norm_num
  ring

/-- An integer below 2^53 in absolute value is a float64. -/
theorem toFloat64_intCast (m : Int) (h : |m| < 9007199254740992) :
    toFloat64 (m : F) = (m : F) := by
  rcases eq_or_ne m 0 with h0 | h0
  · rw [h0]; simp [toFloat64]
  · have hpos : (0 : F) < |(m : F)| := abs_pos.mpr (by exact_mod_cast h0)
    have hge : (1 : F) ≤ |(m : F)| := by
      have : (1 : Int) ≤ |m| := Int.one_le_abs h0
      exact_mod_cast this
    have hlt : |(m : F)| < (2 : F) ^ (53 : Int) := by
      have : ((|m| : Int) : F) < ((9007199254740992 : Int) : F) := Int.cast_lt.mpr h
      push_cast at this
      norm_num
      exact this
    have a : 0 ≤ Int.log 2 |(m : F)| := by
      rw [← Int.zpow_le_iff_le_log (by norm_num) hpos]
      simpa using hge
    have b : Int.log 2 |(m : F)| < 53 := by
      rw [← Int.lt_zpow_iff_log_lt (by norm_num) hpos]
      simpa using hlt
    obtain ⟨d, hd⟩ : ∃ d : Nat, Int.log 2 |(m : F)| - 52 = -(d : Int) :=
      ⟨(52 - Int.log 2 |(m : F)|).toNat, by omega⟩
    apply toFloat64_of_grid (m * 2 ^ d)
    rw [hd, zpow_neg, zpow_natCast]
    push_cast
    have hp : (2 : F) ^ d ≠ 0 := pow_ne_zero _ (by norm_num)
    field_simp

theorem addDays64_jstar (M : GoMath F) (n : Int) (l : Location F) :
    (AddDays64 M n l).jstar = toFloat64 (l.jstar + toFloat64 (n : F)) := rfl

/-- A step of `m` days between two cursors of the range from 2^21 up to
2^22 is exact. -/
theorem cursor_step_exact {j : F} (m : Int) (h : IsCursor64 j)
    (h1 : 2097152 ≤ j + (m : F)) (h2 : j + (m : F) < 4194304) :
    toFloat64 (j + toFloat64 (m : F)) = j + (m : F) ∧ IsCursor64 (j + (m : F)) := by
  obtain ⟨hk, a1, a2⟩ := h
  have hm : |m| < 9007199254740992 := by
    have b1 : ((-2097152 : Int) : F) < (m : F) := by push_cast; linarith
    have b2 : (m : F) < ((2097152 : Int) : F) := by push_cast; linarith
    have b1' := Int.cast_lt.mp b1
    have b2' := Int.cast_lt.mp b2
    rw [abs_lt]; constructor <;> omega
  have hc : IsCursor64 (j + (m : F)) := by
    apply isCursor64_of_int (⌊j * 2147483648⌋ + m * 2147483648) _ h1 h2
    push_cast
    rw [← hk]
    field_simp
    ring
  rw [toFloat64_intCast m hm]
  exact ⟨toFloat64_of_cursor hc, hc⟩

/-- Between cursors of the range from 2^21 up to 2^22 the float64 step is
the exact step. -/
theorem addDays64_eq_addDays (M : GoMath F) (m : Int) (l : Location F)
    (h : IsCursor64 l.jstar) (h1 : 2097152 ≤ l.jstar + (m : F))
    (h2 : l.jstar + (m : F) < 4194304) : AddDays64 M m l = AddDays M m l := by
  unfold AddDays64 AddDays
  rw [(cursor_step_exact m h h1 h2).1]

/-- For a Julian day between 2^21 and 2^22 `goTime` stays inside
`int64`. -/
theorem goTime_in_int64 {j : F} (h1 : 2097152 ≤ j) (h2 : j ≤ 4194304) :
    GoTimeInRange j := by
  obtain ⟨r1, r2⟩ := toInt64_sub_lt ((j - jepoch) * 86400)
  have a : ((-30619555201 : Int) : F) < ((toInt64 ((j - jepoch) * 86400) : Int) : F) := by
    refine lt_of_le_of_lt ?_ r1
    simp only [jepoch]
    push_cast
    linarith
  have b : ((toInt64 ((j - jepoch) * 86400) : Int) : F) < ((150574377601 : Int) : F) := by
    refine lt_of_lt_of_le r2 ?_
    simp only [jepoch]
    push_cast
    linarith
  have a' := Int.cast_lt.mp a
  have b' := Int.cast_lt.mp b
  simp only [GoTimeInRange, InInt64, uepoch]
  refine ⟨⟨?_, ?_⟩, ?_, ?_⟩ <;> omega

end Rounding

section RoundingValues

/-- The cursor of longitude 0 at Unix time 946728000, as a float64. -/
theorem float_of_greenwich :
    toFloat64 ((2451545.0009 : ℝ) + 0) = 5264652801768895 / 2147483648 := by
  rw [toFloat64_of_binade 21 (by norm_num [abs_of_nonneg]) (by norm_num [abs_of_nonneg])]
  rw [roundHalfEven_of_lt (n := 5264652801768895) (by norm_num) (by norm_num)]
  norm_num

theorem float_of_greenwich_far :
    toFloat64 ((2451545.0009 : ℝ) + 1742758) = 9007197109190079 / 2147483648 := by
  rw [toFloat64_of_binade 21 (by norm_num [abs_of_nonneg]) (by norm_num [abs_of_nonneg])]
  rw [roundHalfEven_of_lt (n := 9007197109190079) (by norm_num) (by norm_num)]
  norm_num

/-- One day more crosses 2^22, where the spacing is 2^-30: the sum is a tie
and goes to the even neighbour, upward. -/
theorem float_tie_up :
    toFloat64 ((9007197109190079 / 2147483648 : ℝ) + 1) = 4503599628336864 / 1073741824 := by
  rw [toFloat64_of_binade 22 (by norm_num [abs_of_nonneg]) (by norm_num [abs_of_nonneg])]
  have e : ((9007197109190079 / 2147483648 : ℝ) + 1) / 2 ^ ((22 : Int) - 52)
      = ((4503599628336863 : Int) : ℝ) + 1 / 2 := by norm_num
  rw [e, roundHalfEven_half]
  norm_num

theorem float_back :
    toFloat64 ((4503599628336864 / 1073741824 : ℝ) + -1) = 9007197109190080 / 2147483648 := by
  rw [toFloat64_of_binade 21 (by norm_num [abs_of_nonneg]) (by norm_num [abs_of_nonneg])]
  have e : ((4503599628336864 / 1073741824 : ℝ) + -1) / 2 ^ ((21 : Int) - 52)
      = ((9007197109190080 : Int) : ℝ) := by norm_num
  rw [e, roundHalfEven_intCast]
  norm_num

/-- At 2^40 days the spacing is 2^-12. -/
theorem float_far_step :
    toFloat64 ((2451545.0009 : ℝ) + 1099511627776) = 4503609668898820 / 4096 := by
  rw [toFloat64_of_binade 40 (by norm_num [abs_of_nonneg]) (by norm_num [abs_of_nonneg])]
  rw [roundHalfEven_of_lt (n := 4503609668898820) (by norm_num) (by norm_num)]
  norm_num

theorem float_far_back :
    toFloat64 ((4503609668898820 / 4096 : ℝ) + -1099511627776)
      = 5264652801933312 / 2147483648 := by
  rw [toFloat64_of_binade 21 (by norm_num [abs_of_nonneg]) (by norm_num [abs_of_nonneg])]
  have e : ((4503609668898820 / 4096 : ℝ) + -1099511627776) / 2 ^ ((21 : Int) - 52)
      = ((5264652801933312 : Int) : ℝ) := by norm_num
  rw [e, roundHalfEven_intCast]
  norm_num

theorem isCursor64_epoch : IsCursor64 (jepoch : ℝ) :=
  isCursor64_of_int 5264652799836160 (by norm_num [jepoch]) (by norm_num [jepoch])
    (by norm_num [jepoch])

end RoundingValues

/-! ## The real trigonometric functions -/

section RealTrig

theorem sin_realMath (d : ℝ) : sin realMath d = Real.sin (d * Real.pi / 180) := rfl

theorem cos_realMath (d : ℝ) : cos realMath d = Real.cos (d * Real.pi / 180) := rfl

theorem asin_realMath (t : ℝ) : asin realMath t = Real.arcsin t * 180 / Real.pi := rfl

theorem deg_rad_cancel (a : ℝ) : a * 180 / Real.pi * Real.pi / 180 = a := by
  field_simp

theorem sin_asin_realMath {t : ℝ} (h1 : -1 ≤ t) (h2 : t ≤ 1) :
    sin realMath (asin realMath t) = t := by
  rw [sin_realMath, asin_realMath, deg_rad_cancel, Real.sin_arcsin h1 h2]

theorem cos_asin_realMath (t : ℝ) :
    cos realMath (asin realMath t) = √(1 - t ^ 2) := by
  rw [cos_realMath, asin_realMath, deg_rad_cancel, Real.cos_arcsin]

theorem abs_sin_realMath_le (d : ℝ) : |sin realMath d| ≤ 1 :=
  Real.abs_sin_le_one _

/-- Radian measure of a degree value between rational bounds. -/
theorem rad_bounds {d : ℝ} (h : 0 ≤ d) :
    d * (3.141592 / 180) ≤ d * Real.pi / 180 ∧ d * Real.pi / 180 ≤ d * (3.141593 / 180) := by
  have h1 := Real.pi_gt_d6
  have h2 := Real.pi_lt_d6
  constructor <;> nlinarith

/-- `sin 23.45°` lies strictly between 0.39 and 0.42. -/
theorem sin_obliquity_bounds :
    0.39 < sin realMath 23.45 ∧ sin realMath 23.45 < 0.42 := by
  rw [sin_realMath]
  obtain ⟨h1, h2⟩ := rad_bounds (d := 23.45) (by norm_num)
  set x : ℝ := 23.45 * Real.pi / 180 with hx
  have hx0 : 0 < x := by nlinarith
  have hx1 : x ≤ 1 := by nlinarith
  have h3 := Real.sin_gt_sub_cube hx0 hx1
  have h4 := Real.sin_lt hx0
  have hlo : (0.409 : ℝ) ≤ x := by norm_num at h1; linarith
  have hhi : x ≤ (0.4094 : ℝ) := by norm_num at h2; linarith
  have hc : x ^ 3 ≤ 0.4094 ^ 3 := pow_le_pow_left₀ hx0.le hhi 3
  constructor
  · norm_num at hc; nlinarith
  · linarith

end RealTrig

section NearEpoch

theorem mod360_of_mem {F : Type} [LinearOrderedField F] [FloorRing F]
    {x : F} {k : Int} (h1 : 360 * (k : F) ≤ x) (h2 : x < 360 * ((k : F) + 1)) :
    mod360 x = x - 360 * (k : F) := by
  have hk : ⌊x / 360⌋ = k := by
    rw [Int.floor_eq_iff]
    constructor
    · rw [le_div_iff₀ (by norm_num)]; linarith
    · rw [div_lt_iff₀ (by norm_num)]; linarith
  simp [mod360, floorF, hk]

/-- In the day after the epoch the mean anomaly needs no reduction. -/
theorem meanAnomaly_near_epoch {j : ℝ} (h0 : 0 ≤ j - jepoch) (h1 : j - jepoch ≤ 1) :
    meanAnomaly j = 357.5291 + 0.98560028 * (j - jepoch) := by
  have h := mod360_of_mem (x := 357.5291 + 0.98560028 * (j - jepoch)) (k := 0)
    (by norm_num; nlinarith) (by norm_num; nlinarith)
  simpa [meanAnomaly] using h

/-- In the day after the epoch the ecliptic longitude is about 280°. -/
theorem eclipticLongitude_near_epoch {j : ℝ} (h0 : 0 ≤ j - jepoch) (h1 : j - jepoch ≤ 1) :
    278.5 ≤ eclipticLongitude realMath j ∧ eclipticLongitude realMath j ≤ 283.4 := by
  have hma := meanAnomaly_near_epoch h0 h1
  have a1 := abs_le.mp (abs_sin_realMath_le (meanAnomaly j))
  have a2 := abs_le.mp (abs_sin_realMath_le (2 * meanAnomaly j))
  have a3 := abs_le.mp (abs_sin_realMath_le (3 * meanAnomaly j))
  set c : ℝ := 1.9148 * sin realMath (meanAnomaly j) + 0.02 * sin realMath (2 * meanAnomaly j)
    + 0.0003 * sin realMath (3 * meanAnomaly j) with hc
  have hel : eclipticLongitude realMath j = mod360 (meanAnomaly j + 102.9372 + c + 180) := rfl
  have hc1 : -1.9351 ≤ c := by rw [hc]; linarith [a1.1, a2.1, a3.1]
  have hc2 : c ≤ 1.9351 := by rw [hc]; linarith [a1.2, a2.2, a3.2]
  have h := mod360_of_mem (x := meanAnomaly j + 102.9372 + c + 180) (k := 1)
    (by rw [hma]; norm_num; linarith) (by rw [hma]; norm_num; linarith)
  rw [hel, h, hma]
  constructor <;> norm_num <;> linarith

/-- The sine of an angle between 278.5° and 283.4° is below -0.97. -/
theorem sin_le_of_near_270 {e : ℝ} (h1 : 278.5 ≤ e) (h2 : e ≤ 283.4) :
    sin realMath e ≤ -0.97 := by
  rw [sin_realMath]
  have hpi1 := Real.pi_gt_d6
  have hpi2 := Real.pi_lt_d6
  set δ : ℝ := (e - 270) * Real.pi / 180 with hδ
  have e1 : e * Real.pi / 180 = δ + Real.pi / 2 + Real.pi := by rw [hδ]; ring
  rw [e1, Real.sin_add_pi, Real.sin_add_pi_div_two]
  have hδ0 : 0 ≤ δ := by rw [hδ]; apply div_nonneg _ (by norm_num); nlinarith
  have hδ1 : δ ≤ 0.24 := by
    rw [hδ, div_le_iff₀ (by norm_num)]; nlinarith
  have h := Real.one_sub_sq_div_two_le_cos (x := δ)
  nlinarith

end NearEpoch

section Polar

/-- In the day after the epoch the sun stands far south: the sine of the
declination is below -0.378 and its cosine is in (0, 1]. -/
theorem declination_near_epoch {j : ℝ} (h0 : 0 ≤ j - jepoch) (h1 : j - jepoch ≤ 1) :
    sin realMath (declinationOf realMath j) ≤ -0.378 ∧
      0 < cos realMath (declinationOf realMath j) ∧
      cos realMath (declinationOf realMath j) ≤ 1 := by
  obtain ⟨e1, e2⟩ := eclipticLongitude_near_epoch h0 h1
  have hs := sin_le_of_near_270 e1 e2
  have ha := abs_le.mp (abs_sin_realMath_le (eclipticLongitude realMath j))
  obtain ⟨o1, o2⟩ := sin_obliquity_bounds
  set t : ℝ := sin realMath (eclipticLongitude realMath j) * sin realMath 23.45 with ht
  have hd : declinationOf realMath j = asin realMath t := rfl
  have t1 : t ≤ -0.378 := by rw [ht]; nlinarith
  have t2 : -0.42 ≤ t := by rw [ht]; nlinarith
  rw [hd, sin_asin_realMath (by linarith) (by linarith), cos_asin_realMath]
  refine ⟨t1, ?_, ?_⟩
  · apply Real.sqrt_pos.mpr; nlinarith
  · rw [Real.sqrt_le_left (by norm_num)]; nlinarith [sq_nonneg t]

/-- Bounds on the sines and cosines of 89°, -89° and -0.83°. -/
theorem small_angle_bounds :
    0.999 ≤ sin realMath 89 ∧ sin realMath (-89) = - sin realMath 89 ∧
      0 < cos realMath 89 ∧ cos realMath 89 ≤ 0.0175 ∧
      cos realMath (-89) = cos realMath 89 ∧
      -0.0145 ≤ sin realMath (-0.83) ∧ sin realMath (-0.83) ≤ 0 := by
  have hpi1 := Real.pi_gt_d6
  have hpi2 := Real.pi_lt_d6
  simp only [sin_realMath, cos_realMath]
  have e89 : (89 : ℝ) * Real.pi / 180 = Real.pi / 2 - Real.pi / 180 := by ring
  have em89 : (-89 : ℝ) * Real.pi / 180 = -(89 * Real.pi / 180) := by ring
  have e83 : (-0.83 : ℝ) * Real.pi / 180 = -(0.83 * Real.pi / 180) := by ring
  have hx0 : 0 < Real.pi / 180 := by positivity
  have hx1 : Real.pi / 180 ≤ 0.0175 := by
    rw [div_le_iff₀ (by norm_num)]; nlinarith
  have hy0 : 0 < 0.83 * Real.pi / 180 := by positivity
  have hy1 : 0.83 * Real.pi / 180 ≤ 0.0145 := by
    rw [div_le_iff₀ (by norm_num)]; nlinarith
  have hc := Real.one_sub_sq_div_two_le_cos (x := Real.pi / 180)
  have hs := Real.sin_lt hx0
  have hs' := Real.sin_pos_of_pos_of_le_one hx0 (by linarith)
  have hy := Real.sin_lt hy0
  have hy' := Real.sin_pos_of_pos_of_le_one hy0 (by linarith)
  rw [em89, e83, Real.sin_neg, Real.cos_neg, Real.sin_neg, e89, Real.sin_pi_div_two_sub,
    Real.cos_pi_div_two_sub]
  refine ⟨by nlinarith, rfl, hs', by linarith, rfl, by linarith, by linarith⟩

/-- At latitude -89° in the day after the epoch the sun does not set. -/
theorem hourAngleArg_south {j : ℝ} (h0 : 0 ≤ j - jepoch) (h1 : j - jepoch ≤ 1) :
    hourAngleArg realMath (-89) j ≤ -1 := by
  obtain ⟨d1, d2, d3⟩ := declination_near_epoch h0 h1
  obtain ⟨b1, b2, b3, b4, b5, b6, b7⟩ := small_angle_bounds
  unfold hourAngleArg
  rw [b2, b5]
  have hD : 0 < cos realMath 89 * cos realMath (declinationOf realMath j) := mul_pos b3 d2
  rw [div_le_iff₀ hD]
  nlinarith

/-- At latitude 89° in the day after the epoch the sun does not rise. -/
theorem hourAngleArg_north {j : ℝ} (h0 : 0 ≤ j - jepoch) (h1 : j - jepoch ≤ 1) :
    1 ≤ hourAngleArg realMath 89 j := by
  obtain ⟨d1, d2, d3⟩ := declination_near_epoch h0 h1
  obtain ⟨b1, b2, b3, b4, b5, b6, b7⟩ := small_angle_bounds
  unfold hourAngleArg
  have hD : 0 < cos realMath 89 * cos realMath (declinationOf realMath j) := mul_pos b3 d2
  rw [le_div_iff₀ hD]
  nlinarith

end Polar

section Equator

/-- At latitude 0 the argument of the arccosine is a small negative
number, whatever the day. -/
theorem hourAngleArg_equator (j : ℝ) :
    -0.0162 ≤ hourAngleArg realMath 0 j ∧ hourAngleArg realMath 0 j ≤ 0 := by
  obtain ⟨b1, b2, b3, b4, b5, b6, b7⟩ := small_angle_bounds
  obtain ⟨o1, o2⟩ := sin_obliquity_bounds
  have ha := abs_le.mp (abs_sin_realMath_le (eclipticLongitude realMath j))
  set t : ℝ := sin realMath (eclipticLongitude realMath j) * sin realMath 23.45 with ht
  have hd : declinationOf realMath j = asin realMath t := rfl
  have t1 : t ≤ 0.42 := by rw [ht]; nlinarith
  have t2 : -0.42 ≤ t := by rw [ht]; nlinarith
  have hc : cos realMath (declinationOf realMath j) = √(1 - t ^ 2) := by
    rw [hd, cos_asin_realMath]
  have hc1 : 0.9 ≤ √(1 - t ^ 2) := by
    apply Real.le_sqrt_of_sq_le; nlinarith
  have hs0 : sin realMath 0 = 0 := by simp [sin_realMath]
  have hc0 : cos realMath 0 = 1 := by simp [cos_realMath]
  have harg : hourAngleArg realMath 0 j = sin realMath (-0.83) / √(1 - t ^ 2) := by
    unfold hourAngleArg; rw [hs0, hc0, hc]; simp
  have hpos : (0 : ℝ) < √(1 - t ^ 2) := by linarith
  rw [harg]
  constructor
  · rw [le_div_iff₀ hpos]; linarith
  · exact div_nonpos_of_nonpos_of_nonneg b7 hpos.le

/-- The clamped arccosine of a small negative number is between 90° and
90.95°. -/
theorem acos_small_neg {a : ℝ} (a2 : -0.0162 ≤ a) (a1 : a ≤ 0) :
    90 ≤ acos realMath a ∧ acos realMath a ≤ 90.95 := by
  have hpi1 := Real.pi_gt_d6
  have hpi2 := Real.pi_lt_d6
  have hpi0 : 0 < Real.pi := Real.pi_pos
  have hx0 : 0 < 0.95 * Real.pi / 180 := by positivity
  have hx1 : 0.01658 ≤ 0.95 * Real.pi / 180 := by
    rw [le_div_iff₀ (by norm_num)]; linarith
  have hx2 : 0.95 * Real.pi / 180 ≤ 0.01659 := by
    rw [div_le_iff₀ (by norm_num)]; linarith
  have hsx := Real.sin_gt_sub_cube hx0 (by linarith)
  have hx3 : (0.95 * Real.pi / 180) ^ 3 ≤ 0.01659 ^ 3 := pow_le_pow_left₀ hx0.le hx2 3
  have hsin : Real.sin (-(0.95 * Real.pi / 180)) ≤ a := by
    rw [Real.sin_neg]; norm_num at hx3; linarith
  have has1 : -(0.95 * Real.pi / 180) ≤ Real.arcsin a := by
    rw [Real.le_arcsin_iff_sin_le ⟨by linarith, by linarith⟩ ⟨by linarith, by linarith⟩]
    exact hsin
  have has2 : Real.arcsin a ≤ 0 := Real.arcsin_nonpos.mpr a1
  have hacos : acos realMath a = Real.arccos a * 180 / Real.pi := by
    unfold acos
    rw [if_neg (by simp only [ge_iff_le, not_le]; linarith),
      if_neg (by simp only [not_le]; linarith)]
    rfl
  rw [hacos, Real.arccos_eq_pi_div_two_sub_arcsin]
  constructor
  · rw [le_div_iff₀ hpi0]; linarith
  · rw [div_le_iff₀ hpi0]; linarith

/-- At latitude 0 the half-day arc is between 90° and 90.95°, whatever the
day. -/
theorem hourAngleOf_equator (j : ℝ) :
    1 / 4 ≤ hourAngleOf realMath 0 j ∧ hourAngleOf realMath 0 j ≤ 90.95 / 360 := by
  obtain ⟨a2, a1⟩ := hourAngleArg_equator j
  obtain ⟨c1, c2⟩ := acos_small_neg a2 a1
  unfold hourAngleOf
  constructor
  · rw [le_div_iff₀ (by norm_num)]; linarith
  · rw [div_le_iff₀ (by norm_num)]; linarith

end Equator

section EpochValue

/-- Sines of 2.4709°, twice and three times that angle. -/
theorem sin_anomaly_bounds :
    0.043105 ≤ Real.sin (2.4709 * Real.pi / 180) ∧
      Real.sin (2.4709 * Real.pi / 180) ≤ 0.043126 ∧
      0.086 ≤ Real.sin (2 * (2.4709 * Real.pi / 180)) ∧
      Real.sin (2 * (2.4709 * Real.pi / 180)) ≤ 0.0863 ∧
      0 ≤ Real.sin (3 * (2.4709 * Real.pi / 180)) ∧
      Real.sin (3 * (2.4709 * Real.pi / 180)) ≤ 0.13 := by
  have hpi1 := Real.pi_gt_d6
  have hpi2 := Real.pi_lt_d6
  set x : ℝ := 2.4709 * Real.pi / 180 with hx
  have hx0 : 0 < x := by rw [hx]; positivity
  have hx1 : 0.0431253 ≤ x := by rw [hx, le_div_iff₀ (by norm_num)]; linarith
  have hx2 : x ≤ 0.0431254 := by rw [hx, div_le_iff₀ (by norm_num)]; linarith
  have p1 : x ^ 3 ≤ 0.0431254 ^ 3 := pow_le_pow_left₀ hx0.le hx2 3
  have p2 : (2 * x) ^ 3 ≤ (2 * 0.0431254) ^ 3 :=
    pow_le_pow_left₀ (by linarith) (by linarith) 3
  have g1 := Real.sin_gt_sub_cube hx0 (by linarith)
  have g2 := Real.sin_gt_sub_cube (x := 2 * x) (by linarith) (by linarith)
  have g3 := Real.sin_pos_of_pos_of_le_one (x := 3 * x) (by linarith) (by linarith)
  have l1 := Real.sin_lt hx0
  have l2 := Real.sin_lt (x := 2 * x) (by linarith)
  have l3 := Real.sin_lt (x := 3 * x) (by linarith)
  norm_num at p1 p2
  refine ⟨by linarith, by linarith, by linarith, by linarith, by linarith, by linarith⟩

/-- At the epoch the sines of the mean anomaly and its multiples. -/
theorem sin_meanAnomaly_at_epoch :
    sin realMath 357.5291 = - Real.sin (2.4709 * Real.pi / 180) ∧
      sin realMath (2 * 357.5291) = - Real.sin (2 * (2.4709 * Real.pi / 180)) ∧
      sin realMath (3 * 357.5291) = - Real.sin (3 * (2.4709 * Real.pi / 180)) := by
  simp only [sin_realMath]
  refine ⟨?_, ?_, ?_⟩
  · rw [← Real.sin_two_pi_sub]; congr 1; ring
  · rw [← Real.sin_nat_mul_two_pi_sub _ 2]; congr 1; push_cast; ring
  · rw [← Real.sin_nat_mul_two_pi_sub _ 3]; congr 1; push_cast; ring

/-- The ecliptic longitude at the epoch. -/
theorem eclipticLongitude_at_epoch :
    280.38195 ≤ eclipticLongitude realMath jepoch ∧
      eclipticLongitude realMath jepoch ≤ 280.38205 := by
  have hma : meanAnomaly (jepoch : ℝ) = 357.5291 := by
    rw [meanAnomaly_near_epoch (by simp) (by simp)]; simp
  obtain ⟨q1, q2, q3⟩ := sin_meanAnomaly_at_epoch
  obtain ⟨r1, r2, r3, r4, r5, r6⟩ := sin_anomaly_bounds
  have hel : eclipticLongitude realMath jepoch
      = mod360 (357.5291 + 102.9372 + (1.9148 * sin realMath 357.5291
          + 0.02 * sin realMath (2 * 357.5291)
          + 0.0003 * sin realMath (3 * 357.5291)) + 180) := by
    unfold eclipticLongitude; rw [hma]
  rw [hel, q1, q2, q3]
  have h := mod360_of_mem (x := 357.5291 + 102.9372
      + (1.9148 * -Real.sin (2.4709 * Real.pi / 180)
          + 0.02 * -Real.sin (2 * (2.4709 * Real.pi / 180))
          + 0.0003 * -Real.sin (3 * (2.4709 * Real.pi / 180))) + 180) (k := 1)
    (by norm_num; linarith) (by norm_num; linarith)
  rw [h]
  constructor <;> norm_num <;> linarith

end EpochValue

section EpochNoon

/-- Sine and cosine of an angle of about 0.1812 radians. -/
theorem sin_cos_half_bounds {h : ℝ} (h1 : 0.181199 ≤ h) (h2 : h ≤ 0.181202) :
    0.18015 ≤ Real.sin h ∧ Real.sin h ≤ 0.18027 ∧
      0.98352 ≤ Real.cos h ∧ Real.cos h ≤ 0.98364 := by
  have h0 : 0 ≤ h := by linarith
  have habs : |h| ≤ 1 := by rw [abs_of_nonneg h0]; linarith
  have hs := abs_le.mp (Real.sin_bound habs)
  have hc := abs_le.mp (Real.cos_bound habs)
  rw [abs_of_nonneg h0] at hs hc
  have p2l : 0.181199 ^ 2 ≤ h ^ 2 := pow_le_pow_left₀ (by norm_num) h1 2
  have p2h : h ^ 2 ≤ 0.181202 ^ 2 := pow_le_pow_left₀ h0 h2 2
  have p3l : 0.181199 ^ 3 ≤ h ^ 3 := pow_le_pow_left₀ (by norm_num) h1 3
  have p3h : h ^ 3 ≤ 0.181202 ^ 3 := pow_le_pow_left₀ h0 h2 3
  have p4h : h ^ 4 ≤ 0.181202 ^ 4 := pow_le_pow_left₀ h0 h2 4
  norm_num at p2l p2h p3l p3h p4h
  refine ⟨by linarith [hs.1], by linarith [hs.2], by linarith [hc.1], by linarith [hc.2]⟩

/-- The sine of twice an ecliptic longitude of about 280.382°. -/
theorem sin_two_el_bounds {e : ℝ} (e1 : 280.38195 ≤ e) (e2 : e ≤ 280.38205) :
    0.35436 ≤ - sin realMath (2 * e) ∧ - sin realMath (2 * e) ≤ 0.35465 := by
  have hpi1 := Real.pi_gt_d6
  have hpi2 := Real.pi_lt_d6
  have hh1 : 0.181199 ≤ (e - 270) * Real.pi / 180 := by
    rw [le_div_iff₀ (by norm_num)]; nlinarith
  have hh2 : (e - 270) * Real.pi / 180 ≤ 0.181202 := by
    rw [div_le_iff₀ (by norm_num)]; nlinarith
  obtain ⟨s1, s2, c1, c2⟩ := sin_cos_half_bounds hh1 hh2
  have harg : 2 * e * Real.pi / 180
      = 2 * ((e - 270) * Real.pi / 180) + Real.pi + 2 * Real.pi := by ring
  rw [sin_realMath, harg, Real.sin_add_two_pi, Real.sin_add_pi, neg_neg, Real.sin_two_mul]
  constructor <;> nlinarith

/-- At the epoch solar noon falls between 191 and 192 seconds after the
anchor. -/
theorem solarNoon_at_epoch :
    191 < (solarNoonOf realMath jepoch - jepoch) * 86400 ∧
      (solarNoonOf realMath jepoch - jepoch) * 86400 < 192 := by
  have hma : meanAnomaly (jepoch : ℝ) = 357.5291 := by
    rw [meanAnomaly_near_epoch (by simp) (by simp)]; simp
  obtain ⟨q1, -, -⟩ := sin_meanAnomaly_at_epoch
  obtain ⟨r1, r2, -, -, -, -⟩ := sin_anomaly_bounds
  obtain ⟨e1, e2⟩ := eclipticLongitude_at_epoch
  obtain ⟨t1, t2⟩ := sin_two_el_bounds e1 e2
  unfold solarNoonOf
  rw [hma, q1]
  constructor <;> linarith

end EpochNoon

/-! ## Shared consequences of the clamp -/

section Clamp

variable {F : Type} [LinearOrderedField F]

theorem acos_of_one_le (M : GoMath F) {x : F} (h : 1 ≤ x) : acos M x = 0 := by
  simp [acos, h]

theorem acos_of_le_neg_one (M : GoMath F) {x : F} (h : x ≤ -1) : acos M x = 180 := by
  have h' : ¬ (1 ≤ x) := by
    intro h1
    have : (1 : F) ≤ -1 := le_trans h1 h
    norm_num at this
  simp [acos, h, h']

theorem acos_of_mem (M : GoMath F) {x : F} (h1 : -1 < x) (h2 : x < 1) :
    acos M x = M.Acos x * 180 / M.Pi := by
  simp [acos, not_le.mpr h1, not_le.mpr h2]

variable [FloorRing F]

/-- On a polar-night day the recomputation stores a zero half-day arc. -/
theorem hourAngle_polar_night (M : GoMath F) (l : Location F)
    (h : 1 ≤ hourAngleArg M l.latitude l.jstar) :
    (computeSolarNoonHourAngle M l).hourAngleInDays = 0 := by
  rw [compute_hourAngle, hourAngleOf, acos_of_one_le M h, zero_div]

/-- On a polar-day day the recomputation stores a half-day arc of half a
day. -/
theorem hourAngle_polar_day (M : GoMath F) (l : Location F)
    (h : hourAngleArg M l.latitude l.jstar ≤ -1) :
    (computeSolarNoonHourAngle M l).hourAngleInDays = 1 / 2 := by
  rw [compute_hourAngle, hourAngleOf, acos_of_le_neg_one M h]
  norm_num

/-- The Unix seconds of sunrise and sunset when the half-day arc is half a
day: 86400 or 86399 seconds apart, with solar noon strictly between. -/
theorem half_day_arc_seconds (l : Location F) (h : l.hourAngleInDays = 1 / 2) :
    ((Sunset l).unix - (Sunrise l).unix = 86400 ∨
        (Sunset l).unix - (Sunrise l).unix = 86399) ∧
      ((1 / 2 ≤ l.solarNoon - jepoch ∨ l.solarNoon - jepoch ≤ -(1 / 2)) →
        (Sunrise l).unix = (goTime l.solarNoon l.location).unix - 43200 ∧
        (Sunset l).unix = (goTime l.solarNoon l.location).unix + 43200) ∧
      (Sunrise l).unix < (goTime l.solarNoon l.location).unix ∧
      (goTime l.solarNoon l.location).unix < (Sunset l).unix := by
  set u : F := (l.solarNoon - jepoch) * 86400 - 43200 with hu
  have e1 : (l.solarNoon - l.hourAngleInDays - jepoch) * 86400 = u := by
    rw [h, hu]; ring
  have e2 : (l.solarNoon + l.hourAngleInDays - jepoch) * 86400 = u + ((86400 : Int) : F) := by
    rw [h, hu]; push_cast; ring
  have e3 : (l.solarNoon - jepoch) * 86400 = u + ((43200 : Int) : F) := by
    rw [hu]; push_cast; ring
  have e4 : u + ((86400 : Int) : F) = (u + ((43200 : Int) : F)) + ((43200 : Int) : F) := by
    push_cast; ring
  have hr : (Sunrise l).unix = uepoch + toInt64 u := by
    simp only [Sunrise, goTime, e1]
  have hs : (Sunset l).unix = uepoch + toInt64 (u + ((86400 : Int) : F)) := by
    simp only [Sunset, goTime, e2]
  have hn : (goTime l.solarNoon l.location).unix
      = uepoch + toInt64 (u + ((43200 : Int) : F)) := by
    simp only [goTime, e3]
  obtain ⟨a1, a2⟩ := toInt64_add_int u 86400 (by norm_num)
  obtain ⟨b1, b2⟩ := toInt64_add_int u 43200 (by norm_num)
  obtain ⟨c1, c2⟩ := toInt64_add_int (u + ((43200 : Int) : F)) 43200 (by norm_num)
  rw [← e4] at c1 c2
  rw [hr, hs, hn]
  refine ⟨?_, ?_, ?_, ?_⟩
  · rcases a1 with a1 | a1
    · left; omega
    · right; omega
  · intro hfar
    have hb : 0 ≤ u ∨ u + ((43200 : Int) : F) ≤ 0 := by
      rcases hfar with hfar | hfar
      · left; rw [hu]; linarith
      · right; rw [← e3]; linarith
    have hc : 0 ≤ u + ((43200 : Int) : F) ∨ u + ((86400 : Int) : F) ≤ 0 := by
      rcases hfar with hfar | hfar
      · left; rw [← e3]; linarith
      · right; rw [e4, ← e3]; push_cast; linarith
    have b3 := b2 hb
    have c3 := c2 hc
    constructor <;> omega
  · rcases b1 with b1 | b1 <;> omega
  · rcases c1 with c1 | c1 <;> omega

end Clamp

section EpochStates

/-- At Unix time 946728000 and longitude 0.324° the day anchor is the
epoch itself. -/
theorem jStar_at_epoch : jStar 946728000 (0.324 : ℝ) = jepoch := by
  have hf : ⌊(julianDay 946728000 - 0.0009 + 0.324 / 360 + 0.5 : ℝ)⌋ = 2451545 := by
    rw [Int.floor_eq_iff]
    simp only [julianDay, uepoch, jepoch]
    norm_num
  simp only [jStar, floorF, hf, jepoch]
  norm_num

/-- At Unix time 946728000 and longitude 0° the day anchor is 0.0009 days
after the epoch. -/
theorem jStar_at_greenwich : jStar 946728000 (0 : ℝ) = jepoch + 0.0009 := by
  have hf : ⌊(julianDay 946728000 - 0.0009 + 0 / 360 + 0.5 : ℝ)⌋ = 2451545 := by
    rw [Int.floor_eq_iff]
    simp only [julianDay, uepoch, jepoch]
    norm_num
  simp only [jStar, floorF, hf, jepoch]
  norm_num

/-- Solar noon is within 0.0122 days of the day anchor. -/
theorem solarNoonOf_near (j : ℝ) :
    j - 0.0122 ≤ solarNoonOf realMath j ∧ solarNoonOf realMath j ≤ j + 0.0122 := by
  have a1 := abs_le.mp (abs_sin_realMath_le (meanAnomaly j))
  have a2 := abs_le.mp (abs_sin_realMath_le (2 * eclipticLongitude realMath j))
  unfold solarNoonOf
  constructor <;> linarith [a1.1, a1.2, a2.1, a2.2]

/-- The Unix seconds of sunrise and sunset for a half-day arc of half a day
and a solar noon between 191 and 192 seconds after the epoch. -/
theorem unix_of_noon_near_epoch (l : Location ℝ) (h : l.hourAngleInDays = 1 / 2)
    (y1 : 191 < (l.solarNoon - jepoch) * 86400)
    (y2 : (l.solarNoon - jepoch) * 86400 < 192) :
    (Sunrise l).unix = 946684992 ∧ (Sunset l).unix = 946771391 := by
  have e1 : (l.solarNoon - l.hourAngleInDays - jepoch) * 86400
      = (l.solarNoon - jepoch) * 86400 - 43200 := by rw [h]; ring
  have e2 : (l.solarNoon + l.hourAngleInDays - jepoch) * 86400
      = (l.solarNoon - jepoch) * 86400 + 43200 := by rw [h]; ring
  have c : ⌈(l.solarNoon - jepoch) * 86400 - 43200⌉ = -43008 := by
    rw [Int.ceil_eq_iff]; push_cast; constructor <;> linarith
  have f : ⌊(l.solarNoon - jepoch) * 86400 + 43200⌋ = 43391 := by
    rw [Int.floor_eq_iff]; push_cast; constructor <;> linarith
  constructor
  · simp only [Sunrise, goTime, e1]
    rw [toInt64_of_nonpos (by linarith), c]
    rfl
  · simp only [Sunset, goTime, e2]
    rw [toInt64_of_nonneg (by linarith), f]
    rfl

end EpochStates

/-! ## Claims -/

section Claims

variable {F : Type} [LinearOrderedField F] [FloorRing F]

/-- C1 (as the code behaves): `NewLocation` and `New` check no range.  For
every latitude and longitude they return a `Location` (and a scheduler
around it) that stores exactly the coordinates given, the zone and the day
anchor `jStar now longitude`, with the derived fields computed; there is no
failing outcome. -/
theorem construction_never_rejects (M : GoMath F) (zone : TimeLocation) (now : Int)
    (latitude longitude : F) :
    (NewLocation M zone now latitude longitude).latitude = latitude ∧
      (NewLocation M zone now latitude longitude).longitude = longitude ∧
      (NewLocation M zone now latitude longitude).location = zone ∧
      (NewLocation M zone now latitude longitude).jstar = jStar now longitude ∧
      Fresh M (NewLocation M zone now latitude longitude) ∧
      (New M zone now latitude longitude).location
        = NewLocation M zone now latitude longitude ∧
      (New M zone now latitude longitude).cronSch = Cron.New :=
  ⟨rfl, rfl, rfl, rfl, fresh_compute M _, rfl, rfl⟩

/-- C1, counterexample: constructed with latitude 91 (and longitude 0, at
Unix time 946728000), `NewLocation` returns a `Location` whose latitude is
91, outside [-90, 90], and `New` returns a scheduler that holds it. -/
theorem latitude_91_is_constructed :
    (NewLocation realMath ⟨"UTC"⟩ 946728000 91 0).latitude = 91 ∧
      ¬ ((-90 : ℝ) ≤ (NewLocation realMath ⟨"UTC"⟩ 946728000 91 0).latitude ∧
          (NewLocation realMath ⟨"UTC"⟩ 946728000 91 0).latitude ≤ 90) ∧
      (New realMath ⟨"UTC"⟩ 946728000 91 0).location.latitude = 91 ∧
      (New realMath ⟨"UTC"⟩ 946728000 91 0).cronSch = Cron.New := by
  have h : (NewLocation realMath ⟨"UTC"⟩ 946728000 91 0).latitude = 91 := rfl
  refine ⟨h, ?_, h, rfl⟩
  rw [h]
  norm_num

/-- C2: for every real `x` the clamped `acos` returns a value in
[0, 180]; it is exactly 0 for `x ≥ 1`, exactly 180 for `x ≤ -1` and the
arccosine of `x` in degrees for `-1 < x < 1`.  It never evaluates
`math.Acos` outside (-1, 1): any `math` package that agrees with the real
one on `Pi` and on `Acos` inside (-1, 1) gives the same result. -/
theorem acos_total_clamped (x : ℝ) :
    0 ≤ acos realMath x ∧ acos realMath x ≤ 180 ∧
      (1 ≤ x → acos realMath x = 0) ∧
      (x ≤ -1 → acos realMath x = 180) ∧
      (-1 < x → x < 1 → acos realMath x = Real.arccos x * 180 / Real.pi) ∧
      (∀ M : GoMath ℝ, M.Pi = Real.pi →
        (∀ y : ℝ, -1 < y → y < 1 → M.Acos y = Real.arccos y) →
        acos M x = acos realMath x) := by
  have hpi : 0 < Real.pi := Real.pi_pos
  refine ⟨?_, ?_, fun h => acos_of_one_le _ h, fun h => acos_of_le_neg_one _ h,
    fun h1 h2 => acos_of_mem _ h1 h2, ?_⟩
  · rcases le_or_lt 1 x with h | h
    · rw [acos_of_one_le _ h]
    · rcases le_or_lt x (-1) with h' | h'
      · rw [acos_of_le_neg_one _ h']; norm_num
      · rw [acos_of_mem _ h' h]
        exact div_nonneg (mul_nonneg (Real.arccos_nonneg x) (by norm_num)) hpi.le
  · rcases le_or_lt 1 x with h | h
    · rw [acos_of_one_le _ h]; norm_num
    · rcases le_or_lt x (-1) with h' | h'
      · rw [acos_of_le_neg_one _ h']
      · rw [acos_of_mem _ h' h]
        show Real.arccos x * 180 / Real.pi ≤ 180
        rw [div_le_iff₀ hpi]
        have := Real.arccos_le_pi x
        linarith
  · intro M hM hA
    rcases le_or_lt 1 x with h | h
    · rw [acos_of_one_le _ h, acos_of_one_le _ h]
    · rcases le_or_lt x (-1) with h' | h'
      · rw [acos_of_le_neg_one _ h', acos_of_le_neg_one _ h']
      · rw [acos_of_mem _ h' h, acos_of_mem _ h' h, hM, hA x h' h]
        rfl

/-- C2, witness: the three branches at 2, -2 and 0. -/
theorem acos_total_clamped_witness :
    acos realMath 2 = 0 ∧ acos realMath (-2) = 180 ∧ acos realMath 0 = 90 := by
  refine ⟨(acos_total_clamped 2).2.2.1 (by norm_num),
    (acos_total_clamped (-2)).2.2.2.1 (by norm_num), ?_⟩
  rw [(acos_total_clamped 0).2.2.2.2.1 (by norm_num) (by norm_num), Real.arccos_zero]
  have hpi : Real.pi ≠ 0 := Real.pi_ne_zero
  field_simp
  ring

/-- C3: polar night.  Whenever the argument of the arccosine is at least 1,
`computeSolarNoonHourAngle` stores `hourAngleInDays = 0`, and `Sunrise` and
`Sunset` are both the instant of `solarNoon`. -/
theorem polar_night_collapses (M : GoMath F) (l : Location F)
    (h : 1 ≤ hourAngleArg M l.latitude l.jstar) :
    (computeSolarNoonHourAngle M l).hourAngleInDays = 0 ∧
      Sunrise (computeSolarNoonHourAngle M l)
        = goTime (computeSolarNoonHourAngle M l).solarNoon l.location ∧
      Sunset (computeSolarNoonHourAngle M l)
        = goTime (computeSolarNoonHourAngle M l).solarNoon l.location ∧
      Sunrise (computeSolarNoonHourAngle M l) = Sunset (computeSolarNoonHourAngle M l) := by
  have h0 := hourAngle_polar_night M l h
  have hr : Sunrise (computeSolarNoonHourAngle M l)
      = goTime (computeSolarNoonHourAngle M l).solarNoon l.location := by
    simp only [Sunrise, h0, sub_zero, compute_location]
  have hs : Sunset (computeSolarNoonHourAngle M l)
      = goTime (computeSolarNoonHourAngle M l).solarNoon l.location := by
    simp only [Sunset, h0, add_zero, compute_location]
  exact ⟨h0, hr, hs, hr.trans hs.symm⟩

/-- C3, witness: latitude 89° at the epoch day (day anchor 2451545, the
first of January 2000) is a polar-night day. -/
theorem polar_night_collapses_witness :
    1 ≤ hourAngleArg realMath (89 : ℝ) 2451545 ∧
      (computeSolarNoonHourAngle realMath ⟨⟨"UTC"⟩, 89, 0, 2451545, 0, 0⟩).hourAngleInDays = 0 ∧
      Sunrise (computeSolarNoonHourAngle realMath ⟨⟨"UTC"⟩, 89, 0, 2451545, 0, 0⟩)
        = Sunset (computeSolarNoonHourAngle realMath ⟨⟨"UTC"⟩, 89, 0, 2451545, 0, 0⟩) := by
  have h : 1 ≤ hourAngleArg realMath (89 : ℝ) 2451545 :=
    hourAngleArg_north (j := 2451545) (by simp [jepoch]) (by simp [jepoch])
  have w := polar_night_collapses realMath ⟨⟨"UTC"⟩, 89, 0, 2451545, 0, 0⟩ h
  exact ⟨h, w.1, w.2.2.2⟩

end Claims

section Claims2

variable {F : Type} [LinearOrderedField F] [FloorRing F]

/-- C4 (as the code behaves): polar day.  Whenever the argument of the
arccosine is at most -1, `computeSolarNoonHourAngle` stores
`hourAngleInDays = 1/2`, so `Sunrise` is `goTime (solarNoon - 1/2)` and
`Sunset` is `goTime (solarNoon + 1/2)`.  For a solar noon between the Julian
days 2097153 and 4194303 (the years 1030 to 6771) both conversions stay
inside `int64`, and, `goTime` dropping the fraction of a second toward zero,
`Sunset - Sunrise` is within one second of 86400 seconds. -/
theorem polar_day_span (M : GoMath F) (l : Location F)
    (h : hourAngleArg M l.latitude l.jstar ≤ -1)
    (h1 : 2097153 ≤ (computeSolarNoonHourAngle M l).solarNoon)
    (h2 : (computeSolarNoonHourAngle M l).solarNoon ≤ 4194303) :
    (computeSolarNoonHourAngle M l).hourAngleInDays = 1 / 2 ∧
      Sunrise (computeSolarNoonHourAngle M l)
        = goTime ((computeSolarNoonHourAngle M l).solarNoon - 1 / 2) l.location ∧
      Sunset (computeSolarNoonHourAngle M l)
        = goTime ((computeSolarNoonHourAngle M l).solarNoon + 1 / 2) l.location ∧
      GoTimeInRange ((computeSolarNoonHourAngle M l).solarNoon - 1 / 2) ∧
      GoTimeInRange ((computeSolarNoonHourAngle M l).solarNoon + 1 / 2) ∧
      86399 ≤ (Sunset (computeSolarNoonHourAngle M l)).unix
          - (Sunrise (computeSolarNoonHourAngle M l)).unix ∧
      (Sunset (computeSolarNoonHourAngle M l)).unix
          - (Sunrise (computeSolarNoonHourAngle M l)).unix ≤ 86401 := by
  have h0 := hourAngle_polar_day M l h
  obtain ⟨a, -, -, -⟩ := half_day_arc_seconds (computeSolarNoonHourAngle M l) h0
  refine ⟨h0, ?_, ?_, goTime_in_int64 (by linarith) (by linarith),
    goTime_in_int64 (by linarith) (by linarith), ?_, ?_⟩
  · simp only [Sunrise, h0, compute_location]
  · simp only [Sunset, h0, compute_location]
  · rcases a with a | a <;> omega
  · rcases a with a | a <;> omega

/-- C4, witness: latitude -89° one day after the epoch (day anchor
2451546) is a polar-day day with solar noon inside the range; sunset is at
least 86399 seconds after sunrise. -/
theorem polar_day_span_witness :
    hourAngleArg realMath (-89 : ℝ) 2451546 ≤ -1 ∧
      (computeSolarNoonHourAngle realMath
        ⟨⟨"UTC"⟩, -89, 0, 2451546, 0, 0⟩).hourAngleInDays = 1 / 2 ∧
      86399 ≤ (Sunset (computeSolarNoonHourAngle realMath
            ⟨⟨"UTC"⟩, -89, 0, 2451546, 0, 0⟩)).unix
        - (Sunrise (computeSolarNoonHourAngle realMath
            ⟨⟨"UTC"⟩, -89, 0, 2451546, 0, 0⟩)).unix := by
  have h : hourAngleArg realMath (-89 : ℝ) 2451546 ≤ -1 :=
    hourAngleArg_south (j := 2451546) (by norm_num [jepoch]) (by norm_num [jepoch])
  obtain ⟨n1, n2⟩ := solarNoonOf_near 2451546
  have w := polar_day_span realMath ⟨⟨"UTC"⟩, -89, 0, 2451546, 0, 0⟩ h
    (by rw [compute_solarNoon]; show (2097153 : ℝ) ≤ solarNoonOf realMath 2451546; linarith)
    (by rw [compute_solarNoon]; show solarNoonOf realMath 2451546 ≤ (4194303 : ℝ); linarith)
  exact ⟨h, w.1, w.2.2.2.2.2.1⟩

/-- C4, counterexample: latitude -89°, longitude 0.324°, constructed at
Unix time 946728000 (day anchor 2451545).  The argument of the arccosine
is at most -1 and `hourAngleInDays` is 1/2, yet `Sunrise` is Unix second
946684992 and `Sunset` is 946771391: 86399 seconds apart, not 24 hours. -/
theorem polar_day_one_second_short :
    hourAngleArg realMath (-89 : ℝ)
        (NewLocation realMath ⟨"UTC"⟩ 946728000 (-89) 0.324).jstar ≤ -1 ∧
      (NewLocation realMath ⟨"UTC"⟩ 946728000 (-89) 0.324).hourAngleInDays = 1 / 2 ∧
      (Sunrise (NewLocation realMath ⟨"UTC"⟩ 946728000 (-89) 0.324)).unix = 946684992 ∧
      (Sunset (NewLocation realMath ⟨"UTC"⟩ 946728000 (-89) 0.324)).unix = 946771391 ∧
      (Sunset (NewLocation realMath ⟨"UTC"⟩ 946728000 (-89) 0.324)).unix
        - (Sunrise (NewLocation realMath ⟨"UTC"⟩ 946728000 (-89) 0.324)).unix ≠ 86400 := by
  have hj : (NewLocation realMath ⟨"UTC"⟩ 946728000 (-89) 0.324).jstar = jepoch :=
    jStar_at_epoch
  have harg : hourAngleArg realMath (-89 : ℝ) jepoch ≤ -1 :=
    hourAngleArg_south (j := jepoch) (by simp) (by simp)
  have hh : (NewLocation realMath ⟨"UTC"⟩ 946728000 (-89) 0.324).hourAngleInDays = 1 / 2 := by
    apply hourAngle_polar_day
    show hourAngleArg realMath (-89 : ℝ) (jStar 946728000 (0.324 : ℝ)) ≤ -1
    rw [jStar_at_epoch]
    exact harg
  have hs : (NewLocation realMath ⟨"UTC"⟩ 946728000 (-89) 0.324).solarNoon
      = solarNoonOf realMath jepoch := by
    show solarNoonOf realMath (jStar 946728000 (0.324 : ℝ)) = _
    rw [jStar_at_epoch]
  obtain ⟨y1, y2⟩ := solarNoon_at_epoch
  rw [← hs] at y1 y2
  obtain ⟨u1, u2⟩ := unix_of_noon_near_epoch _ hh y1 y2
  rw [hj]
  refine ⟨harg, hh, u1, u2, ?_⟩
  rw [u1, u2]
  norm_num

/-- C5 (as the code behaves): on a day of 24-hour daylight (argument of the
arccosine at most -1) no error arises and `hourAngleInDays` is 1/2:
`Sunrise` is the instant of `solarNoon - 1/2` and `Sunset` the instant of
`solarNoon + 1/2`.  For a solar noon between the Julian days 2097153 and
4194303 (the years 1030 to 6771) both conversions stay inside `int64`, and
the two instants lie strictly before and strictly after the instant of
solar noon, so they are not equal. -/
theorem polar_day_keeps_full_arc (M : GoMath F) (l : Location F)
    (h : hourAngleArg M l.latitude l.jstar ≤ -1)
    (h1 : 2097153 ≤ (computeSolarNoonHourAngle M l).solarNoon)
    (h2 : (computeSolarNoonHourAngle M l).solarNoon ≤ 4194303) :
    (computeSolarNoonHourAngle M l).hourAngleInDays = 1 / 2 ∧
      Sunrise (computeSolarNoonHourAngle M l)
        = goTime ((computeSolarNoonHourAngle M l).solarNoon - 1 / 2) l.location ∧
      Sunset (computeSolarNoonHourAngle M l)
        = goTime ((computeSolarNoonHourAngle M l).solarNoon + 1 / 2) l.location ∧
      GoTimeInRange ((computeSolarNoonHourAngle M l).solarNoon - 1 / 2) ∧
      GoTimeInRange ((computeSolarNoonHourAngle M l).solarNoon + 1 / 2) ∧
      (Sunrise (computeSolarNoonHourAngle M l)).unix
        < (goTime (computeSolarNoonHourAngle M l).solarNoon l.location).unix ∧
      (goTime (computeSolarNoonHourAngle M l).solarNoon l.location).unix
        < (Sunset (computeSolarNoonHourAngle M l)).unix ∧
      Sunrise (computeSolarNoonHourAngle M l) ≠ Sunset (computeSolarNoonHourAngle M l) := by
  have h0 := hourAngle_polar_day M l h
  obtain ⟨-, -, c, d⟩ := half_day_arc_seconds (computeSolarNoonHourAngle M l) h0
  rw [compute_location] at c d
  refine ⟨h0, ?_, ?_, goTime_in_int64 (by linarith) (by linarith),
    goTime_in_int64 (by linarith) (by linarith), c, d, fun e => ?_⟩
  · simp only [Sunrise, h0, compute_location]
  · simp only [Sunset, h0, compute_location]
  · rw [e] at c
    omega

/-- C5, witness: latitude -89° half a day after the epoch. -/
theorem polar_day_keeps_full_arc_witness :
    hourAngleArg realMath (-89 : ℝ) 2451545.5 ≤ -1 ∧
      Sunrise (computeSolarNoonHourAngle realMath ⟨⟨"UTC"⟩, -89, 0, 2451545.5, 0, 0⟩)
        ≠ Sunset (computeSolarNoonHourAngle realMath ⟨⟨"UTC"⟩, -89, 0, 2451545.5, 0, 0⟩) := by
  have h : hourAngleArg realMath (-89 : ℝ) 2451545.5 ≤ -1 :=
    hourAngleArg_south (j := 2451545.5) (by norm_num [jepoch]) (by norm_num [jepoch])
  obtain ⟨n1, n2⟩ := solarNoonOf_near 2451545.5
  exact ⟨h, (polar_day_keeps_full_arc realMath ⟨⟨"UTC"⟩, -89, 0, 2451545.5, 0, 0⟩ h
    (by rw [compute_solarNoon]; show (2097153 : ℝ) ≤ solarNoonOf realMath 2451545.5; linarith)
    (by rw [compute_solarNoon]; show solarNoonOf realMath 2451545.5 ≤ (4194303 : ℝ); linarith)
    ).2.2.2.2.2.2.2⟩

/-- C5, counterexample: latitude -89° (beyond the polar circle), longitude
0°, constructed at Unix time 946728000, a day of 24-hour daylight
(argument of the arccosine at most -1): `Sunrise` and `Sunset` differ, and
neither is the instant of solar noon. -/
theorem polar_day_does_not_collapse :
    hourAngleArg realMath (NewLocation realMath ⟨"UTC"⟩ 946728000 (-89) 0).latitude
        (NewLocation realMath ⟨"UTC"⟩ 946728000 (-89) 0).jstar ≤ -1 ∧
      Sunrise (NewLocation realMath ⟨"UTC"⟩ 946728000 (-89) 0)
        ≠ Sunset (NewLocation realMath ⟨"UTC"⟩ 946728000 (-89) 0) ∧
      Sunrise (NewLocation realMath ⟨"UTC"⟩ 946728000 (-89) 0)
        ≠ goTime (NewLocation realMath ⟨"UTC"⟩ 946728000 (-89) 0).solarNoon ⟨"UTC"⟩ ∧
      Sunset (NewLocation realMath ⟨"UTC"⟩ 946728000 (-89) 0)
        ≠ goTime (NewLocation realMath ⟨"UTC"⟩ 946728000 (-89) 0).solarNoon ⟨"UTC"⟩ := by
  have harg : hourAngleArg realMath (-89 : ℝ) (jStar 946728000 (0 : ℝ)) ≤ -1 := by
    rw [jStar_at_greenwich]
    exact hourAngleArg_south (by norm_num) (by norm_num)
  have hh : (NewLocation realMath ⟨"UTC"⟩ 946728000 (-89) 0).hourAngleInDays = 1 / 2 :=
    hourAngle_polar_day realMath _ harg
  obtain ⟨-, -, c, d⟩ := half_day_arc_seconds _ hh
  have hz : (NewLocation realMath ⟨"UTC"⟩ 946728000 (-89) 0).location = ⟨"UTC"⟩ := rfl
  rw [hz] at c d
  refine ⟨harg, fun e => ?_, fun e => ?_, fun e => ?_⟩
  · rw [e] at c; omega
  · rw [e] at c; omega
  · rw [e] at d; omega

end Claims2

section Claims3

variable {F : Type} [LinearOrderedField F] [FloorRing F]

/-- C6 (as the code behaves): round trip.  The cursor addition of `AddDays`
is a float64 addition.  For a `Location` with fresh derived fields (every
state that `NewLocation`, `Today` or `AddDays` leaves is one) whose cursor
is a float64 from 2^21 up to 2^22 - 1 (the Julian days of the years 1030 to
6771), both cursor steps are exact: `AddDays(1)` is the step of the exact
model, and `AddDays(1)` followed by `AddDays(-1)` restores `jstar`,
`solarNoon` and `hourAngleInDays` (the whole state), and with them
`Sunrise` and `Sunset`. -/
theorem addDays_round_trip (M : GoMath F) (l : Location F) (h : Fresh M l)
    (hc : IsCursor64 l.jstar) (hr : l.jstar + 1 < 4194304) :
    (AddDays64 M 1 l).jstar = l.jstar + 1 ∧
      AddDays64 M 1 l = AddDays M 1 l ∧
      (AddDays64 M (-1) (AddDays64 M 1 l)).jstar = l.jstar ∧
      (AddDays64 M (-1) (AddDays64 M 1 l)).solarNoon = l.solarNoon ∧
      (AddDays64 M (-1) (AddDays64 M 1 l)).hourAngleInDays = l.hourAngleInDays ∧
      AddDays64 M (-1) (AddDays64 M 1 l) = l ∧
      Sunrise (AddDays64 M (-1) (AddDays64 M 1 l)) = Sunrise l ∧
      Sunset (AddDays64 M (-1) (AddDays64 M 1 l)) = Sunset l := by
  have c1 := hc.2.1
  have s1 := cursor_step_exact (1 : Int) hc (by push_cast; linarith) (by push_cast; linarith)
  have j1 : (AddDays64 M 1 l).jstar = l.jstar + ((1 : Int) : F) := s1.1
  have s2 := cursor_step_exact (j := l.jstar + ((1 : Int) : F)) (-1 : Int) s1.2
    (by push_cast; linarith) (by push_cast; linarith)
  have j2 : (AddDays64 M (-1) (AddDays64 M 1 l)).jstar = l.jstar := by
    rw [addDays64_jstar, j1, s2.1]
    push_cast
    ring
  have e : AddDays64 M (-1) (AddDays64 M 1 l) = l := by
    have hcmp : AddDays64 M (-1) (AddDays64 M 1 l) = computeSolarNoonHourAngle M l := by
      apply compute_congr
      · rfl
      · rfl
      · rfl
      · exact j2
    rw [hcmp]
    exact compute_eq_self_of_fresh M h
  refine ⟨?_, addDays64_eq_addDays M 1 l hc (by push_cast; linarith) (by push_cast; linarith),
    ?_⟩
  · rw [j1]; push_cast; rfl
  · rw [e]
    exact ⟨rfl, rfl, rfl, rfl, rfl, rfl⟩

/-- C6, witness: the location built at latitude -37.81°, longitude 0.324°
at Unix time 946728000, whose cursor is the epoch day 2451545. -/
theorem addDays_round_trip_witness :
    IsCursor64 (NewLocation realMath ⟨"UTC"⟩ 946728000 (-37.81) 0.324).jstar ∧
      AddDays64 realMath (-1)
          (AddDays64 realMath 1 (NewLocation realMath ⟨"UTC"⟩ 946728000 (-37.81) 0.324))
        = NewLocation realMath ⟨"UTC"⟩ 946728000 (-37.81) 0.324 := by
  have hj : (NewLocation realMath ⟨"UTC"⟩ 946728000 (-37.81) 0.324).jstar = jepoch :=
    jStar_at_epoch
  have hc : IsCursor64 (NewLocation realMath ⟨"UTC"⟩ 946728000 (-37.81) 0.324).jstar := by
    rw [hj]; exact isCursor64_epoch
  exact ⟨hc, (addDays_round_trip realMath
    (NewLocation realMath ⟨"UTC"⟩ 946728000 (-37.81) 0.324) (fresh_compute realMath _)
    hc (by rw [hj]; norm_num [jepoch])).2.2.2.2.2.1⟩

/-- C6, counterexample: the location built at latitude -37.81°, longitude
0° at Unix time 946728000 and advanced by 1742758 days has the cursor
9007197109190079 / 2^31 (the float64 4194303.0009), just below 2^22.
`AddDays(1)` crosses 2^22, where float64 values are 2^-30 apart, and rounds
the cursor; `AddDays(-1)` then gives 9007197109190080 / 2^31: the cursor is
not restored. -/
theorem cursor_not_restored_across_4194304 :
    (AddDays64 realMath 1742758
        (NewLocation realMath ⟨"UTC"⟩ 946728000 (-37.81) 0)).jstar
        = 9007197109190079 / 2147483648 ∧
      (AddDays64 realMath (-1) (AddDays64 realMath 1 (AddDays64 realMath 1742758
        (NewLocation realMath ⟨"UTC"⟩ 946728000 (-37.81) 0)))).jstar
        = 9007197109190080 / 2147483648 ∧
      (AddDays64 realMath (-1) (AddDays64 realMath 1 (AddDays64 realMath 1742758
        (NewLocation realMath ⟨"UTC"⟩ 946728000 (-37.81) 0)))).jstar
        ≠ (AddDays64 realMath 1742758
            (NewLocation realMath ⟨"UTC"⟩ 946728000 (-37.81) 0)).jstar := by
  have hj : (NewLocation realMath ⟨"UTC"⟩ 946728000 (-37.81) 0).jstar = 2451545.0009 := by
    show jStar 946728000 (0 : ℝ) = _
    rw [jStar_at_greenwich]; norm_num [jepoch]
  have i1 : toFloat64 (((1742758 : Int) : ℝ)) = 1742758 := by
    rw [toFloat64_intCast _ (by norm_num)]; norm_num
  have i2 : toFloat64 (((1 : Int) : ℝ)) = 1 := by
    rw [toFloat64_intCast _ (by norm_num)]; norm_num
  have i3 : toFloat64 (((-1 : Int) : ℝ)) = -1 := by
    rw [toFloat64_intCast _ (by norm_num)]; norm_num
  have a1 : (AddDays64 realMath 1742758
      (NewLocation realMath ⟨"UTC"⟩ 946728000 (-37.81) 0)).jstar
      = 9007197109190079 / 2147483648 := by
    rw [addDays64_jstar, hj, i1, float_of_greenwich_far]
  have a2 : (AddDays64 realMath (-1) (AddDays64 realMath 1 (AddDays64 realMath 1742758
      (NewLocation realMath ⟨"UTC"⟩ 946728000 (-37.81) 0)))).jstar
      = 9007197109190080 / 2147483648 := by
    rw [addDays64_jstar, addDays64_jstar, a1, i2, i3, float_tie_up, float_back]
  refine ⟨a1, a2, ?_⟩
  rw [a1, a2]
  norm_num

/-- C7 (as the code behaves): day steps compose while the cursor stays in
one float64 binade.  For a `Location` whose cursor is a float64 from 2^21 up
to 2^22 (the Julian days of the years 1030 to 6771) and integers `m`, `n`
with the cursor after `m` days and after `m + n` days in that range too,
every cursor step is exact: `AddDays(m)` followed by `AddDays(n)` gives the
state, and so the `Sunrise` and `Sunset`, of `AddDays(m + n)`, which is the
step of the exact model. -/
theorem addDays_compose (M : GoMath F) (l : Location F) (m n : Int)
    (hc : IsCursor64 l.jstar)
    (hm1 : 2097152 ≤ l.jstar + (m : F)) (hm2 : l.jstar + (m : F) < 4194304)
    (hn1 : 2097152 ≤ l.jstar + (m : F) + (n : F))
    (hn2 : l.jstar + (m : F) + (n : F) < 4194304) :
    AddDays64 M n (AddDays64 M m l) = AddDays64 M (m + n) l ∧
      Sunrise (AddDays64 M n (AddDays64 M m l)) = Sunrise (AddDays64 M (m + n) l) ∧
      Sunset (AddDays64 M n (AddDays64 M m l)) = Sunset (AddDays64 M (m + n) l) ∧
      (AddDays64 M (m + n) l).jstar = l.jstar + (m : F) + (n : F) ∧
      AddDays64 M (m + n) l = AddDays M (m + n) l := by
  have s1 := cursor_step_exact m hc hm1 hm2
  have s2 := cursor_step_exact (j := l.jstar + (m : F)) n s1.2 hn1 hn2
  have s3 := cursor_step_exact (m + n) hc (by push_cast; linarith) (by push_cast; linarith)
  have j3 : (AddDays64 M (m + n) l).jstar = l.jstar + (m : F) + (n : F) := by
    rw [addDays64_jstar, s3.1]; push_cast; ring
  have e : AddDays64 M n (AddDays64 M m l) = AddDays64 M (m + n) l := by
    apply compute_congr
    · rfl
    · rfl
    · rfl
    · show toFloat64 ((AddDays64 M m l).jstar + toFloat64 (n : F))
        = toFloat64 (l.jstar + toFloat64 ((m + n : Int) : F))
      rw [addDays64_jstar, s1.1, s2.1, s3.1]
      push_cast
      ring
  refine ⟨e, by rw [e], by rw [e], j3, ?_⟩
  exact addDays64_eq_addDays M (m + n) l hc (by push_cast; linarith) (by push_cast; linarith)

/-- C7, witness: two steps of one day equal one step of two days, for the
location built at latitude -37.81°, longitude 0.324° at Unix time
946728000. -/
theorem addDays_compose_witness :
    Sunrise (AddDays64 realMath 1
        (AddDays64 realMath 1 (NewLocation realMath ⟨"UTC"⟩ 946728000 (-37.81) 0.324)))
      = Sunrise (AddDays64 realMath 2 (NewLocation realMath ⟨"UTC"⟩ 946728000 (-37.81) 0.324)) ∧
    Sunset (AddDays64 realMath 1
        (AddDays64 realMath 1 (NewLocation realMath ⟨"UTC"⟩ 946728000 (-37.81) 0.324)))
      = Sunset (AddDays64 realMath 2 (NewLocation realMath ⟨"UTC"⟩ 946728000 (-37.81) 0.324)) := by
  have hj : (NewLocation realMath ⟨"UTC"⟩ 946728000 (-37.81) 0.324).jstar = jepoch :=
    jStar_at_epoch
  have w := addDays_compose realMath
    (NewLocation realMath ⟨"UTC"⟩ 946728000 (-37.81) 0.324) 1 1
    (by rw [hj]; exact isCursor64_epoch) (by rw [hj]; norm_num [jepoch])
    (by rw [hj]; norm_num [jepoch]) (by rw [hj]; norm_num [jepoch])
    (by rw [hj]; norm_num [jepoch])
  exact ⟨w.2.1, w.2.2.1⟩

/-- C8: freshness.  `NewLocation`, `Today` and `AddDays` each set `jstar`
and leave `solarNoon` and `hourAngleInDays` equal to the values the solar
equation gives for that `jstar` and the latitude; in every reachable state
`Sunrise` and `Sunset` are computed from the values of the current
`jstar`. -/
theorem derived_fields_fresh (M : GoMath F) :
    (∀ (zone : TimeLocation) (now : Int) (latitude longitude : F),
        (NewLocation M zone now latitude longitude).jstar = jStar now longitude ∧
        Fresh M (NewLocation M zone now latitude longitude)) ∧
      (∀ (now : Int) (l : Location F),
        (Today M now l).jstar = jStar now l.longitude ∧ Fresh M (Today M now l)) ∧
      (∀ (numDays : Int) (l : Location F),
        (AddDays M numDays l).jstar = l.jstar + (numDays : F) ∧
        Fresh M (AddDays M numDays l)) ∧
      (∀ l : Location F, Reachable M l →
        Sunrise l = goTime (solarNoonOf M l.jstar - hourAngleOf M l.latitude l.jstar)
          l.location ∧
        Sunset l = goTime (solarNoonOf M l.jstar + hourAngleOf M l.latitude l.jstar)
          l.location) := by
  refine ⟨fun _ _ _ _ => ⟨rfl, fresh_compute M _⟩, fun _ _ => ⟨rfl, fresh_compute M _⟩,
    fun _ _ => ⟨rfl, fresh_compute M _⟩, fun l hl => ?_⟩
  obtain ⟨h1, h2⟩ := fresh_of_reachable M hl
  constructor
  · simp only [Sunrise, h1, h2]
  · simp only [Sunset, h1, h2]

/-- C9: determinism.  Two `Location`s reached through the public API that
agree on latitude, longitude, `jstar` and time zone are the same state and
return equal `Sunrise` and equal `Sunset`.  (`Sunrise` and `Sunset` assign
no field: they are functions of the state, so a repeated call returns the
same instant.) -/
theorem sunrise_sunset_deterministic (M : GoMath F) (l₁ l₂ : Location F)
    (h₁ : Reachable M l₁) (h₂ : Reachable M l₂)
    (hlat : l₁.latitude = l₂.latitude) (hlon : l₁.longitude = l₂.longitude)
    (hj : l₁.jstar = l₂.jstar) (hz : l₁.location = l₂.location) :
    l₁ = l₂ ∧ Sunrise l₁ = Sunrise l₂ ∧ Sunset l₁ = Sunset l₂ := by
  have e : l₁ = l₂ := by
    rw [← compute_eq_self_of_fresh M (fresh_of_reachable M h₁),
      ← compute_eq_self_of_fresh M (fresh_of_reachable M h₂)]
    exact compute_congr M l₁ l₂ hz hlat hlon hj
  exact ⟨e, by rw [e], by rw [e]⟩

/-- C9, witness: a fresh location for Melbourne, and the same location
after five days were added and `Today` was called at the same moment. -/
theorem sunrise_sunset_deterministic_witness :
    Sunrise (NewLocation realMath ⟨"UTC"⟩ 946728000 (-37.81) 144.96)
        = Sunrise (Today realMath 946728000
            (AddDays realMath 5 (NewLocation realMath ⟨"UTC"⟩ 946728000 (-37.81) 144.96))) ∧
      Sunset (NewLocation realMath ⟨"UTC"⟩ 946728000 (-37.81) 144.96)
        = Sunset (Today realMath 946728000
            (AddDays realMath 5 (NewLocation realMath ⟨"UTC"⟩ 946728000 (-37.81) 144.96))) :=
  (sunrise_sunset_deterministic realMath _ _
    (Reachable.newLocation ⟨"UTC"⟩ 946728000 (-37.81) 144.96)
    (Reachable.today 946728000
      (Reachable.addDays 5 (Reachable.newLocation ⟨"UTC"⟩ 946728000 (-37.81) 144.96)))
    rfl rfl rfl rfl).2

/-- C10: at latitude 0, for every day cursor between the Julian days
2097153 and 4194303 (the years 1030 to 6771, where `goTime` stays inside
`int64`), the half-day arc is between 90° and 90.95° (daylight
`2 * hourAngleInDays` between 43200 and 43656 seconds) and the instants
differ by `Sunset - Sunrise` within 480 seconds (8 minutes) of 43200 seconds
(12 hours). -/
theorem equator_daylight_near_12h (l : Location ℝ) (h : l.latitude = 0)
    (h1 : 2097153 ≤ l.jstar) (h2 : l.jstar ≤ 4194303) :
    43200 ≤ 2 * (computeSolarNoonHourAngle realMath l).hourAngleInDays * 86400 ∧
      2 * (computeSolarNoonHourAngle realMath l).hourAngleInDays * 86400 ≤ 43656 ∧
      GoTimeInRange ((computeSolarNoonHourAngle realMath l).solarNoon
        - (computeSolarNoonHourAngle realMath l).hourAngleInDays) ∧
      GoTimeInRange ((computeSolarNoonHourAngle realMath l).solarNoon
        + (computeSolarNoonHourAngle realMath l).hourAngleInDays) ∧
      |(Sunset (computeSolarNoonHourAngle realMath l)).unix
          - (Sunrise (computeSolarNoonHourAngle realMath l)).unix - 43200| ≤ 480 := by
  have hh : (computeSolarNoonHourAngle realMath l).hourAngleInDays
      = hourAngleOf realMath 0 l.jstar := by
    rw [compute_hourAngle, h]
  obtain ⟨b1, b2⟩ := hourAngleOf_equator l.jstar
  obtain ⟨n1, n2⟩ := solarNoonOf_near l.jstar
  rw [← hh] at b1 b2
  rw [← compute_solarNoon realMath l] at n1 n2
  set l' := computeSolarNoonHourAngle realMath l with hl'
  obtain ⟨r1, r2⟩ := toInt64_sub_lt ((l'.solarNoon - l'.hourAngleInDays - jepoch) * 86400)
  obtain ⟨s1, s2⟩ := toInt64_sub_lt ((l'.solarNoon + l'.hourAngleInDays - jepoch) * 86400)
  have e : (Sunset l').unix - (Sunrise l').unix
      = toInt64 ((l'.solarNoon + l'.hourAngleInDays - jepoch) * 86400)
        - toInt64 ((l'.solarNoon - l'.hourAngleInDays - jepoch) * 86400) := by
    simp only [Sunset, Sunrise, goTime]
    ring
  have d1 : ((43198 : Int) : ℝ) <
      ((toInt64 ((l'.solarNoon + l'.hourAngleInDays - jepoch) * 86400)
        - toInt64 ((l'.solarNoon - l'.hourAngleInDays - jepoch) * 86400) : Int) : ℝ) := by
    push_cast; linarith
  have d2 : ((toInt64 ((l'.solarNoon + l'.hourAngleInDays - jepoch) * 86400)
        - toInt64 ((l'.solarNoon - l'.hourAngleInDays - jepoch) * 86400) : Int) : ℝ)
      < ((43658 : Int) : ℝ) := by
    push_cast; linarith
  have d1' := Int.cast_lt.mp d1
  have d2' := Int.cast_lt.mp d2
  refine ⟨by linarith, by linarith, goTime_in_int64 (by linarith) (by linarith),
    goTime_in_int64 (by linarith) (by linarith), ?_⟩
  rw [e, abs_le]
  constructor <;> omega

/-- C10, witness: latitude 0 at the epoch day. -/
theorem equator_daylight_near_12h_witness :
    |(Sunset (computeSolarNoonHourAngle realMath ⟨⟨"UTC"⟩, 0, 0, 2451545, 0, 0⟩)).unix
        - (Sunrise (computeSolarNoonHourAngle realMath ⟨⟨"UTC"⟩, 0, 0, 2451545, 0, 0⟩)).unix
        - 43200| ≤ 480 :=
  (equator_daylight_near_12h ⟨⟨"UTC"⟩, 0, 0, 2451545, 0, 0⟩ rfl
    (by norm_num) (by norm_num)).2.2.2.2

end Claims3

/-! ## The day anchor and the order of instants -/

section JulianSeconds

variable {F : Type} [LinearOrderedField F]

/-- Seconds between the epoch and `now`, from the Julian day. -/
theorem julianDay_seconds (now : Int) :
    ((julianDay now : F) - jepoch) * 86400 = ((now - uepoch : Int) : F) := by
  simp only [julianDay]
  field_simp
  ring

end JulianSeconds

section Anchor

variable {F : Type} [LinearOrderedField F] [FloorRing F]

/-- The day anchor is the current Julian day rounded to the nearest point
of the lattice `ℤ + 0.0009 - longitude / 360`. -/
theorem jStar_bounds (now : Int) (longitude : F) :
    julianDay now - 1 / 2 < jStar now longitude ∧
      jStar now longitude ≤ julianDay now + 1 / 2 ∧
      jStar now longitude - 0.0009 + longitude / 360
        = ((⌊(julianDay now - 0.0009 + longitude / 360 + 0.5 : F)⌋ : Int) : F) := by
  have h1 := Int.floor_le (julianDay now - 0.0009 + longitude / 360 + 0.5 : F)
  have h2 := Int.lt_floor_add_one (julianDay now - 0.0009 + longitude / 360 + 0.5 : F)
  simp only [jStar, floorF]
  generalize ⌊(julianDay now - 0.0009 + longitude / 360 + 0.5 : F)⌋ = k at h1 h2 ⊢
  have e1 : (0.0009 : F) = 9 / 10000 := by norm_num
  have e2 : (0.5 : F) = 1 / 2 := by norm_num
  rw [e1, e2] at h1 h2
  rw [e1]
  refine ⟨by linarith, by linarith, by ring⟩

theorem toInt64_mono {x y : F} (h : x ≤ y) : toInt64 x ≤ toInt64 y := by
  rcases le_or_lt 0 x with hx | hx
  · rw [toInt64_of_nonneg hx, toInt64_of_nonneg (hx.trans h)]
    exact Int.floor_mono h
  · rcases le_or_lt 0 y with hy | hy
    · rw [toInt64_of_nonpos hx.le, toInt64_of_nonneg hy]
      have h1 : ⌈x⌉ ≤ 0 := Int.ceil_le.mpr (by simpa using hx.le)
      have h2 : 0 ≤ ⌊y⌋ := Int.floor_nonneg.mpr hy
      exact h1.trans h2
    · rw [toInt64_of_nonpos hx.le, toInt64_of_nonpos hy.le]
      exact Int.ceil_mono h

/-- `goTime` keeps the order of its arguments. -/
theorem goTime_unix_mono {a b : F} (h : a ≤ b) (z₁ z₂ : TimeLocation) :
    (goTime a z₁).unix ≤ (goTime b z₂).unix := by
  simp only [goTime]
  have := toInt64_mono (F := F) (x := (a - jepoch) * 86400) (y := (b - jepoch) * 86400)
    (by linarith)
  omega

/-- The Unix second of `goTime j` is within one second of the exact value. -/
theorem goTime_unix_near (j : F) (z : TimeLocation) :
    (j - jepoch) * 86400 - 1 < (((goTime j z).unix - uepoch : Int) : F) ∧
      (((goTime j z).unix - uepoch : Int) : F) < (j - jepoch) * 86400 + 1 := by
  obtain ⟨h1, h2⟩ := toInt64_sub_lt ((j - jepoch) * 86400)
  simp only [goTime]
  constructor
  · push_cast; linarith
  · push_cast; linarith

end Anchor

section RealArc

/-- The clamped arccosine is between 0 and 180 degrees. -/
theorem acos_realMath_range (x : ℝ) : 0 ≤ acos realMath x ∧ acos realMath x ≤ 180 := by
  have hpi : 0 < Real.pi := Real.pi_pos
  rcases le_or_lt 1 x with h | h
  · rw [acos_of_one_le _ h]; norm_num
  · rcases le_or_lt x (-1) with h' | h'
    · rw [acos_of_le_neg_one _ h']; norm_num
    · rw [acos_of_mem _ h' h]
      show 0 ≤ Real.arccos x * 180 / Real.pi ∧ Real.arccos x * 180 / Real.pi ≤ 180
      have h1 := Real.arccos_nonneg x
      have h2 := Real.arccos_le_pi x
      constructor
      · positivity
      · rw [div_le_iff₀ hpi]; linarith

/-- The half-day arc is between 0 and half a day. -/
theorem hourAngleOf_range (latitude j : ℝ) :
    0 ≤ hourAngleOf realMath latitude j ∧ hourAngleOf realMath latitude j ≤ 1 / 2 := by
  obtain ⟨h1, h2⟩ := acos_realMath_range (hourAngleArg realMath latitude j)
  unfold hourAngleOf
  constructor
  · positivity
  · linarith

end RealArc

/-! ## Day steps across float64 binades -/

section NoonStep

theorem abs_sin_sub_sin_le (x y : ℝ) : |Real.sin x - Real.sin y| ≤ |x - y| := by
  rw [Real.sin_sub_sin, abs_mul, abs_mul, abs_two]
  have h1 := Real.abs_sin_le_abs (x := (x - y) / 2)
  have h2 := Real.abs_cos_le_one ((x + y) / 2)
  have h3 : |(x - y) / 2| = |x - y| / 2 := by rw [abs_div, abs_two]
  rw [h3] at h1
  have h4 := abs_nonneg (Real.sin ((x - y) / 2))
  have h5 := abs_nonneg (Real.cos ((x + y) / 2))
  nlinarith

/-- The sine of an angle in degrees changes by at most 0.0175 per degree. -/
theorem abs_sin_realMath_sub_le (c d : ℝ) :
    |sin realMath c - sin realMath d| ≤ 0.0175 * |c - d| := by
  have h := abs_sin_sub_sin_le (c * Real.pi / 180) (d * Real.pi / 180)
  have e : c * Real.pi / 180 - d * Real.pi / 180 = (c - d) * (Real.pi / 180) := by ring
  have hpi := Real.pi_lt_d6
  have hp : 0 ≤ Real.pi / 180 := by positivity
  rw [e, abs_mul, abs_of_nonneg hp] at h
  have h0 := abs_nonneg (c - d)
  simp only [sin_realMath]
  nlinarith

/-- In the day after the epoch the ecliptic longitude is the unreduced
value less one turn. -/
theorem eclipticLongitude_near_epoch_eq {j : ℝ} (h0 : 0 ≤ j - jepoch) (h1 : j - jepoch ≤ 1) :
    eclipticLongitude realMath j
      = meanAnomaly j + 102.9372
        + (1.9148 * sin realMath (meanAnomaly j) + 0.02 * sin realMath (2 * meanAnomaly j)
          + 0.0003 * sin realMath (3 * meanAnomaly j)) + 180 - 360 := by
  have hma := meanAnomaly_near_epoch h0 h1
  have a1 := abs_le.mp (abs_sin_realMath_le (meanAnomaly j))
  have a2 := abs_le.mp (abs_sin_realMath_le (2 * meanAnomaly j))
  have a3 := abs_le.mp (abs_sin_realMath_le (3 * meanAnomaly j))
  set c : ℝ := 1.9148 * sin realMath (meanAnomaly j) + 0.02 * sin realMath (2 * meanAnomaly j)
    + 0.0003 * sin realMath (3 * meanAnomaly j) with hc
  have hel : eclipticLongitude realMath j = mod360 (meanAnomaly j + 102.9372 + c + 180) := rfl
  have hc1 : -1.9351 ≤ c := by rw [hc]; linarith [a1.1, a2.1, a3.1]
  have hc2 : c ≤ 1.9351 := by rw [hc]; linarith [a1.2, a2.2, a3.2]
  have h := mod360_of_mem (x := meanAnomaly j + 102.9372 + c + 180) (k := 1)
    (by rw [hma]; norm_num; linarith) (by rw [hma]; norm_num; linarith)
  rw [hel, h]
  norm_num

/-- The change of the ecliptic longitude from the changes of the sines of
the mean anomaly. -/
theorem longitude_step_algebra {d a₁ b₁ a₂ b₂ a₃ b₃ m n e f : ℝ}
    (dm : m - n = 0.98560028 * d)
    (t1 : |a₁ - b₁| ≤ 0.0175 * (0.98560028 * d))
    (t2 : |a₂ - b₂| ≤ 0.0175 * (2 * (0.98560028 * d)))
    (t3 : |a₃ - b₃| ≤ 0.0175 * (3 * (0.98560028 * d)))
    (he : e = m + 102.9372 + (1.9148 * a₁ + 0.02 * a₂ + 0.0003 * a₃) + 180 - 360)
    (hf : f = n + 102.9372 + (1.9148 * b₁ + 0.02 * b₂ + 0.0003 * b₃) + 180 - 360) :
    |2 * e - 2 * f| ≤ 2 * (1.02 * d) := by
  obtain ⟨u1, u2⟩ := abs_le.mp t1
  obtain ⟨v1, v2⟩ := abs_le.mp t2
  obtain ⟨w1, w2⟩ := abs_le.mp t3
  rw [abs_le, he, hf]
  constructor <;> linarith

/-- The change of solar noon from the changes of the two sines. -/
theorem noon_step_algebra {d a₁ b₁ s t x : ℝ} (hd : 0 ≤ d)
    (t1 : |a₁ - b₁| ≤ 0.0175 * (0.98560028 * d))
    (t4 : |s - t| ≤ 0.0175 * (2 * (1.02 * d))) :
    0.999 * d ≤ (x + d + 0.0053 * a₁ - 0.0069 * s) - (x + 0.0053 * b₁ - 0.0069 * t) ∧
      (x + d + 0.0053 * a₁ - 0.0069 * s) - (x + 0.0053 * b₁ - 0.0069 * t) ≤ 1.001 * d := by
  obtain ⟨u1, u2⟩ := abs_le.mp t1
  obtain ⟨v1, v2⟩ := abs_le.mp t4
  constructor <;> linarith

/-- In the day after the epoch solar noon moves with the day cursor: by
between 0.999 and 1.001 times the step. -/
theorem solarNoonOf_step {b d : ℝ} (hb : 0 ≤ b - jepoch) (hd : 0 ≤ d)
    (ha : b + d - jepoch ≤ 1) :
    0.999 * d ≤ solarNoonOf realMath (b + d) - solarNoonOf realMath b ∧
      solarNoonOf realMath (b + d) - solarNoonOf realMath b ≤ 1.001 * d := by
  have ha0 : 0 ≤ b + d - jepoch := by linarith
  have hb1 : b - jepoch ≤ 1 := by linarith
  have ma := meanAnomaly_near_epoch ha0 ha
  have mb := meanAnomaly_near_epoch hb hb1
  have dm : meanAnomaly (b + d) - meanAnomaly b = 0.98560028 * d := by rw [ma, mb]; ring
  have dm0 : |meanAnomaly (b + d) - meanAnomaly b| = 0.98560028 * d := by
    rw [dm]; exact abs_of_nonneg (by positivity)
  have s1 := abs_sin_realMath_sub_le (meanAnomaly (b + d)) (meanAnomaly b)
  have s2 := abs_sin_realMath_sub_le (2 * meanAnomaly (b + d)) (2 * meanAnomaly b)
  have s3 := abs_sin_realMath_sub_le (3 * meanAnomaly (b + d)) (3 * meanAnomaly b)
  rw [dm0] at s1
  rw [← mul_sub, abs_mul, abs_two, dm0] at s2
  rw [← mul_sub, abs_mul, abs_of_nonneg (by norm_num : (0 : ℝ) ≤ 3), dm0] at s3
  have e4 := longitude_step_algebra dm s1 s2 s3
    (eclipticLongitude_near_epoch_eq ha0 ha) (eclipticLongitude_near_epoch_eq hb hb1)
  have s4 := le_trans (abs_sin_realMath_sub_le (2 * eclipticLongitude realMath (b + d))
    (2 * eclipticLongitude realMath b)) (mul_le_mul_of_nonneg_left e4 (by norm_num))
  exact noon_step_algebra hd s1 s4

/-- Two states with a half-day arc of half a day whose solar noons are at
least 6.6 seconds apart: the instants are at least 5 seconds apart. -/
theorem polar_instants_step (l₁ l₂ : Location ℝ) (h₁ : l₁.hourAngleInDays = 1 / 2)
    (h₂ : l₂.hourAngleInDays = 1 / 2)
    (hs : 6.6 ≤ (l₁.solarNoon - l₂.solarNoon) * 86400) :
    (Sunrise l₂).unix + 5 ≤ (Sunrise l₁).unix ∧ (Sunset l₂).unix + 5 ≤ (Sunset l₁).unix := by
  obtain ⟨r1, -⟩ := goTime_unix_near (l₁.solarNoon - l₁.hourAngleInDays) l₁.location
  obtain ⟨-, r2⟩ := goTime_unix_near (l₂.solarNoon - l₂.hourAngleInDays) l₂.location
  obtain ⟨s1, -⟩ := goTime_unix_near (l₁.solarNoon + l₁.hourAngleInDays) l₁.location
  obtain ⟨-, s2⟩ := goTime_unix_near (l₂.solarNoon + l₂.hourAngleInDays) l₂.location
  rw [h₁] at r1 s1
  rw [h₂] at r2 s2
  have a : (((goTime (l₂.solarNoon - l₂.hourAngleInDays) l₂.location).unix + 4 : Int) : ℝ)
      < (((goTime (l₁.solarNoon - l₁.hourAngleInDays) l₁.location).unix : Int) : ℝ) := by
    rw [h₁, h₂]
    push_cast at r1 r2 ⊢
    linarith
  have b : (((goTime (l₂.solarNoon + l₂.hourAngleInDays) l₂.location).unix + 4 : Int) : ℝ)
      < (((goTime (l₁.solarNoon + l₁.hourAngleInDays) l₁.location).unix : Int) : ℝ) := by
    rw [h₁, h₂]
    push_cast at s1 s2 ⊢
    linarith
  have a' := Int.cast_lt.mp a
  have b' := Int.cast_lt.mp b
  simp only [Sunrise, Sunset]
  constructor <;> omega

end NoonStep

section ComposeExample

/-- C7, counterexample: the location built at latitude -89°, longitude 0°
at Unix time 946728000 (cursor 2451545.0009).  At 2^40 days float64 values
are 2^-12 days apart, so `AddDays(1099511627776)` rounds the cursor, and
`AddDays(-1099511627776)` after it leaves 5264652801933312 / 2^31
(2451545.0009765625), while `AddDays(1099511627776 + -1099511627776)`, a
step of 0 days, leaves 5264652801768895 / 2^31 (the float64 2451545.0009).
The two states differ, and their `Sunrise` and their `Sunset` are at least
5 seconds apart. -/
theorem day_steps_do_not_compose :
    (AddDays64 realMath (-1099511627776) (AddDays64 realMath 1099511627776
        (NewLocation realMath ⟨"UTC"⟩ 946728000 (-89) 0))).jstar
        = 5264652801933312 / 2147483648 ∧
      (AddDays64 realMath (1099511627776 + -1099511627776)
        (NewLocation realMath ⟨"UTC"⟩ 946728000 (-89) 0)).jstar
        = 5264652801768895 / 2147483648 ∧
      AddDays64 realMath (-1099511627776) (AddDays64 realMath 1099511627776
          (NewLocation realMath ⟨"UTC"⟩ 946728000 (-89) 0))
        ≠ AddDays64 realMath (1099511627776 + -1099511627776)
            (NewLocation realMath ⟨"UTC"⟩ 946728000 (-89) 0) ∧
      (Sunrise (AddDays64 realMath (1099511627776 + -1099511627776)
          (NewLocation realMath ⟨"UTC"⟩ 946728000 (-89) 0))).unix + 5
        ≤ (Sunrise (AddDays64 realMath (-1099511627776) (AddDays64 realMath 1099511627776
            (NewLocation realMath ⟨"UTC"⟩ 946728000 (-89) 0)))).unix ∧
      (Sunset (AddDays64 realMath (1099511627776 + -1099511627776)
          (NewLocation realMath ⟨"UTC"⟩ 946728000 (-89) 0))).unix + 5
        ≤ (Sunset (AddDays64 realMath (-1099511627776) (AddDays64 realMath 1099511627776
            (NewLocation realMath ⟨"UTC"⟩ 946728000 (-89) 0)))).unix := by
  have hj : (NewLocation realMath ⟨"UTC"⟩ 946728000 (-89) 0).jstar = 2451545.0009 := by
    show jStar 946728000 (0 : ℝ) = _
    rw [jStar_at_greenwich]; norm_num [jepoch]
  have i1 : toFloat64 (((1099511627776 : Int) : ℝ)) = 1099511627776 := by
    rw [toFloat64_intCast _ (by norm_num)]; norm_num
  have i2 : toFloat64 (((-1099511627776 : Int) : ℝ)) = -1099511627776 := by
    rw [toFloat64_intCast _ (by norm_num)]; norm_num
  have i3 : toFloat64 (((1099511627776 + -1099511627776 : Int) : ℝ)) = 0 := by
    rw [toFloat64_intCast _ (by norm_num)]; norm_num
  have a1 : (AddDays64 realMath (-1099511627776) (AddDays64 realMath 1099511627776
      (NewLocation realMath ⟨"UTC"⟩ 946728000 (-89) 0))).jstar
      = 5264652801933312 / 2147483648 := by
    rw [addDays64_jstar, addDays64_jstar, hj, i1, i2, float_far_step, float_far_back]
  have a2 : (AddDays64 realMath (1099511627776 + -1099511627776)
      (NewLocation realMath ⟨"UTC"⟩ 946728000 (-89) 0)).jstar
      = 5264652801768895 / 2147483648 := by
    rw [addDays64_jstar, hj, i3, float_of_greenwich]
  have ea : (5264652801933312 / 2147483648 : ℝ)
      = 5264652801768895 / 2147483648 + 164417 / 2147483648 := by norm_num
  have g1 : hourAngleArg realMath (-89) (5264652801933312 / 2147483648) ≤ -1 :=
    hourAngleArg_south (by norm_num [jepoch]) (by norm_num [jepoch])
  have g2 : hourAngleArg realMath (-89) (5264652801768895 / 2147483648) ≤ -1 :=
    hourAngleArg_south (by norm_num [jepoch]) (by norm_num [jepoch])
  have h1 : (AddDays64 realMath (-1099511627776) (AddDays64 realMath 1099511627776
      (NewLocation realMath ⟨"UTC"⟩ 946728000 (-89) 0))).hourAngleInDays = 1 / 2 := by
    apply hourAngle_polar_day
    show hourAngleArg realMath (-89) (AddDays64 realMath (-1099511627776)
      (AddDays64 realMath 1099511627776
        (NewLocation realMath ⟨"UTC"⟩ 946728000 (-89) 0))).jstar ≤ -1
    rw [a1]; exact g1
  have h2 : (AddDays64 realMath (1099511627776 + -1099511627776)
      (NewLocation realMath ⟨"UTC"⟩ 946728000 (-89) 0)).hourAngleInDays = 1 / 2 := by
    apply hourAngle_polar_day
    show hourAngleArg realMath (-89) (AddDays64 realMath (1099511627776 + -1099511627776)
        (NewLocation realMath ⟨"UTC"⟩ 946728000 (-89) 0)).jstar ≤ -1
    rw [a2]; exact g2
  have n1 : (AddDays64 realMath (-1099511627776) (AddDays64 realMath 1099511627776
      (NewLocation realMath ⟨"UTC"⟩ 946728000 (-89) 0))).solarNoon
      = solarNoonOf realMath (5264652801768895 / 2147483648 + 164417 / 2147483648) := by
    rw [← ea, ← a1]; rfl
  have n2 : (AddDays64 realMath (1099511627776 + -1099511627776)
      (NewLocation realMath ⟨"UTC"⟩ 946728000 (-89) 0)).solarNoon
      = solarNoonOf realMath (5264652801768895 / 2147483648) := by
    rw [← a2]; rfl
  obtain ⟨k, -⟩ := solarNoonOf_step (b := 5264652801768895 / 2147483648)
    (d := 164417 / 2147483648) (by norm_num [jepoch]) (by norm_num) (by norm_num [jepoch])
  have hs : 6.6 ≤ ((AddDays64 realMath (-1099511627776) (AddDays64 realMath 1099511627776
      (NewLocation realMath ⟨"UTC"⟩ 946728000 (-89) 0))).solarNoon
      - (AddDays64 realMath (1099511627776 + -1099511627776)
        (NewLocation realMath ⟨"UTC"⟩ 946728000 (-89) 0)).solarNoon) * 86400 := by
    rw [n1, n2]
    norm_num at k ⊢
    linarith
  obtain ⟨p1, p2⟩ := polar_instants_step _ _ h1 h2 hs
  refine ⟨a1, a2, fun e => ?_, p1, p2⟩
  rw [e, a2] at a1
  norm_num at a1

end ComposeExample

section Claims4

variable {F : Type} [LinearOrderedField F] [FloorRing F]

/-- C11: immediately after `NewLocation`, and immediately after `Today`,
at Unix time `now`: if the half-day arc is at most 23/48 of a day (at most
23 hours of daylight), `Sunrise` is no earlier than 86400 seconds before
`now` and `Sunset` no later than 86400 seconds after `now`. -/
theorem first_day_within_24h (zone : TimeLocation) (now : Int) (latitude longitude : ℝ)
    (h : (NewLocation realMath zone now latitude longitude).hourAngleInDays ≤ 23 / 48) :
    now - 86400 ≤ (Sunrise (NewLocation realMath zone now latitude longitude)).unix ∧
      (Sunset (NewLocation realMath zone now latitude longitude)).unix ≤ now + 86400 ∧
      (∀ l : Location ℝ, l.latitude = latitude → l.longitude = longitude →
        now - 86400 ≤ (Sunrise (Today realMath now l)).unix ∧
        (Sunset (Today realMath now l)).unix ≤ now + 86400) := by
  have key : ∀ l : Location ℝ, l.jstar = jStar now longitude →
      l.solarNoon = solarNoonOf realMath l.jstar → l.hourAngleInDays ≤ 23 / 48 →
      now - 86400 ≤ (Sunrise l).unix ∧ (Sunset l).unix ≤ now + 86400 := by
    intro l hj hs hh
    obtain ⟨j1, j2, -⟩ := jStar_bounds now longitude
    obtain ⟨s1, s2⟩ := solarNoonOf_near l.jstar
    have hsec := julianDay_seconds (F := ℝ) now
    obtain ⟨r1, -⟩ := goTime_unix_near (l.solarNoon - l.hourAngleInDays) l.location
    obtain ⟨-, t2⟩ := goTime_unix_near (l.solarNoon + l.hourAngleInDays) l.location
    rw [← hs] at s1 s2
    rw [← hj] at j1 j2
    have a1 : ((now - 86400 - 1 - uepoch : Int) : ℝ)
        < (((goTime (l.solarNoon - l.hourAngleInDays) l.location).unix - uepoch : Int) : ℝ) := by
      refine lt_trans ?_ r1
      push_cast at hsec ⊢
      nlinarith
    have a2 : (((goTime (l.solarNoon + l.hourAngleInDays) l.location).unix - uepoch : Int) : ℝ)
        < ((now + 86400 + 1 - uepoch : Int) : ℝ) := by
      refine lt_trans t2 ?_
      push_cast at hsec ⊢
      nlinarith
    have a1' := Int.cast_lt.mp a1
    have a2' := Int.cast_lt.mp a2
    simp only [Sunrise, Sunset]
    constructor <;> omega
  obtain ⟨k1, k2⟩ := key (NewLocation realMath zone now latitude longitude) rfl rfl h
  refine ⟨k1, k2, fun l hlat hlon => ?_⟩
  apply key (Today realMath now l)
  · show jStar now l.longitude = jStar now longitude
    rw [hlon]
  · rfl
  · have e : (Today realMath now l).hourAngleInDays
        = (NewLocation realMath zone now latitude longitude).hourAngleInDays := by
      show hourAngleOf realMath l.latitude (jStar now l.longitude)
        = hourAngleOf realMath latitude (jStar now longitude)
      rw [hlat, hlon]
    rw [e]
    exact h

/-- C11, witness: latitude 0, longitude 0 at Unix time 946728000; the
half-day arc at the equator is below 23/48. -/
theorem first_day_within_24h_witness :
    (NewLocation realMath ⟨"UTC"⟩ 946728000 0 0).hourAngleInDays ≤ 23 / 48 ∧
      946728000 - 86400 ≤ (Sunrise (NewLocation realMath ⟨"UTC"⟩ 946728000 0 0)).unix ∧
      (Sunset (NewLocation realMath ⟨"UTC"⟩ 946728000 0 0)).unix ≤ 946728000 + 86400 := by
  have h : (NewLocation realMath ⟨"UTC"⟩ 946728000 0 0).hourAngleInDays ≤ 23 / 48 := by
    have := (hourAngleOf_equator (jStar 946728000 (0 : ℝ))).2
    show hourAngleOf realMath 0 (jStar 946728000 (0 : ℝ)) ≤ 23 / 48
    linarith
  have w := first_day_within_24h ⟨"UTC"⟩ 946728000 0 0 h
  exact ⟨h, w.1, w.2.1⟩

/-- C18: after `computeSolarNoonHourAngle` the half-day arc is between 0
and 1/2, and `Sunrise` is not after `Sunset`; the same holds in every state
reached through `NewLocation`, `Today` and `AddDays`. -/
theorem sunrise_not_after_sunset (l : Location ℝ) :
    (0 ≤ (computeSolarNoonHourAngle realMath l).hourAngleInDays ∧
      (computeSolarNoonHourAngle realMath l).hourAngleInDays ≤ 1 / 2 ∧
      (Sunrise (computeSolarNoonHourAngle realMath l)).unix
        ≤ (Sunset (computeSolarNoonHourAngle realMath l)).unix) ∧
    (Reachable realMath l →
      0 ≤ l.hourAngleInDays ∧ l.hourAngleInDays ≤ 1 / 2 ∧
      (Sunrise l).unix ≤ (Sunset l).unix) := by
  have key : ∀ l' : Location ℝ, 0 ≤ l'.hourAngleInDays →
      (Sunrise l').unix ≤ (Sunset l').unix := by
    intro l' h0
    exact goTime_unix_mono (by linarith) _ _
  obtain ⟨h1, h2⟩ := hourAngleOf_range l.latitude l.jstar
  refine ⟨⟨h1, h2, key _ h1⟩, fun hr => ?_⟩
  obtain ⟨-, f2⟩ := fresh_of_reachable realMath hr
  rw [← f2] at h1 h2
  exact ⟨h1, h2, key _ h1⟩

/-- C18, witness: the location built for Melbourne at Unix time
946728000. -/
theorem sunrise_not_after_sunset_witness :
    (Sunrise (NewLocation realMath ⟨"UTC"⟩ 946728000 (-37.81) 144.96)).unix
      ≤ (Sunset (NewLocation realMath ⟨"UTC"⟩ 946728000 (-37.81) 144.96)).unix :=
  ((sunrise_not_after_sunset _).2
    (Reachable.newLocation ⟨"UTC"⟩ 946728000 (-37.81) 144.96)).2.2

/-- C19: for every longitude and Unix time the day anchor lies within half
a day of the current Julian day, `julianDay now - 1/2 < jStar ≤
julianDay now + 1/2`, and `jStar - 0.0009 + longitude / 360` is a whole
number. -/
theorem jStar_nearest_anchor (now : Int) (longitude : F) :
    julianDay now - 1 / 2 < jStar now longitude ∧
      jStar now longitude ≤ julianDay now + 1 / 2 ∧
      ∃ k : Int, jStar now longitude - 0.0009 + longitude / 360 = (k : F) := by
  obtain ⟨h1, h2, h3⟩ := jStar_bounds now longitude
  exact ⟨h1, h2, _, h3⟩

/-- C20: at a fixed moment `nextSunrise` and `nextSunset` return the
instant of the day anchor `jStar now + 1`, whatever day cursor the location
held before, and leave `jstar` at `jStar now + 1`; called again at the same
moment, after either of them, they return the same instant and the same
state. -/
theorem next_is_day_after_today (M : GoMath F) (now : Moment) (l : LocTask F) :
    (nextSunrise M now l).1
        = goTime (solarNoonOf M (jStar now.unix l.location.longitude + 1)
            - hourAngleOf M l.location.latitude (jStar now.unix l.location.longitude + 1))
          l.location.location ∧
      (nextSunset M now l).1
        = goTime (solarNoonOf M (jStar now.unix l.location.longitude + 1)
            + hourAngleOf M l.location.latitude (jStar now.unix l.location.longitude + 1))
          l.location.location ∧
      (nextSunrise M now l).2.location.jstar = jStar now.unix l.location.longitude + 1 ∧
      (nextSunset M now l).2.location.jstar = jStar now.unix l.location.longitude + 1 ∧
      nextSunrise M now (nextSunrise M now l).2 = nextSunrise M now l ∧
      nextSunset M now (nextSunset M now l).2 = nextSunset M now l ∧
      nextSunrise M now (nextSunset M now l).2 = nextSunrise M now l ∧
      nextSunset M now (nextSunrise M now l).2 = nextSunset M now l := by
  have hj : (AddDays M 1 (Today M now.unix l.location)).jstar
      = jStar now.unix l.location.longitude + 1 := by
    show jStar now.unix l.location.longitude + ((1 : Int) : F) = _
    push_cast
    rfl
  have hs : (AddDays M 1 (Today M now.unix l.location)).solarNoon
      = solarNoonOf M (jStar now.unix l.location.longitude + 1) := by
    rw [← hj]; rfl
  have hh : (AddDays M 1 (Today M now.unix l.location)).hourAngleInDays
      = hourAngleOf M l.location.latitude (jStar now.unix l.location.longitude + 1) := by
    rw [← hj]; rfl
  refine ⟨?_, ?_, hj, hj, rfl, rfl, rfl, rfl⟩
  · simp only [nextSunrise, Sunrise, hs, hh]; rfl
  · simp only [nextSunset, Sunset, hs, hh]; rfl

end Claims4

/-! ## The scheduler -/

section Registration

variable {F : Type}

theorem schedule_entries_of_accepts (E : TimerEngine) (C : GoCalendar) (l : LocTask F)
    (t : Time) (i : Int) (rise : Bool)
    (h : E.accepts (cronFormat C (t.Add (i * Hour))) = true) :
    (schedule E C l t i rise).cronSch.entries
      = l.cronSch.entries ++ [⟨cronFormat C (t.Add (i * Hour)), rise, i⟩] := by
  simp [schedule, Cron.AddFunc, h]

theorem schedule_of_rejects (E : TimerEngine) (C : GoCalendar) (l : LocTask F)
    (t : Time) (i : Int) (rise : Bool)
    (h : E.accepts (cronFormat C (t.Add (i * Hour))) = false) :
    schedule E C l t i rise = l := by
  simp [schedule, Cron.AddFunc, h]

theorem schedule_location (E : TimerEngine) (C : GoCalendar) (l : LocTask F)
    (t : Time) (i : Int) (rise : Bool) :
    (schedule E C l t i rise).location = l.location := rfl

theorem scheduleNext_entries_of_accepts (E : TimerEngine) (C : GoCalendar) (l : LocTask F)
    (t : Time) (rise : Bool) (h : ∀ s, E.accepts s = true) :
    (scheduleNext E C l t rise).cronSch.entries
      = l.cronSch.entries
        ++ ([-2, -1, 0, 1] : List Int).map
            (fun i => (⟨cronFormat C (t.Add (i * Hour)), rise, i⟩ : Entry)) := by
  simp only [scheduleNext, List.foldl_cons, List.foldl_nil, List.map_cons, List.map_nil]
  rw [schedule_entries_of_accepts _ _ _ _ _ _ (h _), schedule_entries_of_accepts _ _ _ _ _ _ (h _),
    schedule_entries_of_accepts _ _ _ _ _ _ (h _), schedule_entries_of_accepts _ _ _ _ _ _ (h _)]
  simp

theorem scheduleNext_of_rejects (E : TimerEngine) (C : GoCalendar) (l : LocTask F)
    (t : Time) (rise : Bool) (h : ∀ s, E.accepts s = false) :
    scheduleNext E C l t rise = l := by
  simp only [scheduleNext, List.foldl_cons, List.foldl_nil]
  rw [schedule_of_rejects _ _ _ _ _ _ (h _), schedule_of_rejects _ _ _ _ _ _ (h _),
    schedule_of_rejects _ _ _ _ _ _ (h _), schedule_of_rejects _ _ _ _ _ _ (h _)]

/-- What one registration adds, for any engine. -/
theorem schedule_entries (E : TimerEngine) (C : GoCalendar) (l : LocTask F)
    (t : Time) (i : Int) (rise : Bool) :
    (schedule E C l t i rise).cronSch.entries
      = l.cronSch.entries ++
        (if E.accepts (cronFormat C (t.Add (i * Hour))) then
          [(⟨cronFormat C (t.Add (i * Hour)), rise, i⟩ : Entry)] else []) := by
  cases h : E.accepts (cronFormat C (t.Add (i * Hour)))
  · rw [schedule_of_rejects _ _ _ _ _ _ h]; simp
  · rw [schedule_entries_of_accepts _ _ _ _ _ _ h]; simp

/-- The entries `scheduleNext` adds, for any engine: those of its four
registrations that the engine accepts, in order. -/
theorem scheduleNext_entries (E : TimerEngine) (C : GoCalendar) (l : LocTask F)
    (t : Time) (rise : Bool) :
    (scheduleNext E C l t rise).cronSch.entries
      = l.cronSch.entries ++
        ([⟨cronFormat C (t.Add (-2 * Hour)), rise, -2⟩,
          ⟨cronFormat C (t.Add (-1 * Hour)), rise, -1⟩,
          ⟨cronFormat C (t.Add (0 * Hour)), rise, 0⟩,
          ⟨cronFormat C (t.Add (1 * Hour)), rise, 1⟩] : List Entry).filter
            (fun e => E.accepts e.spec) := by
  simp only [scheduleNext, List.foldl_cons, List.foldl_nil, schedule_entries,
    List.filter_cons, List.filter_nil, List.append_assoc]
  congr 1
  cases E.accepts (cronFormat C (t.Add (-2 * Hour))) <;>
    cases E.accepts (cronFormat C (t.Add (-1 * Hour))) <;>
    cases E.accepts (cronFormat C (t.Add (0 * Hour))) <;>
    cases E.accepts (cronFormat C (t.Add (1 * Hour))) <;> rfl

end Registration

section Scheduler

variable {F : Type} [LinearOrderedField F] [FloorRing F]

/-- The first half of `Start` registers nothing. -/
theorem startInstants_entries (M : GoMath F) (now : Moment) (l : LocTask F) :
    (startInstants M now l).2.2.cronSch.entries = l.cronSch.entries := by
  simp only [startInstants]
  split_ifs <;> rfl

/-- The base instants chosen by the first half of `Start`. -/
theorem startInstants_values (M : GoMath F) (now : Moment) (l : LocTask F) :
    (startInstants M now l).1
        = (if now.After (Sunrise (Today M now.unix l.location))
            then Sunrise (AddDays M 1 (Today M now.unix l.location))
            else Sunrise (Today M now.unix l.location)) ∧
      (startInstants M now l).2.1
        = (if now.After (Sunset (Today M now.unix l.location))
            then Sunset (AddDays M 1 (Today M now.unix l.location))
            else Sunset (Today M now.unix l.location)) := by
  simp only [startInstants]
  constructor
  · split_ifs <;> rfl
  · split_ifs <;> rfl

/-- The entries `Start` adds when the engine accepts every spec. -/
theorem start_entries_of_accepts (E : TimerEngine) (C : GoCalendar) (M : GoMath F)
    (now : Moment) (l : LocTask F) (h : ∀ s, E.accepts s = true) :
    (Start E C M now l).2.cronSch.entries
      = l.cronSch.entries
        ++ ([-2, -1, 0, 1] : List Int).map
            (fun i => (⟨cronFormat C ((startInstants M now l).1.Add (i * Hour)), true, i⟩ : Entry))
        ++ ([-2, -1, 0, 1] : List Int).map
            (fun i =>
              (⟨cronFormat C ((startInstants M now l).2.1.Add (i * Hour)), false, i⟩ : Entry)) := by
  simp only [Start]
  rw [scheduleNext_entries_of_accepts _ _ _ _ _ h, scheduleNext_entries_of_accepts _ _ _ _ _ h,
    startInstants_entries]

/-- The record a firing sends. -/
theorem fire_chan (E : TimerEngine) (C : GoCalendar) (M : GoMath F) (now : Moment)
    (e : Entry) (s : Chan × LocTask F) :
    (fire E C M now e s).1
      = s.1 ++ [[("location", if e.rise then "sunrise" else "sunset"),
          ("state", toString e.i)]] := by
  simp only [fire, send]
  split_ifs <;> rfl

theorem fire_location (E : TimerEngine) (C : GoCalendar) (M : GoMath F)
    (now : Moment) (e : Entry) (s : Chan × LocTask F) :
    (fire E C M now e s).2.location = AddDays M 1 (Today M now.unix s.2.location) := by
  simp only [fire]
  split_ifs <;> rfl

/-- The entries `Start` adds, for any engine: those of its eight
registrations that the engine accepts, in order. -/
theorem start_entries (E : TimerEngine) (C : GoCalendar) (M : GoMath F)
    (now : Moment) (l : LocTask F) :
    (Start E C M now l).2.cronSch.entries
      = l.cronSch.entries ++
        ([⟨cronFormat C ((startInstants M now l).1.Add (-2 * Hour)), true, -2⟩,
          ⟨cronFormat C ((startInstants M now l).1.Add (-1 * Hour)), true, -1⟩,
          ⟨cronFormat C ((startInstants M now l).1.Add (0 * Hour)), true, 0⟩,
          ⟨cronFormat C ((startInstants M now l).1.Add (1 * Hour)), true, 1⟩,
          ⟨cronFormat C ((startInstants M now l).2.1.Add (-2 * Hour)), false, -2⟩,
          ⟨cronFormat C ((startInstants M now l).2.1.Add (-1 * Hour)), false, -1⟩,
          ⟨cronFormat C ((startInstants M now l).2.1.Add (0 * Hour)), false, 0⟩,
          ⟨cronFormat C ((startInstants M now l).2.1.Add (1 * Hour)), false, 1⟩] :
            List Entry).filter (fun e => E.accepts e.spec) := by
  simp only [Start]
  rw [scheduleNext_entries, scheduleNext_entries, startInstants_entries, List.append_assoc,
    ← List.filter_append]
  rfl

/-- The entries after a firing, for any engine. -/
theorem fire_entries (E : TimerEngine) (C : GoCalendar) (M : GoMath F)
    (now : Moment) (e : Entry) (s : Chan × LocTask F) :
    (fire E C M now e s).2.cronSch.entries
      = s.2.cronSch.entries.erase e ++
        (if E.accepts (cronFormat C ((nextInstant M now e.rise s.2.location).Add (e.i * Hour)))
          then [(⟨cronFormat C ((nextInstant M now e.rise s.2.location).Add (e.i * Hour)),
            e.rise, e.i⟩ : Entry)] else []) := by
  simp only [fire, nextInstant]
  split_ifs with hr ha ha
  · rw [schedule_entries, if_pos (by simpa [nextSunrise] using ha)]
    simp [nextSunrise, Cron.Remove, hr]
  · rw [schedule_entries, if_neg (by simpa [nextSunrise] using ha)]
    simp [nextSunrise, Cron.Remove]
  · rw [schedule_entries, if_pos (by simpa [nextSunset] using ha)]
    simp [nextSunset, Cron.Remove, hr]
  · rw [schedule_entries, if_neg (by simpa [nextSunset] using ha)]
    simp [nextSunset, Cron.Remove]

/-- The base instant of the next registration when the firing moment has
day anchor `D`: the instant of day anchor `D + 1`. -/
theorem nextInstant_of_day (M : GoMath F) (now : Moment) (rise : Bool) (l : Location F)
    (D : F) (hday : jStar now.unix l.longitude = D) :
    nextInstant M now rise l = instantOfDay M rise l (D + 1) := by
  have e : AddDays M 1 (Today M now.unix l)
      = computeSolarNoonHourAngle M { l with jstar := D + 1 } := by
    apply compute_congr
    · rfl
    · rfl
    · rfl
    · show jStar now.unix l.longitude + ((1 : Int) : F) = D + 1
      rw [hday]; push_cast; rfl
  simp only [nextInstant, instantOfDay, e]

end Scheduler

section SchedulerClaims

variable {F : Type} [LinearOrderedField F] [FloorRing F]

/-- The instant of the next registration is the sunrise or sunset of the
day anchor `jStar now + 1`. -/
theorem nextInstant_eq (M : GoMath F) (now : Moment) (rise : Bool) (l : Location F) :
    nextInstant M now rise l
      = if rise then
          goTime (solarNoonOf M (jStar now.unix l.longitude + 1)
            - hourAngleOf M l.latitude (jStar now.unix l.longitude + 1)) l.location
        else
          goTime (solarNoonOf M (jStar now.unix l.longitude + 1)
            + hourAngleOf M l.latitude (jStar now.unix l.longitude + 1)) l.location := by
  have hj : (AddDays M 1 (Today M now.unix l)).jstar = jStar now.unix l.longitude + 1 := by
    show jStar now.unix l.longitude + ((1 : Int) : F) = _
    push_cast
    rfl
  have hs : (AddDays M 1 (Today M now.unix l)).solarNoon
      = solarNoonOf M (jStar now.unix l.longitude + 1) := by
    rw [← hj]; rfl
  have hh : (AddDays M 1 (Today M now.unix l)).hourAngleInDays
      = hourAngleOf M l.latitude (jStar now.unix l.longitude + 1) := by
    rw [← hj]; rfl
  simp only [nextInstant, Sunrise, Sunset, hs, hh]
  rfl

/-- C12: when the engine accepts the registrations, `Start` adds exactly
eight entries to the engine: for sunrise and for sunset, one for each
`i` in -2, -1, 0, 1, registered with the spec of (that kind's base instant
+ `i` hours); a scheduler fresh from `New` holds exactly these eight. -/
theorem start_arms_eight (E : TimerEngine) (C : GoCalendar) (M : GoMath F) (now : Moment)
    (l : LocTask F) (hacc : ∀ s, E.accepts s = true) :
    (Start E C M now l).2.cronSch.entries
        = l.cronSch.entries ++
          [⟨cronFormat C ((startInstants M now l).1.Add (-2 * Hour)), true, -2⟩,
            ⟨cronFormat C ((startInstants M now l).1.Add (-1 * Hour)), true, -1⟩,
            ⟨cronFormat C ((startInstants M now l).1.Add (0 * Hour)), true, 0⟩,
            ⟨cronFormat C ((startInstants M now l).1.Add (1 * Hour)), true, 1⟩,
            ⟨cronFormat C ((startInstants M now l).2.1.Add (-2 * Hour)), false, -2⟩,
            ⟨cronFormat C ((startInstants M now l).2.1.Add (-1 * Hour)), false, -1⟩,
            ⟨cronFormat C ((startInstants M now l).2.1.Add (0 * Hour)), false, 0⟩,
            ⟨cronFormat C ((startInstants M now l).2.1.Add (1 * Hour)), false, 1⟩] ∧
      (Start E C M now l).2.cronSch.entries.length = l.cronSch.entries.length + 8 ∧
      (l.cronSch = Cron.New → (Start E C M now l).2.cronSch.entries.length = 8) := by
  have h := start_entries_of_accepts E C M now l hacc
  have e : (Start E C M now l).2.cronSch.entries
        = l.cronSch.entries ++
          [⟨cronFormat C ((startInstants M now l).1.Add (-2 * Hour)), true, -2⟩,
            ⟨cronFormat C ((startInstants M now l).1.Add (-1 * Hour)), true, -1⟩,
            ⟨cronFormat C ((startInstants M now l).1.Add (0 * Hour)), true, 0⟩,
            ⟨cronFormat C ((startInstants M now l).1.Add (1 * Hour)), true, 1⟩,
            ⟨cronFormat C ((startInstants M now l).2.1.Add (-2 * Hour)), false, -2⟩,
            ⟨cronFormat C ((startInstants M now l).2.1.Add (-1 * Hour)), false, -1⟩,
            ⟨cronFormat C ((startInstants M now l).2.1.Add (0 * Hour)), false, 0⟩,
            ⟨cronFormat C ((startInstants M now l).2.1.Add (1 * Hour)), false, 1⟩] := by
    rw [h]
    simp
  refine ⟨e, ?_, fun hn => ?_⟩
  · rw [e]; simp
  · rw [e, hn]; simp [Cron.New]

/-- C12, witness: the scheduler built for Melbourne at Unix time 946728000,
started at that moment on an engine that accepts every spec, with the
calendar read in UTC. -/
theorem start_arms_eight_witness :
    (Start acceptAll utcCalendar realMath ⟨946728000, 0⟩
      (New realMath ⟨"UTC"⟩ 946728000 (-37.81) 144.96)).2.cronSch.entries.length = 8 :=
  (start_arms_eight acceptAll utcCalendar realMath ⟨946728000, 0⟩
    (New realMath ⟨"UTC"⟩ 946728000 (-37.81) 144.96) (fun _ => rfl)).2.2 rfl

/-- C13 (as the code behaves): the entry `e` was registered for the instant
of day anchor `D` plus `i` hours (`hspec`), it fires at that instant
(`hfired`), and the firing moment still has day anchor `D` (`hday`).  When
the engine accepts the registration, the handler removes that entry and
registers one entry of the same kind and the same `i` for the instant of
day anchor `D + 1` plus `i` hours, leaving the cursor at `D + 1`.  The time
from the firing to the new trigger is the time from the instant of day `D`
to the instant of day `D + 1`. -/
theorem fire_rearms_next_day (E : TimerEngine) (C : GoCalendar) (M : GoMath F)
    (now : Moment) (e : Entry) (s : Chan × LocTask F) (D : F)
    (hspec : e.spec = cronFormat C ((instantOfDay M e.rise s.2.location D).Add (e.i * Hour)))
    (hfired : now.unix = ((instantOfDay M e.rise s.2.location D).Add (e.i * Hour)).unix)
    (hday : jStar now.unix s.2.location.longitude = D)
    (hacc : E.accepts
      (cronFormat C ((instantOfDay M e.rise s.2.location (D + 1)).Add (e.i * Hour))) = true) :
    (fire E C M now e s).2.cronSch.entries
        = s.2.cronSch.entries.erase
            ⟨cronFormat C ((instantOfDay M e.rise s.2.location D).Add (e.i * Hour)),
              e.rise, e.i⟩
          ++ [⟨cronFormat C ((instantOfDay M e.rise s.2.location (D + 1)).Add (e.i * Hour)),
              e.rise, e.i⟩] ∧
      (fire E C M now e s).2.location
        = computeSolarNoonHourAngle M { s.2.location with jstar := D + 1 } ∧
      (fire E C M now e s).2.location.jstar = D + 1 ∧
      ((instantOfDay M e.rise s.2.location (D + 1)).Add (e.i * Hour)).unix - now.unix
        = (instantOfDay M e.rise s.2.location (D + 1)).unix
          - (instantOfDay M e.rise s.2.location D).unix := by
  have hn := nextInstant_of_day M now e.rise s.2.location D hday
  have he : e = ⟨cronFormat C ((instantOfDay M e.rise s.2.location D).Add (e.i * Hour)),
      e.rise, e.i⟩ := by
    cases e
    simp only at hspec
    simp only [hspec]
  have hl : (fire E C M now e s).2.location
      = computeSolarNoonHourAngle M { s.2.location with jstar := D + 1 } := by
    rw [fire_location]
    apply compute_congr
    · rfl
    · rfl
    · rfl
    · show jStar now.unix s.2.location.longitude + ((1 : Int) : F) = D + 1
      rw [hday]; push_cast; rfl
  refine ⟨?_, hl, ?_, ?_⟩
  · rw [fire_entries, hn, if_pos hacc, ← he]
  · rw [hl]; rfl
  · rw [hfired]
    simp only [Time.Add]
    ring

/-- C14 (as the code behaves): each firing appends exactly one record to
the output channel, a map with the two keys `"location"` and `"state"`:
`"location"` holds the kind, `"sunrise"` or `"sunset"`, and `"state"`
holds `i` in decimal. -/
theorem fire_sends_one_record (E : TimerEngine) (C : GoCalendar) (M : GoMath F)
    (now : Moment) (e : Entry) (s : Chan × LocTask F) :
    (fire E C M now e s).1
        = s.1 ++ [[("location", if e.rise then "sunrise" else "sunset"),
            ("state", toString e.i)]] ∧
      (fire E C M now e s).1.length = s.1.length + 1 := by
  have h := fire_chan E C M now e s
  refine ⟨h, ?_⟩
  rw [h]
  simp

/-- C16 (as the code behaves): for any engine.  A registration that the
engine rejects changes nothing and reports nothing: `schedule` returns the
scheduler as it was.  `Start` returns its empty channel and leaves the
engine with the entries it had and those of its eight registrations that
the engine accepted; a firing sends its record and removes its entry, and
adds the next entry only if the engine accepts it. -/
theorem rejected_registration_is_dropped (E : TimerEngine) (C : GoCalendar) (M : GoMath F)
    (now : Moment) (l : LocTask F) :
    (∀ (t : Time) (i : Int) (rise : Bool),
        E.accepts (cronFormat C (t.Add (i * Hour))) = false → schedule E C l t i rise = l) ∧
      (Start E C M now l).1 = [] ∧
      (Start E C M now l).2.cronSch.entries
        = l.cronSch.entries ++
          ([⟨cronFormat C ((startInstants M now l).1.Add (-2 * Hour)), true, -2⟩,
            ⟨cronFormat C ((startInstants M now l).1.Add (-1 * Hour)), true, -1⟩,
            ⟨cronFormat C ((startInstants M now l).1.Add (0 * Hour)), true, 0⟩,
            ⟨cronFormat C ((startInstants M now l).1.Add (1 * Hour)), true, 1⟩,
            ⟨cronFormat C ((startInstants M now l).2.1.Add (-2 * Hour)), false, -2⟩,
            ⟨cronFormat C ((startInstants M now l).2.1.Add (-1 * Hour)), false, -1⟩,
            ⟨cronFormat C ((startInstants M now l).2.1.Add (0 * Hour)), false, 0⟩,
            ⟨cronFormat C ((startInstants M now l).2.1.Add (1 * Hour)), false, 1⟩] :
              List Entry).filter (fun e => E.accepts e.spec) ∧
      (∀ (e : Entry) (ch : Chan),
        (fire E C M now e (ch, l)).1
          = ch ++ [[("location", if e.rise then "sunrise" else "sunset"),
              ("state", toString e.i)]] ∧
        (fire E C M now e (ch, l)).2.cronSch.entries
          = l.cronSch.entries.erase e ++
            (if E.accepts
                (cronFormat C ((nextInstant M now e.rise l.location).Add (e.i * Hour)))
              then [(⟨cronFormat C ((nextInstant M now e.rise l.location).Add (e.i * Hour)),
                e.rise, e.i⟩ : Entry)] else [])) :=
  ⟨fun t i rise h => schedule_of_rejects E C l t i rise h, rfl, start_entries E C M now l,
    fun e ch => ⟨fire_chan E C M now e (ch, l), fire_entries E C M now e (ch, l)⟩⟩

end SchedulerClaims

section SchedulerExamples

/-- C14, counterexample: the sunrise entry with `i = -2` fires.  The one
record sent has the keys `"location"` and `"state"` only: `"location"`
holds `"sunrise"`, the kind and not a label of the place, and there is no
key `"kind"` and no key `"offset"`. -/
theorem record_has_no_kind_or_offset :
    (fire acceptAll utcCalendar realMath ⟨946728000, 0⟩ ⟨"0 0 12 1 1 *", true, -2⟩
        ([], New realMath ⟨"UTC"⟩ 946728000 (-37.81) 144.96)).1
      = [[("location", "sunrise"), ("state", "-2")]] ∧
    ([("location", "sunrise"), ("state", "-2")] : Record).lookup "kind" = none ∧
    ([("location", "sunrise"), ("state", "-2")] : Record).lookup "offset" = none ∧
    ([("location", "sunrise"), ("state", "-2")] : Record).lookup "location" = some "sunrise" ∧
    ([("location", "sunrise"), ("state", "-2")] : Record).map Prod.fst = ["location", "state"] := by
  refine ⟨?_, by decide, by decide, by decide, by decide⟩
  rw [fire_chan]
  decide

/-- C16, witness: the Melbourne scheduler on an engine that rejects every
spec: no entry is registered. -/
theorem rejected_registration_is_dropped_witness :
    (Start rejectAll utcCalendar realMath ⟨946728000, 0⟩
        (New realMath ⟨"UTC"⟩ 946728000 (-37.81) 144.96)).2.cronSch.entries = [] :=
  (rejected_registration_is_dropped rejectAll utcCalendar realMath ⟨946728000, 0⟩
    (New realMath ⟨"UTC"⟩ 946728000 (-37.81) 144.96)).2.2.1

/-- C16, counterexample: on an engine that rejects every spec, `Start`
returns the same value as on an engine that accepts every spec, the empty
channel, although no trigger was armed instead of eight. -/
theorem rejection_is_not_surfaced :
    (Start rejectAll utcCalendar realMath ⟨946728000, 0⟩
        (New realMath ⟨"UTC"⟩ 946728000 (-37.81) 144.96)).1
      = (Start acceptAll utcCalendar realMath ⟨946728000, 0⟩
          (New realMath ⟨"UTC"⟩ 946728000 (-37.81) 144.96)).1 ∧
    (Start rejectAll utcCalendar realMath ⟨946728000, 0⟩
        (New realMath ⟨"UTC"⟩ 946728000 (-37.81) 144.96)).2.cronSch.entries.length = 0 ∧
    (Start acceptAll utcCalendar realMath ⟨946728000, 0⟩
        (New realMath ⟨"UTC"⟩ 946728000 (-37.81) 144.96)).2.cronSch.entries.length = 8 := by
  refine ⟨rfl, ?_, ?_⟩
  · simp only [Start]
    rw [scheduleNext_of_rejects _ _ _ _ _ (fun _ => rfl),
      scheduleNext_of_rejects _ _ _ _ _ (fun _ => rfl), startInstants_entries]
    rfl
  · rw [start_entries_of_accepts _ _ _ _ _ (fun _ => rfl)]
    simp [New, Cron.New]

end SchedulerExamples

/-! ## The day after the epoch -/

section DayAfterEpoch

/-- Sines of 1.48529972°, twice and three times that angle. -/
theorem sin_anomaly_day_after_bounds :
    0 ≤ Real.sin (1.48529972 * Real.pi / 180) ∧
      Real.sin (1.48529972 * Real.pi / 180) ≤ 0.025924 ∧
      0 ≤ Real.sin (2 * (1.48529972 * Real.pi / 180)) ∧
      Real.sin (2 * (1.48529972 * Real.pi / 180)) ≤ 0.051848 ∧
      0 ≤ Real.sin (3 * (1.48529972 * Real.pi / 180)) ∧
      Real.sin (3 * (1.48529972 * Real.pi / 180)) ≤ 0.077772 := by
  have hpi2 := Real.pi_lt_d6
  have hx0 : 0 < 1.48529972 * Real.pi / 180 := by positivity
  have hx1 : 1.48529972 * Real.pi / 180 ≤ 0.025924 := by
    rw [div_le_iff₀ (by norm_num)]; linarith
  have g1 := Real.sin_pos_of_pos_of_le_one hx0 (by linarith)
  have g2 := Real.sin_pos_of_pos_of_le_one (x := 2 * (1.48529972 * Real.pi / 180))
    (by linarith) (by linarith)
  have g3 := Real.sin_pos_of_pos_of_le_one (x := 3 * (1.48529972 * Real.pi / 180))
    (by linarith) (by linarith)
  have l1 := Real.sin_lt hx0
  have l2 := Real.sin_lt (x := 2 * (1.48529972 * Real.pi / 180)) (by linarith)
  have l3 := Real.sin_lt (x := 3 * (1.48529972 * Real.pi / 180)) (by linarith)
  refine ⟨g1.le, by linarith, g2.le, by linarith, g3.le, by linarith⟩

/-- One day after the epoch the sines of the mean anomaly and its
multiples. -/
theorem sin_meanAnomaly_day_after :
    sin realMath 358.51470028 = - Real.sin (1.48529972 * Real.pi / 180) ∧
      sin realMath (2 * 358.51470028) = - Real.sin (2 * (1.48529972 * Real.pi / 180)) ∧
      sin realMath (3 * 358.51470028) = - Real.sin (3 * (1.48529972 * Real.pi / 180)) := by
  simp only [sin_realMath]
  refine ⟨?_, ?_, ?_⟩
  · rw [← Real.sin_two_pi_sub]; congr 1; ring
  · rw [← Real.sin_nat_mul_two_pi_sub _ 2]; congr 1; push_cast; ring
  · rw [← Real.sin_nat_mul_two_pi_sub _ 3]; congr 1; push_cast; ring

theorem meanAnomaly_day_after : meanAnomaly ((jepoch : ℝ) + 1) = 358.51470028 := by
  rw [meanAnomaly_near_epoch (by simp) (by simp)]; norm_num

/-- The ecliptic longitude one day after the epoch. -/
theorem eclipticLongitude_day_after_epoch :
    281.4 ≤ eclipticLongitude realMath (jepoch + 1) ∧
      eclipticLongitude realMath (jepoch + 1) ≤ 281.46 := by
  obtain ⟨q1, q2, q3⟩ := sin_meanAnomaly_day_after
  obtain ⟨r1, r2, r3, r4, r5, r6⟩ := sin_anomaly_day_after_bounds
  have hel : eclipticLongitude realMath (jepoch + 1)
      = mod360 (358.51470028 + 102.9372 + (1.9148 * sin realMath 358.51470028
          + 0.02 * sin realMath (2 * 358.51470028)
          + 0.0003 * sin realMath (3 * 358.51470028)) + 180) := by
    unfold eclipticLongitude; rw [meanAnomaly_day_after]
  rw [hel, q1, q2, q3]
  have h := mod360_of_mem (x := 358.51470028 + 102.9372
      + (1.9148 * -Real.sin (1.48529972 * Real.pi / 180)
          + 0.02 * -Real.sin (2 * (1.48529972 * Real.pi / 180))
          + 0.0003 * -Real.sin (3 * (1.48529972 * Real.pi / 180))) + 180) (k := 1)
    (by norm_num; linarith) (by norm_num; linarith)
  rw [h]
  constructor <;> norm_num <;> linarith

/-- The sine of twice an ecliptic longitude of about 281.4°. -/
theorem sin_two_el_day_after {e : ℝ} (e1 : 281.4 ≤ e) (e2 : e ≤ 281.46) :
    0.38 ≤ - sin realMath (2 * e) ∧ - sin realMath (2 * e) ≤ 0.4001 := by
  have hpi1 := Real.pi_gt_d6
  have hpi2 := Real.pi_lt_d6
  have hh1 : 0.3979 ≤ (2 * e - 540) * Real.pi / 180 := by
    rw [le_div_iff₀ (by norm_num)]; nlinarith
  have hh2 : (2 * e - 540) * Real.pi / 180 ≤ 0.4001 := by
    rw [div_le_iff₀ (by norm_num)]; nlinarith
  have harg : 2 * e * Real.pi / 180
      = (2 * e - 540) * Real.pi / 180 + Real.pi + 2 * Real.pi := by ring
  have g := Real.sin_gt_sub_cube (x := (2 * e - 540) * Real.pi / 180) (by linarith) (by linarith)
  have l := Real.sin_lt (x := (2 * e - 540) * Real.pi / 180) (by linarith)
  have p : ((2 * e - 540) * Real.pi / 180) ^ 3 ≤ 0.4001 ^ 3 :=
    pow_le_pow_left₀ (by linarith) hh2 3
  norm_num at p
  rw [sin_realMath, harg, Real.sin_add_two_pi, Real.sin_add_pi, neg_neg]
  constructor <;> linarith

/-- One day after the epoch solar noon falls between 210 and 240 seconds
after the anchor. -/
theorem solarNoon_day_after_epoch :
    210 < (solarNoonOf realMath (jepoch + 1) - (jepoch + 1)) * 86400 ∧
      (solarNoonOf realMath (jepoch + 1) - (jepoch + 1)) * 86400 < 240 := by
  obtain ⟨e1, e2⟩ := eclipticLongitude_day_after_epoch
  obtain ⟨t1, t2⟩ := sin_two_el_day_after e1 e2
  obtain ⟨q1, -, -⟩ := sin_meanAnomaly_day_after
  obtain ⟨r1, r2, -, -, -, -⟩ := sin_anomaly_day_after_bounds
  unfold solarNoonOf
  rw [meanAnomaly_day_after, q1]
  constructor <;> linarith

/-- At Unix time 946684992 and longitude 0.324° the day anchor is still the
epoch. -/
theorem jStar_at_epoch_sunrise : jStar 946684992 (0.324 : ℝ) = jepoch := by
  have hf : ⌊(julianDay 946684992 - 0.0009 + 0.324 / 360 + 0.5 : ℝ)⌋ = 2451545 := by
    rw [Int.floor_eq_iff]
    simp only [julianDay, uepoch, jepoch]
    norm_num
  simp only [jStar, floorF, hf, jepoch]
  norm_num

end DayAfterEpoch

section RearmExample

/-- C13, witness: latitude -89°, longitude 0.324°.  The sunrise entry with
`i = 0` of day anchor 2451545 fires at its instant, Unix second 946684992,
a moment whose day anchor is 2451545; the firing leaves the cursor at
2451546. -/
theorem fire_rearms_next_day_witness :
    jStar 946684992 (0.324 : ℝ) = jepoch ∧
      (fire acceptAll utcCalendar realMath ⟨946684992, 0⟩
        ⟨cronFormat utcCalendar ((instantOfDay realMath true
          (New realMath ⟨"UTC"⟩ 946728000 (-89) 0.324).location jepoch).Add (0 * Hour)), true, 0⟩
        ([], New realMath ⟨"UTC"⟩ 946728000 (-89) 0.324)).2.location.jstar = jepoch + 1 := by
  have hfired : (⟨946684992, 0⟩ : Moment).unix
      = ((instantOfDay realMath true
          (New realMath ⟨"UTC"⟩ 946728000 (-89) 0.324).location jepoch).Add (0 * Hour)).unix := by
    have hh : (computeSolarNoonHourAngle realMath
        { (New realMath ⟨"UTC"⟩ 946728000 (-89) 0.324).location with
          jstar := jepoch }).hourAngleInDays = 1 / 2 :=
      hourAngle_polar_day realMath _ (hourAngleArg_south (j := jepoch) (by simp) (by simp))
    obtain ⟨y1, y2⟩ := solarNoon_at_epoch
    have hs : (computeSolarNoonHourAngle realMath
        { (New realMath ⟨"UTC"⟩ 946728000 (-89) 0.324).location with
          jstar := jepoch }).solarNoon = solarNoonOf realMath jepoch := rfl
    rw [← hs] at y1 y2
    have u := (unix_of_noon_near_epoch _ hh y1 y2).1
    simp only [instantOfDay, if_true, Time.Add]
    rw [u]
    rfl
  have w := fire_rearms_next_day acceptAll utcCalendar realMath ⟨946684992, 0⟩
    ⟨cronFormat utcCalendar ((instantOfDay realMath true
      (New realMath ⟨"UTC"⟩ 946728000 (-89) 0.324).location jepoch).Add (0 * Hour)), true, 0⟩
    ([], New realMath ⟨"UTC"⟩ 946728000 (-89) 0.324) jepoch rfl hfired
    jStar_at_epoch_sunrise rfl
  exact ⟨jStar_at_epoch_sunrise, w.2.2.1⟩

/-- C13, counterexample: latitude -89°, longitude 0.324°.  The sunrise of
day anchor 2451545 is Unix second 946684992.  The sunrise entry with
`i = 0` fires at that second; the base instant of the entry registered
next is between 86418 and 86448 seconds later, not 86400. -/
theorem rearm_is_not_24h_later :
    (Sunrise (NewLocation realMath ⟨"UTC"⟩ 946728000 (-89) 0.324)).unix = 946684992 ∧
      946684992 + 86418 ≤
        ((nextInstant realMath ⟨946684992, 0⟩ true
          (NewLocation realMath ⟨"UTC"⟩ 946728000 (-89) 0.324)).Add (0 * Hour)).unix ∧
      ((nextInstant realMath ⟨946684992, 0⟩ true
          (NewLocation realMath ⟨"UTC"⟩ 946728000 (-89) 0.324)).Add (0 * Hour)).unix
        ≤ 946684992 + 86448 ∧
      ((nextInstant realMath ⟨946684992, 0⟩ true
          (NewLocation realMath ⟨"UTC"⟩ 946728000 (-89) 0.324)).Add (0 * Hour)).unix
        - 946684992 ≠ 86400 := by
  have hfired : (Sunrise (NewLocation realMath ⟨"UTC"⟩ 946728000 (-89) 0.324)).unix
      = 946684992 := by
    have hh : (NewLocation realMath ⟨"UTC"⟩ 946728000 (-89) 0.324).hourAngleInDays = 1 / 2 := by
      apply hourAngle_polar_day
      show hourAngleArg realMath (-89 : ℝ) (jStar 946728000 (0.324 : ℝ)) ≤ -1
      rw [jStar_at_epoch]
      exact hourAngleArg_south (j := jepoch) (by simp) (by simp)
    have hs : (NewLocation realMath ⟨"UTC"⟩ 946728000 (-89) 0.324).solarNoon
        = solarNoonOf realMath jepoch := by
      show solarNoonOf realMath (jStar 946728000 (0.324 : ℝ)) = _
      rw [jStar_at_epoch]
    obtain ⟨y1, y2⟩ := solarNoon_at_epoch
    rw [← hs] at y1 y2
    exact (unix_of_noon_near_epoch _ hh y1 y2).1
  have hnext : nextInstant realMath ⟨946684992, 0⟩ true
      (NewLocation realMath ⟨"UTC"⟩ 946728000 (-89) 0.324)
      = goTime (solarNoonOf realMath (jepoch + 1) - 1 / 2) ⟨"UTC"⟩ := by
    rw [nextInstant_eq]
    have hlon : (NewLocation realMath ⟨"UTC"⟩ 946728000 (-89) 0.324).longitude = 0.324 := rfl
    have hlat : (NewLocation realMath ⟨"UTC"⟩ 946728000 (-89) 0.324).latitude = -89 := rfl
    have hz : (NewLocation realMath ⟨"UTC"⟩ 946728000 (-89) 0.324).location = ⟨"UTC"⟩ := rfl
    simp only [hlon, hlat, hz, if_true]
    rw [jStar_at_epoch_sunrise]
    have ha : hourAngleOf realMath (-89) (jepoch + 1) = 1 / 2 := by
      unfold hourAngleOf
      rw [acos_of_le_neg_one _ (hourAngleArg_south (j := jepoch + 1) (by simp) (by simp))]
      norm_num
    rw [ha]
  obtain ⟨y1, y2⟩ := solarNoon_day_after_epoch
  obtain ⟨r1, r2⟩ := goTime_unix_near (solarNoonOf realMath (jepoch + 1) - 1 / 2) ⟨"UTC"⟩
  have b1 : ((43409 : Int) : ℝ)
      < (((goTime (solarNoonOf realMath (jepoch + 1) - 1 / 2) ⟨"UTC"⟩).unix - uepoch : Int) : ℝ) := by
    refine lt_trans ?_ r1
    push_cast
    linarith
  have b2 : (((goTime (solarNoonOf realMath (jepoch + 1) - 1 / 2) ⟨"UTC"⟩).unix - uepoch : Int) : ℝ)
      < ((43441 : Int) : ℝ) := by
    refine lt_trans r2 ?_
    push_cast
    linarith
  have b1' := Int.cast_lt.mp b1
  have b2' := Int.cast_lt.mp b2
  rw [hnext]
  have hadd : ((goTime (solarNoonOf realMath (jepoch + 1) - 1 / 2) ⟨"UTC"⟩).Add (0 * Hour)).unix
      = (goTime (solarNoonOf realMath (jepoch + 1) - 1 / 2) ⟨"UTC"⟩).unix := by
    simp [Time.Add]
  rw [hadd]
  simp only [uepoch] at b1' b2'
  refine ⟨hfired, ?_, ?_, ?_⟩
  · omega
  · omega
  · omega

end RearmExample

/-! ## Two days at the end of September 1999, latitude -87° -/

section Autumn

/-- In the 95th day before the epoch the mean anomaly needs no
reduction. -/
theorem meanAnomaly_autumn {j : ℝ} (h0 : -95 ≤ j - jepoch) (h1 : j - jepoch ≤ -94) :
    meanAnomaly j = 357.5291 + 0.98560028 * (j - jepoch) := by
  have h := mod360_of_mem (x := 357.5291 + 0.98560028 * (j - jepoch)) (k := 0)
    (by norm_num; nlinarith) (by norm_num; nlinarith)
  simpa [meanAnomaly] using h

/-- The sine of an angle within 8° of 270° is between -1 and -0.98. -/
theorem sin_near_270 {m : ℝ} (h1 : 262 ≤ m) (h2 : m ≤ 278) :
    -1 ≤ sin realMath m ∧ sin realMath m ≤ -0.98 := by
  refine ⟨(abs_le.mp (abs_sin_realMath_le m)).1, ?_⟩
  rw [sin_realMath]
  have hpi1 := Real.pi_gt_d6
  have hpi2 := Real.pi_lt_d6
  have e1 : m * Real.pi / 180 = (m - 270) * Real.pi / 180 + Real.pi / 2 + Real.pi := by ring
  rw [e1, Real.sin_add_pi, Real.sin_add_pi_div_two]
  have hδ1 : (m - 270) * Real.pi / 180 ≤ 0.14 := by
    rw [div_le_iff₀ (by norm_num)]; nlinarith
  have hδ0 : -0.14 ≤ (m - 270) * Real.pi / 180 := by
    rw [le_div_iff₀ (by norm_num)]; nlinarith
  have h := Real.one_sub_sq_div_two_le_cos (x := (m - 270) * Real.pi / 180)
  nlinarith

/-- In the 95th day before the epoch the ecliptic longitude is the mean
anomaly less about 78.96°. -/
theorem eclipticLongitude_autumn {j : ℝ} (h0 : -95 ≤ j - jepoch) (h1 : j - jepoch ≤ -94) :
    357.5291 + 0.98560028 * (j - jepoch) - 78.9979 ≤ eclipticLongitude realMath j ∧
      eclipticLongitude realMath j ≤ 357.5291 + 0.98560028 * (j - jepoch) - 78.919 := by
  have hma := meanAnomaly_autumn h0 h1
  have hm1 : 262 ≤ meanAnomaly j := by rw [hma]; linarith
  have hm2 : meanAnomaly j ≤ 278 := by rw [hma]; linarith
  obtain ⟨a1, a1'⟩ := sin_near_270 hm1 hm2
  have a2 := abs_le.mp (abs_sin_realMath_le (2 * meanAnomaly j))
  have a3 := abs_le.mp (abs_sin_realMath_le (3 * meanAnomaly j))
  set c : ℝ := 1.9148 * sin realMath (meanAnomaly j) + 0.02 * sin realMath (2 * meanAnomaly j)
    + 0.0003 * sin realMath (3 * meanAnomaly j) with hc
  have hel : eclipticLongitude realMath j = mod360 (meanAnomaly j + 102.9372 + c + 180) := rfl
  have hc1 : -1.9351 ≤ c := by rw [hc]; linarith [a2.1, a3.1]
  have hc2 : c ≤ -1.8562 := by rw [hc]; linarith [a2.2, a3.2]
  have h := mod360_of_mem (x := meanAnomaly j + 102.9372 + c + 180) (k := 1)
    (by rw [hma]; norm_num; linarith) (by rw [hma]; norm_num; linarith)
  rw [hel, h, hma]
  constructor <;> norm_num <;> linarith

/-- The sine of an angle a little past 180°, from bounds on its excess in
radians. -/
theorem sin_past_180 {e a b : ℝ} (ha : 0 < a) (hb : b ≤ 1)
    (h1 : a ≤ (e - 180) * Real.pi / 180) (h2 : (e - 180) * Real.pi / 180 ≤ b) :
    -b ≤ sin realMath e ∧ sin realMath e ≤ -(a - b ^ 3 / 4) := by
  rw [sin_realMath]
  have e1 : e * Real.pi / 180 = (e - 180) * Real.pi / 180 + Real.pi := by ring
  rw [e1, Real.sin_add_pi]
  have hx0 : 0 < (e - 180) * Real.pi / 180 := lt_of_lt_of_le ha h1
  have g := Real.sin_gt_sub_cube hx0 (h2.trans hb)
  have l := Real.sin_lt hx0
  have p : ((e - 180) * Real.pi / 180) ^ 3 ≤ b ^ 3 := pow_le_pow_left₀ hx0.le h2 3
  constructor <;> linarith

/-- The sine of the ecliptic longitude on the two days. -/
theorem sin_el_autumn :
    (-0.08692 ≤ sin realMath (eclipticLongitude realMath (jepoch - 95)) ∧
      sin realMath (eclipticLongitude realMath (jepoch - 95)) ≤ -0.08517) ∧
    (-0.1042 ≤ sin realMath (eclipticLongitude realMath (jepoch - 94)) ∧
      sin realMath (eclipticLongitude realMath (jepoch - 94)) ≤ -0.10233) := by
  have hpi1 := Real.pi_gt_d6
  have hpi2 := Real.pi_lt_d6
  obtain ⟨d1, d2⟩ := eclipticLongitude_autumn (j := jepoch - 95) (by norm_num) (by norm_num)
  obtain ⟨n1, n2⟩ := eclipticLongitude_autumn (j := jepoch - 94) (by norm_num) (by norm_num)
  norm_num at d1 d2 n1 n2
  constructor
  · have h := sin_past_180 (e := eclipticLongitude realMath (jepoch - 95))
      (a := 0.08534) (b := 0.08692) (by norm_num) (by norm_num)
      (by rw [le_div_iff₀ (by norm_num)]; nlinarith)
      (by rw [div_le_iff₀ (by norm_num)]; nlinarith)
    norm_num at h
    constructor <;> linarith [h.1, h.2]
  · have h := sin_past_180 (e := eclipticLongitude realMath (jepoch - 94))
      (a := 0.10262) (b := 0.1042) (by norm_num) (by norm_num)
      (by rw [le_div_iff₀ (by norm_num)]; nlinarith)
      (by rw [div_le_iff₀ (by norm_num)]; nlinarith)
    norm_num at h
    constructor <;> linarith [h.1, h.2]

end Autumn

section AutumnArgs

/-- A tighter bracket for `sin 23.45°`. -/
theorem sin_obliquity_tight :
    0.3963 ≤ sin realMath 23.45 ∧ sin realMath 23.45 ≤ 0.3994 := by
  rw [sin_realMath]
  obtain ⟨h1, h2⟩ := rad_bounds (d := 23.45) (by norm_num)
  have hlo : (0.409279 : ℝ) ≤ 23.45 * Real.pi / 180 := by norm_num at h1; linarith
  have hhi : 23.45 * Real.pi / 180 ≤ (0.40928 : ℝ) := by norm_num at h2; linarith
  have hx0 : 0 ≤ 23.45 * Real.pi / 180 := by linarith
  have habs : |23.45 * Real.pi / 180| ≤ 1 := by rw [abs_of_nonneg hx0]; linarith
  have hs := abs_le.mp (Real.sin_bound habs)
  rw [abs_of_nonneg hx0] at hs
  have p3l : 0.409279 ^ 3 ≤ (23.45 * Real.pi / 180) ^ 3 := pow_le_pow_left₀ (by norm_num) hlo 3
  have p3h : (23.45 * Real.pi / 180) ^ 3 ≤ 0.40928 ^ 3 := pow_le_pow_left₀ hx0 hhi 3
  have p4h : (23.45 * Real.pi / 180) ^ 4 ≤ 0.40928 ^ 4 := pow_le_pow_left₀ hx0 hhi 4
  norm_num at p3l p3h p4h
  constructor
  · linarith [hs.1]
  · linarith [hs.2]

/-- Sines and cosines of -87° and -0.83°. -/
theorem latitude_87_bounds :
    sin realMath (-87) ≤ -0.9986 ∧ -1 ≤ sin realMath (-87) ∧
      0.0523 ≤ cos realMath (-87) ∧ cos realMath (-87) ≤ 0.05236 ∧
      -0.0145 ≤ sin realMath (-0.83) ∧ sin realMath (-0.83) ≤ -0.01448 := by
  have hpi1 := Real.pi_gt_d6
  have hpi2 := Real.pi_lt_d6
  have habs := (abs_le.mp (abs_sin_realMath_le (-87))).1
  obtain ⟨-, -, -, -, -, b6, -⟩ := small_angle_bounds
  refine ⟨?_, habs, ?_, ?_, b6, ?_⟩
  all_goals simp only [sin_realMath, cos_realMath]
  · have e : (-87 : ℝ) * Real.pi / 180 = -(Real.pi / 2 - 3 * Real.pi / 180) := by ring
    rw [e, Real.sin_neg, Real.sin_pi_div_two_sub]
    have hx1 : 3 * Real.pi / 180 ≤ 0.0524 := by
      rw [div_le_iff₀ (by norm_num)]; linarith
    have hx0 : 0 ≤ 3 * Real.pi / 180 := by positivity
    have hc := Real.one_sub_sq_div_two_le_cos (x := 3 * Real.pi / 180)
    nlinarith
  · have e : (-87 : ℝ) * Real.pi / 180 = -(Real.pi / 2 - 3 * Real.pi / 180) := by ring
    rw [e, Real.cos_neg, Real.cos_pi_div_two_sub]
    have hx0 : 0 < 3 * Real.pi / 180 := by positivity
    have hx1 : 3 * Real.pi / 180 ≤ 0.05236 := by
      rw [div_le_iff₀ (by norm_num)]; linarith
    have hx2 : 0.052359 ≤ 3 * Real.pi / 180 := by
      rw [le_div_iff₀ (by norm_num)]; linarith
    have g := Real.sin_gt_sub_cube hx0 (by linarith)
    have p : (3 * Real.pi / 180) ^ 3 ≤ 0.05236 ^ 3 := pow_le_pow_left₀ hx0.le hx1 3
    norm_num at p
    linarith
  · have e : (-87 : ℝ) * Real.pi / 180 = -(Real.pi / 2 - 3 * Real.pi / 180) := by ring
    rw [e, Real.cos_neg, Real.cos_pi_div_two_sub]
    have hx0 : 0 < 3 * Real.pi / 180 := by positivity
    have hx1 : 3 * Real.pi / 180 ≤ 0.05236 := by
      rw [div_le_iff₀ (by norm_num)]; linarith
    have l := Real.sin_lt hx0
    linarith
  · have e : (-0.83 : ℝ) * Real.pi / 180 = -(0.83 * Real.pi / 180) := by ring
    rw [e, Real.sin_neg]
    have hx0 : 0 < 0.83 * Real.pi / 180 := by positivity
    have hx1 : 0.83 * Real.pi / 180 ≤ 0.0145 := by
      rw [div_le_iff₀ (by norm_num)]; linarith
    have hx2 : 0.014486 ≤ 0.83 * Real.pi / 180 := by
      rw [le_div_iff₀ (by norm_num)]; linarith
    have g := Real.sin_gt_sub_cube hx0 (by linarith)
    have p : (0.83 * Real.pi / 180) ^ 3 ≤ 0.0145 ^ 3 := pow_le_pow_left₀ hx0.le hx1 3
    norm_num at p
    linarith

/-- The sine and cosine of the declination from bounds on the sine of the
ecliptic longitude. -/
theorem declination_of_sin_el {j a b : ℝ} (hlo : -0.11 ≤ a) (hhi : b ≤ 0)
    (h1 : a ≤ sin realMath (eclipticLongitude realMath j))
    (h2 : sin realMath (eclipticLongitude realMath j) ≤ b) :
    0.3994 * a ≤ sin realMath (declinationOf realMath j) ∧
      sin realMath (declinationOf realMath j) ≤ 0.3963 * b ∧
      0.999 ≤ cos realMath (declinationOf realMath j) ∧
      cos realMath (declinationOf realMath j) ≤ 1 := by
  obtain ⟨o1, o2⟩ := sin_obliquity_tight
  set t : ℝ := sin realMath (eclipticLongitude realMath j) * sin realMath 23.45 with ht
  have hd : declinationOf realMath j = asin realMath t := rfl
  have t1 : 0.3994 * a ≤ t := by rw [ht]; nlinarith
  have t2 : t ≤ 0.3963 * b := by rw [ht]; nlinarith
  have t3 : -0.044 ≤ t := by linarith
  have t4 : t ≤ 0 := by nlinarith
  rw [hd, sin_asin_realMath (by linarith) (by linarith), cos_asin_realMath]
  refine ⟨t1, t2, ?_, ?_⟩
  · apply Real.le_sqrt_of_sq_le; nlinarith
  · rw [Real.sqrt_le_left (by norm_num)]; nlinarith [sq_nonneg t]

/-- At latitude -87° the argument of the arccosine is above -0.95 on the
95th day before the epoch and at most -1 on the 94th. -/
theorem hourAngleArg_autumn :
    -0.95 ≤ hourAngleArg realMath (-87) (jepoch - 95) ∧
      hourAngleArg realMath (-87) (jepoch - 94) ≤ -1 := by
  obtain ⟨⟨a1, a2⟩, ⟨b1, b2⟩⟩ := sin_el_autumn
  obtain ⟨d1, d2, d3, d4⟩ := declination_of_sin_el (j := jepoch - 95)
    (a := -0.08692) (b := -0.08517) (by norm_num) (by norm_num) a1 a2
  obtain ⟨n1, n2, n3, n4⟩ := declination_of_sin_el (j := jepoch - 94)
    (a := -0.1042) (b := -0.10233) (by norm_num) (by norm_num) b1 b2
  obtain ⟨s1, s2, c1, c2, z1, z2⟩ := latitude_87_bounds
  norm_num at d1 d2 n1 n2
  constructor
  · unfold hourAngleArg
    have hD : 0 < cos realMath (-87) * cos realMath (declinationOf realMath (jepoch - 95)) :=
      mul_pos (by linarith) (by linarith)
    rw [le_div_iff₀ hD]
    nlinarith
  · unfold hourAngleArg
    have hD : 0 < cos realMath (-87) * cos realMath (declinationOf realMath (jepoch - 94)) :=
      mul_pos (by linarith) (by linarith)
    rw [div_le_iff₀ hD]
    nlinarith

/-- The clamped arccosine of a number above -0.95 is at most 172.5°. -/
theorem acos_le_of_ge {a : ℝ} (h : -0.95 ≤ a) : acos realMath a ≤ 172.5 := by
  have hpi1 := Real.pi_gt_d6
  have hpi2 := Real.pi_lt_d6
  have hpi0 : 0 < Real.pi := Real.pi_pos
  rcases le_or_lt 1 a with h1 | h1
  · rw [acos_of_one_le _ h1]; norm_num
  · rw [acos_of_mem _ (by linarith) h1]
    show Real.arccos a * 180 / Real.pi ≤ 172.5
    have e : (82.5 : ℝ) * Real.pi / 180 = Real.pi / 2 - 7.5 * Real.pi / 180 := by ring
    have hx1 : 7.5 * Real.pi / 180 ≤ 0.1309 := by
      rw [div_le_iff₀ (by norm_num)]; linarith
    have hx0 : 0 ≤ 7.5 * Real.pi / 180 := by positivity
    have hc := Real.one_sub_sq_div_two_le_cos (x := 7.5 * Real.pi / 180)
    have hsin : Real.sin (-(82.5 * Real.pi / 180)) ≤ a := by
      rw [Real.sin_neg, e, Real.sin_pi_div_two_sub]
      nlinarith
    have has : -(82.5 * Real.pi / 180) ≤ Real.arcsin a := by
      rw [Real.le_arcsin_iff_sin_le ⟨by linarith, by linarith⟩ ⟨by linarith, by linarith⟩]
      exact hsin
    rw [Real.arccos_eq_pi_div_two_sub_arcsin, div_le_iff₀ hpi0]
    linarith

/-- On the 94th day before the epoch solar noon is more than 0.005 days
before the anchor. -/
theorem solarNoon_autumn :
    solarNoonOf realMath (jepoch - 94) ≤ (jepoch - 94) - 0.005 := by
  have hpi1 := Real.pi_gt_d6
  have hpi2 := Real.pi_lt_d6
  have hma := meanAnomaly_autumn (j := jepoch - 94) (by norm_num) (by norm_num)
  obtain ⟨m1, m2⟩ := sin_near_270 (m := meanAnomaly ((jepoch : ℝ) - 94))
    (by rw [hma]; norm_num) (by rw [hma]; norm_num)
  obtain ⟨e1, e2⟩ := eclipticLongitude_autumn (j := jepoch - 94) (by norm_num) (by norm_num)
  norm_num at e1 e2
  have hs : 0 ≤ sin realMath (2 * eclipticLongitude realMath (jepoch - 94)) := by
    rw [sin_realMath]
    have e : 2 * eclipticLongitude realMath (jepoch - 94) * Real.pi / 180
        = (2 * eclipticLongitude realMath (jepoch - 94) - 360) * Real.pi / 180 + 2 * Real.pi := by
      ring
    rw [e, Real.sin_add_two_pi]
    apply le_of_lt
    apply Real.sin_pos_of_pos_of_le_one
    · apply div_pos _ (by norm_num); nlinarith
    · rw [div_le_iff₀ (by norm_num)]; nlinarith
  unfold solarNoonOf
  linarith

/-- At Unix time 938563100 and longitude 0.324° the day anchor is the 95th
day before the epoch. -/
theorem jStar_autumn : jStar 938563100 (0.324 : ℝ) = jepoch - 95 := by
  have hf : ⌊(julianDay 938563100 - 0.0009 + 0.324 / 360 + 0.5 : ℝ)⌋ = 2451450 := by
    rw [Int.floor_eq_iff]
    simp only [julianDay, uepoch, jepoch]
    norm_num
  simp only [jStar, floorF, hf, jepoch]
  norm_num

end AutumnArgs

section StartInstants

/-- The instants `nextSunrise` and `nextSunset` would return at the moment
`now`: the sunset is always later than `now`, the sunrise is later than
`now` when the next day's half-day arc is at most 23/48. -/
theorem next_instants_after_now (now : Moment) (l : Location ℝ) :
    now.unix < (nextInstant realMath now false l).unix ∧
      (hourAngleOf realMath l.latitude (jStar now.unix l.longitude + 1) ≤ 23 / 48 →
        now.unix < (nextInstant realMath now true l).unix) := by
  obtain ⟨j1, -, -⟩ := jStar_bounds now.unix l.longitude
  obtain ⟨s1, -⟩ := solarNoonOf_near (jStar now.unix l.longitude + 1)
  obtain ⟨h0, -⟩ := hourAngleOf_range l.latitude (jStar now.unix l.longitude + 1)
  have hsec := julianDay_seconds (F := ℝ) now.unix
  constructor
  · rw [nextInstant_eq]
    simp only [Bool.false_eq_true, if_false]
    obtain ⟨r1, -⟩ := goTime_unix_near (solarNoonOf realMath (jStar now.unix l.longitude + 1)
      + hourAngleOf realMath l.latitude (jStar now.unix l.longitude + 1)) l.location
    have a : ((now.unix - uepoch : Int) : ℝ)
        < (((goTime (solarNoonOf realMath (jStar now.unix l.longitude + 1)
            + hourAngleOf realMath l.latitude (jStar now.unix l.longitude + 1))
            l.location).unix - uepoch : Int) : ℝ) := by
      refine lt_trans ?_ r1
      push_cast at hsec ⊢
      nlinarith
    have a' := Int.cast_lt.mp a
    omega
  · intro h
    rw [nextInstant_eq]
    simp only [if_true]
    obtain ⟨r1, -⟩ := goTime_unix_near (solarNoonOf realMath (jStar now.unix l.longitude + 1)
      - hourAngleOf realMath l.latitude (jStar now.unix l.longitude + 1)) l.location
    have a : ((now.unix - uepoch : Int) : ℝ)
        < (((goTime (solarNoonOf realMath (jStar now.unix l.longitude + 1)
            - hourAngleOf realMath l.latitude (jStar now.unix l.longitude + 1))
            l.location).unix - uepoch : Int) : ℝ) := by
      refine lt_trans ?_ r1
      push_cast at hsec ⊢
      nlinarith
    have a' := Int.cast_lt.mp a
    omega

theorem not_after_of_lt (now : Moment) (t : Time) (h : now.unix < t.unix) :
    now.After t = false := by
  simp only [Moment.After, decide_eq_false_iff_not]
  omega

theorem after_of_lt (now : Moment) (t : Time) (h : t.unix < now.unix) :
    now.After t = true := by
  simp only [Moment.After, decide_eq_true_eq]
  omega

/-- C15 (as the code behaves): `Start` takes today's sunrise and sunset and
replaces each one that `now` is after by the instant of today's day anchor
advanced by one day.  The sunset base instant is never before `now`.  The
sunrise base instant is not before `now` when the next day (day anchor
`jStar now + 1`) has at most 23 hours of daylight. -/
theorem start_base_instants_not_past (now : Moment) (l : LocTask ℝ) :
    now.After (startInstants realMath now l).2.1 = false ∧
      (startInstants realMath now l).1
        = (if now.After (Sunrise (Today realMath now.unix l.location))
            then Sunrise (AddDays realMath 1 (Today realMath now.unix l.location))
            else Sunrise (Today realMath now.unix l.location)) ∧
      (startInstants realMath now l).2.1
        = (if now.After (Sunset (Today realMath now.unix l.location))
            then Sunset (AddDays realMath 1 (Today realMath now.unix l.location))
            else Sunset (Today realMath now.unix l.location)) ∧
      ((AddDays realMath 1 (Today realMath now.unix l.location)).hourAngleInDays ≤ 23 / 48 →
        now.After (startInstants realMath now l).1 = false) := by
  obtain ⟨v1, v2⟩ := startInstants_values realMath now l
  obtain ⟨n1, n2⟩ := next_instants_after_now now l.location
  simp only [nextInstant, if_true, Bool.false_eq_true, if_false] at n1 n2
  refine ⟨?_, v1, v2, fun h => ?_⟩
  · rw [v2]
    split_ifs with hc
    · exact not_after_of_lt _ _ n1
    · simpa using hc
  · have hj : (AddDays realMath 1 (Today realMath now.unix l.location)).hourAngleInDays
        = hourAngleOf realMath l.location.latitude (jStar now.unix l.location.longitude + 1) := by
      show hourAngleOf realMath l.location.latitude
        (jStar now.unix l.location.longitude + ((1 : Int) : ℝ)) = _
      push_cast
      rfl
    rw [hj] at h
    rw [v1]
    split_ifs with hc
    · exact not_after_of_lt _ _ (n2 h)
    · simpa using hc

/-- C15, witness: the scheduler built at latitude 0, longitude 0, started
at Unix time 946728000; at the equator every day has less than 23 hours of
daylight. -/
theorem start_base_instants_not_past_witness :
    Moment.After ⟨946728000, 0⟩
        (startInstants realMath ⟨946728000, 0⟩ (New realMath ⟨"UTC"⟩ 946728000 0 0)).1 = false ∧
      Moment.After ⟨946728000, 0⟩
        (startInstants realMath ⟨946728000, 0⟩ (New realMath ⟨"UTC"⟩ 946728000 0 0)).2.1
          = false := by
  have h : (AddDays realMath 1 (Today realMath (⟨946728000, 0⟩ : Moment).unix
      (New realMath ⟨"UTC"⟩ 946728000 0 0).location)).hourAngleInDays ≤ 23 / 48 := by
    have := (hourAngleOf_equator (jStar 946728000 (0 : ℝ) + ((1 : Int) : ℝ))).2
    show hourAngleOf realMath 0 (jStar 946728000 (0 : ℝ) + ((1 : Int) : ℝ)) ≤ 23 / 48
    linarith
  have w := start_base_instants_not_past ⟨946728000, 0⟩ (New realMath ⟨"UTC"⟩ 946728000 0 0)
  exact ⟨w.2.2.2 h, w.1⟩

/-- C15, counterexample: latitude -87°, longitude 0.324°, started at Unix
time 938563100 (1999-09-28 23:58:20 UTC, day anchor 2451450).  Today's
half-day arc is at most 23/48 (at most 23 hours of daylight), today's
sunrise is past, and the sunrise of the next day anchor, a day of 24-hour
daylight, is before `now` as well: `Start` arms from a sunrise base instant
more than 300 seconds before the current moment. -/
theorem start_sunrise_base_in_past :
    (Today realMath 938563100
        (New realMath ⟨"UTC"⟩ 938563100 (-87) 0.324).location).hourAngleInDays ≤ 23 / 48 ∧
      (startInstants realMath ⟨938563100, 0⟩
        (New realMath ⟨"UTC"⟩ 938563100 (-87) 0.324)).1.unix < 938563100 - 300 ∧
      Moment.After ⟨938563100, 0⟩
        (startInstants realMath ⟨938563100, 0⟩
          (New realMath ⟨"UTC"⟩ 938563100 (-87) 0.324)).1 = true := by
  obtain ⟨g1, g2⟩ := hourAngleArg_autumn
  have hj : jStar 938563100 (0.324 : ℝ) = jepoch - 95 := jStar_autumn
  -- today
  have htoday : (Today realMath 938563100
      (New realMath ⟨"UTC"⟩ 938563100 (-87) 0.324).location).hourAngleInDays ≤ 23 / 48 := by
    show hourAngleOf realMath (-87) (jStar 938563100 (0.324 : ℝ)) ≤ 23 / 48
    rw [hj]
    unfold hourAngleOf
    have := acos_le_of_ge g1
    rw [div_le_iff₀ (by norm_num)]
    linarith
  -- today's sunrise is past
  have hpast : Moment.After ⟨938563100, 0⟩ (Sunrise (Today realMath 938563100
      (New realMath ⟨"UTC"⟩ 938563100 (-87) 0.324).location)) = true := by
    apply after_of_lt
    have hs : (Today realMath 938563100
        (New realMath ⟨"UTC"⟩ 938563100 (-87) 0.324).location).solarNoon
        = solarNoonOf realMath (jepoch - 95) := by
      show solarNoonOf realMath (jStar 938563100 (0.324 : ℝ)) = _
      rw [hj]
    have hh : (Today realMath 938563100
        (New realMath ⟨"UTC"⟩ 938563100 (-87) 0.324).location).hourAngleInDays
        = hourAngleOf realMath (-87) (jepoch - 95) := by
      show hourAngleOf realMath (-87) (jStar 938563100 (0.324 : ℝ)) = _
      rw [hj]
    obtain ⟨-, s2⟩ := solarNoonOf_near ((jepoch : ℝ) - 95)
    obtain ⟨h0, -⟩ := hourAngleOf_range (-87) ((jepoch : ℝ) - 95)
    simp only [Sunrise, hs, hh]
    obtain ⟨-, r2⟩ := goTime_unix_near
      (solarNoonOf realMath (jepoch - 95) - hourAngleOf realMath (-87) (jepoch - 95))
      (Today realMath 938563100 (New realMath ⟨"UTC"⟩ 938563100 (-87) 0.324).location).location
    have a : (((goTime
        (solarNoonOf realMath (jepoch - 95) - hourAngleOf realMath (-87) (jepoch - 95))
        (Today realMath 938563100
          (New realMath ⟨"UTC"⟩ 938563100 (-87) 0.324).location).location).unix
          - uepoch : Int) : ℝ) < ((-8206900 : Int) : ℝ) := by
      refine lt_trans r2 ?_
      push_cast
      linarith
    have a' := Int.cast_lt.mp a
    simp only [uepoch] at a'
    show _ < (938563100 : Int)
    omega
  -- the next day's sunrise
  have hnext : (Sunrise (AddDays realMath 1 (Today realMath 938563100
      (New realMath ⟨"UTC"⟩ 938563100 (-87) 0.324).location))).unix < 938563100 - 300 := by
    have e := nextInstant_eq realMath ⟨938563100, 0⟩ true
      (New realMath ⟨"UTC"⟩ 938563100 (-87) 0.324).location
    simp only [nextInstant, if_true] at e
    rw [e]
    have hlon : (New realMath ⟨"UTC"⟩ 938563100 (-87) 0.324).location.longitude = 0.324 := rfl
    have hlat : (New realMath ⟨"UTC"⟩ 938563100 (-87) 0.324).location.latitude = -87 := rfl
    simp only [hlon, hlat]
    rw [hj]
    have e94 : (jepoch : ℝ) - 95 + 1 = jepoch - 94 := by ring
    rw [e94]
    have ha : hourAngleOf realMath (-87) (jepoch - 94) = 1 / 2 := by
      unfold hourAngleOf
      rw [acos_of_le_neg_one _ g2]
      norm_num
    rw [ha]
    have sn := solarNoon_autumn
    obtain ⟨-, r2⟩ := goTime_unix_near (solarNoonOf realMath (jepoch - 94) - 1 / 2)
      (New realMath ⟨"UTC"⟩ 938563100 (-87) 0.324).location.location
    have a : (((goTime (solarNoonOf realMath (jepoch - 94) - 1 / 2)
        (New realMath ⟨"UTC"⟩ 938563100 (-87) 0.324).location.location).unix
          - uepoch : Int) : ℝ) < ((-8165230 : Int) : ℝ) := by
      refine lt_trans r2 ?_
      push_cast
      linarith
    have a' := Int.cast_lt.mp a
    simp only [uepoch] at a'
    omega
  obtain ⟨v1, -⟩ := startInstants_values realMath ⟨938563100, 0⟩
    (New realMath ⟨"UTC"⟩ 938563100 (-87) 0.324)
  have hv : (startInstants realMath ⟨938563100, 0⟩
      (New realMath ⟨"UTC"⟩ 938563100 (-87) 0.324)).1
      = Sunrise (AddDays realMath 1 (Today realMath 938563100
          (New realMath ⟨"UTC"⟩ 938563100 (-87) 0.324).location)) := by
    rw [v1]
    exact if_pos hpast
  refine ⟨htoday, ?_, ?_⟩
  · rw [hv]; exact hnext
  · rw [hv]
    apply after_of_lt
    show _ < (938563100 : Int)
    omega

end StartInstants

end SunriseGo
